import Mathlib

/-!
# Timeless New Year: a verification development of `script.js`

A shallow embedding of the browser script: the global `state`, the three
singleton objects `AudioManager`, `Fireworks` and `Experience`, the timer queue
behind `setTimeout` and the frame callbacks behind `requestAnimationFrame`.

Modelling conventions.

* JavaScript numbers are read as exact numbers of an ordered field `α`
  (`ℚ` for evaluation, `ℝ` where a square root or `Math.cos` is needed). The
  burst of `explode`, where rounding decides a bound, is also given in binary64
  (`round64` after every operation).
* `Math.random`, `Math.cos`, `Math.sin` and `Math.PI` come from the host
  (`Host`); the `k`-th call of `Math.random` returns `host.random k`.
* A closure handed to `setTimeout` is a constructor of `Callback`; the timer
  queue is kept ordered by due time, first-in first-out among equal due times,
  and a timer fires exactly when it is due unless the clock has run past it.
* Canvas pixels, the star field and the static texts are not modelled. One run
  of the frame callback of an audio fade is modelled (`AudioManager.fadeIn`,
  `AudioManager.fadeOut`), with the `volume` setter throwing outside `[0, 1]`;
  the fades are not part of the world.
* Two history fields, `phaseLog` and `shown`, record every assignment to
  `state.phase` and to `countdownNumber.textContent` with the clock value.
-/

namespace NewYear

/-! ## Configuration -/

/-- The object `timingConfig` (script.js lines 37-52), milliseconds. -/
structure TimingConfig where
  initiationDuration : Int
  countdownInterval : Int
  numberFadeIn : Int
  numberHold : Int
  numberDissolve : Int
  zeroMomentPause : Int
  fireworksDuration : Int
  messageDelay : Int
  controlsDelay : Int
  audioFadeInDuration : Int
  audioFadeOutDuration : Int
deriving DecidableEq, Repr

/-- The values written in the source. -/
def timingConfig : TimingConfig where
  initiationDuration := 2000
  countdownInterval := 1000
  numberFadeIn := 100
  numberHold := 600
  numberDissolve := 300
  zeroMomentPause := 300
  fireworksDuration := 8000
  messageDelay := 1500
  controlsDelay := 5000
  audioFadeInDuration := 2000
  audioFadeOutDuration := 3000

/-! ## Global state -/

/-- The values `state.phase` takes (script.js line 68). -/
inductive Phase where
  | arrival
  | initiation
  | countdown
  | zero
  | release
  | message
  | afterglow
deriving DecidableEq, Repr

/-- The object `state` (script.js lines 67-72). -/
structure State where
  phase : Phase
  countdownValue : Int
  isMuted : Bool
  audioInitialized : Bool
deriving DecidableEq, Repr

/-! ## DOM class lists -/

/-- The class tokens the script adds and removes; `pressure i` is the token
written by the template string with the number `i` substituted. -/
inductive Cls where
  | active
  | immersive
  | visible
  | dissolve
  | muted
  | pressure (i : Int)
  | other (s : String)
deriving DecidableEq, Repr

/-- The method `classList.add`: a token already present is not added again. -/
def classAdd (c : Cls) (l : List Cls) : List Cls :=
  if c ∈ l then l else l ++ [c]

/-- The method `classList.remove`. -/
def classRemove (c : Cls) (l : List Cls) : List Cls :=
  l.filter (fun d => decide (d ≠ c))

/-- The method `classList.toggle(token, force)`. -/
def classToggle (c : Cls) (force : Bool) (l : List Cls) : List Cls :=
  if force then classAdd c l else classRemove c l

/-- The loop `for (let i = 1; i <= 10; i++) classList.remove(pressure-i)`
(script.js lines 537-539 and 637-639). -/
def removePressure (l : List Cls) : List Cls :=
  [1, 2, 3, 4, 5, 6, 7, 8, 9, 10].foldl (fun acc i => classRemove (Cls.pressure i) acc) l

/-- The elements cached in `Experience.elements` whose classes or text the
script changes. -/
structure Dom where
  body : List Cls
  phaseArrival : List Cls
  phaseCountdown : List Cls
  phaseMessage : List Cls
  countdownNumber : List Cls
  countdownText : Option Int
  controls : List Cls
  soundToggle : List Cls
deriving DecidableEq, Repr

/-! ## Audio manager -/

/-- An `HTMLAudioElement`, with the fields the script reads or writes;
`plays` counts the calls of `play()`. -/
structure AudioEl (α : Type) where
  volume : α
  currentTime : α
  loop : Bool
  muted : Bool
  paused : Bool
  plays : Nat

/-- The element `new Audio(src)` returns. -/
def newAudio {α : Type} [LinearOrderedField α] : AudioEl α where
  volume := 1
  currentTime := 0
  loop := false
  muted := false
  paused := true
  plays := 0

/-- The object `audioConfig` (script.js lines 54-61), volumes only. -/
structure AudioConfig (α : Type) where
  ambientVolume : α
  tickVolume : α
  fireworkVolume : α

/-- The values written in the source. -/
def audioConfig {α : Type} [LinearOrderedField α] : AudioConfig α where
  ambientVolume := 0.4
  tickVolume := 0.15
  fireworkVolume := 0.3

/-- The fields of the object `AudioManager` (script.js lines 79-83);
`context` tells whether the audio context exists, `ambientGain` holds the gain
value of the gain node. -/
structure AudioManager (α : Type) where
  context : Bool
  ambientGain : Option α
  ambient : Option (AudioEl α)
  tick : Option (AudioEl α)
  firework : Option (AudioEl α)

/-- The try block of `AudioManager.init` (script.js lines 88-108). The five
constructions are numbered 0 (audio context), 1 (gain node), 2, 3, 4 (the three
`Audio` elements); `failAt = some k` means that construction `k` throws, which
leaves the earlier assignments in place. Returns the manager and whether the
block ran to its end. -/
def AudioManager.tryInit {α : Type} [LinearOrderedField α] (failAt : Option Nat)
    (a : AudioManager α) : AudioManager α × Bool :=
  if failAt = some 0 then (a, false) else
  let a1 := { a with context := true }
  if failAt = some 1 then (a1, false) else
  let a2 := { a1 with ambientGain := some 0 }
  if failAt = some 2 then (a2, false) else
  let a3 := { a2 with
    ambient := some { (newAudio : AudioEl α) with loop := true, volume := audioConfig.ambientVolume } }
  if failAt = some 3 then (a3, false) else
  let a4 := { a3 with tick := some { (newAudio : AudioEl α) with volume := audioConfig.tickVolume } }
  if failAt = some 4 then (a4, false) else
  let a5 := { a4 with
    firework := some { (newAudio : AudioEl α) with volume := audioConfig.fireworkVolume } }
  (a5, true)

/-- The method `AudioManager.init` (script.js lines 85-112): returns at once
when `state.audioInitialized` is set, otherwise runs the try block; the catch
clause swallows the exception. The second component is the new value of
`state.audioInitialized`. -/
def AudioManager.init {α : Type} [LinearOrderedField α] (failAt : Option Nat)
    (audioInitialized : Bool) (a : AudioManager α) : AudioManager α × Bool :=
  if audioInitialized then (a, true) else AudioManager.tryInit failAt a

/-- The part of `AudioManager.playAmbient` that runs before its `await`
(script.js lines 115-119): the volume is set to zero and `play()` is called.
The fade that follows the `await` is driven by frame callbacks of its own. -/
def AudioManager.playAmbient {α : Type} [LinearOrderedField α] (isMuted : Bool)
    (a : AudioManager α) : AudioManager α :=
  match a.ambient with
  | none => a
  | some el =>
    if isMuted then a
    else { a with ambient := some { el with volume := 0, paused := false, plays := el.plays + 1 } }

/-- The method `AudioManager.playTick` (script.js lines 126-135). -/
def AudioManager.playTick {α : Type} [LinearOrderedField α] (isMuted : Bool)
    (a : AudioManager α) : AudioManager α :=
  match a.tick with
  | none => a
  | some el =>
    if isMuted then a
    else { a with tick := some { el with currentTime := 0, paused := false, plays := el.plays + 1 } }

/-- The method `AudioManager.playFirework` (script.js lines 137-146). -/
def AudioManager.playFirework {α : Type} [LinearOrderedField α] (isMuted : Bool)
    (a : AudioManager α) : AudioManager α :=
  match a.firework with
  | none => a
  | some el =>
    if isMuted then a
    else { a with firework := some { el with currentTime := 0, paused := false, plays := el.plays + 1 } }

/-- The assignments to `muted` in `AudioManager.toggleMute` (script.js lines
191-199), given the new flag. -/
def AudioManager.applyMute {α : Type} (flag : Bool) (a : AudioManager α) : AudioManager α :=
  { a with
    ambient := a.ambient.map (fun el => { el with muted := flag })
    tick := a.tick.map (fun el => { el with muted := flag })
    firework := a.firework.map (fun el => { el with muted := flag }) }

/-- The method `AudioManager.easeOut` (script.js lines 184-186). -/
def AudioManager.easeOut {α : Type} [LinearOrderedField α] (t : α) : α :=
  1 - (1 - t) ^ 3

/-- The value of `progress` in the closure `fade` (script.js lines 153-154 and
171-172); `startTime` is the clock value `fadeIn` or `fadeOut` recorded. The
script passes the durations 2000 and 1000; for a zero duration the division
here yields 0, not what JavaScript yields. -/
def AudioManager.progress {α : Type} [LinearOrderedField α] (startTime duration currentTime : α) :
    α :=
  min ((currentTime - startTime) / duration) 1

/-- The setter of `volume` on an audio element, as the assignments of lines 156
and 174 run it: a value in `[0, 1]` is stored; any other value makes the setter
throw `IndexSizeError` and the volume stays as it was (`none`). -/
def AudioEl.setVolume {α : Type} [LinearOrderedField α] (v : α) (audio : AudioEl α) :
    Option (AudioEl α) :=
  if 0 ≤ v ∧ v ≤ 1 then some { audio with volume := v } else none

/-- The outcome of one run of a closure `fade`: the element afterwards, whether
`requestAnimationFrame(fade)` was called again, and whether the run ended in an
uncaught exception. -/
structure FadeFrame (α : Type) where
  audio : AudioEl α
  again : Bool
  threw : Bool

/-- The right-hand side of the assignment in the closure of `fadeIn` (script.js
line 156). -/
def AudioManager.fadeInVolume {α : Type} [LinearOrderedField α]
    (startVolume targetVolume progress : α) : α :=
  startVolume + (targetVolume - startVolume) * AudioManager.easeOut progress

/-- The right-hand side of the assignment in the closure of `fadeOut`
(script.js line 174). -/
def AudioManager.fadeOutVolume {α : Type} [LinearOrderedField α] (startVolume progress : α) : α :=
  startVolume * (1 - AudioManager.easeOut progress)

/-- The closure `fade` of `AudioManager.fadeIn` (script.js lines 148-164), run
with the frame timestamp `currentTime`; `startVolume` and `startTime` are the
constants `fadeIn` captured. When the assignment of line 156 throws, the
statement of lines 158-160 is not reached: the element is unchanged and no
frame is requested. -/
def AudioManager.fadeIn {α : Type} [LinearOrderedField α]
    (startVolume targetVolume startTime duration currentTime : α) (audio : AudioEl α) :
    FadeFrame α :=
  let progress := AudioManager.progress startTime duration currentTime
  match audio.setVolume (AudioManager.fadeInVolume startVolume targetVolume progress) with
  | some a => { audio := a, again := decide (progress < 1), threw := false }
  | none => { audio := audio, again := false, threw := true }

/-- The closure `fade` of `AudioManager.fadeOut` (script.js lines 166-182);
when the assignment of line 174 throws, lines 176-178 are not reached. -/
def AudioManager.fadeOut {α : Type} [LinearOrderedField α]
    (startVolume startTime duration currentTime : α) (audio : AudioEl α) : FadeFrame α :=
  let progress := AudioManager.progress startTime duration currentTime
  match audio.setVolume (AudioManager.fadeOutVolume startVolume progress) with
  | some a => { audio := a, again := decide (progress < 1), threw := false }
  | none => { audio := audio, again := false, threw := true }

/-! ## Fireworks: entities -/

/-- A rocket (script.js lines 331-337); a trail sample is the pair `(x, y)`. -/
structure Rocket (α : Type) where
  x : α
  y : α
  targetY : α
  speed : α
  trail : List (α × α)

/-- A particle (script.js lines 359-369); a trail sample is `(x, y, life)`;
`color` is `none` when the palette lookup is out of range. -/
structure Particle (α : Type) where
  x : α
  y : α
  vx : α
  vy : α
  life : α
  decay : α
  color : Option String
  size : α
  trail : List (α × α × α)

/-- The fields of the object `Fireworks` (script.js lines 273-279); `width`
and `height` are those of its canvas, `canvasClasses` its class list, and
`chains` counts the `requestAnimationFrame` chains `animate` keeps alive. -/
structure Fireworks (α : Type) where
  width : α
  height : α
  canvasClasses : List Cls
  particles : List (Particle α)
  rockets : List (Rocket α)
  chains : Nat
  isActive : Bool

/-! ## Host, timers and the world -/

/-- What the script takes from the browser: the successive results of
`Math.random`, and `Math.cos`, `Math.sin`, `Math.PI`. -/
structure Host (α : Type) where
  random : Nat → α
  cos : α → α
  sin : α → α
  pi : α

/-- The closures handed to `setTimeout`, one constructor per call site:
`begin` (line 516), `showNumber` (lines 551 and 556), `zeroMoment` (579),
`release` (592 and 597), `afterglow` (619), `launchSequence` (319) and
`Fireworks.fadeOut` (441). -/
inductive Callback (α : Type) where
  | startCountdown
  | dissolve
  | advance
  | release
  | showMessage
  | afterglow
  | showControls
  | launch (x : α)
  | canvasInactive
deriving DecidableEq

/-- A pending timer: the clock value at which it is due and its closure. -/
structure Timer (α : Type) where
  due : Nat
  cb : Callback α
deriving DecidableEq

/-- The whole program state. -/
structure World (α : Type) where
  state : State
  audio : AudioManager α
  fw : Fireworks α
  dom : Dom
  host : Host α
  rngPos : Nat
  timers : List (Timer α)
  now : Nat
  phaseLog : List (Nat × Phase)
  shown : List (Nat × Int)

/-- Queue a timer behind every timer that is due no later than it. -/
def insertTimer {α : Type} (t : Timer α) : List (Timer α) → List (Timer α)
  | [] => [t]
  | u :: us => if t.due < u.due then t :: u :: us else u :: insertTimer t us

/-- The function `setTimeout(cb, delay)`: a negative delay counts as zero. -/
def setTimeout {α : Type} (cb : Callback α) (delay : Int) (w : World α) : World α :=
  { w with timers := insertTimer { due := w.now + delay.toNat, cb := cb } w.timers }

/-- The assignment `state.phase = p`, recorded in `phaseLog`. -/
def setPhase {α : Type} (p : Phase) (w : World α) : World α :=
  { w with state := { w.state with phase := p }, phaseLog := w.phaseLog ++ [(w.now, p)] }

/-- The result of the `k`-th call of `Math.random` counted from now. -/
def rand {α : Type} (w : World α) (k : Nat) : α :=
  w.host.random (w.rngPos + k)

/-! ## Fireworks: operations -/

/-- The launch table of `launchSequence` (script.js lines 303-316): delay in
milliseconds and horizontal fraction. -/
def launches {α : Type} [LinearOrderedField α] : List (Int × α) :=
  [(0, 0.5), (800, 0.3), (1200, 0.7), (2000, 0.4), (2500, 0.6), (3200, 0.2),
   (3800, 0.8), (4500, 0.5), (5200, 0.35), (5800, 0.65), (6500, 0.45), (7200, 0.55)]

/-- The method `Fireworks.launchSequence` (script.js lines 301-325): one timer
per table entry, in table order. -/
def Fireworks.launchSequence {α : Type} [LinearOrderedField α] (w : World α) : World α :=
  (launches : List (Int × α)).foldl (fun acc l => setTimeout (Callback.launch l.2) l.1 acc) w

/-- The method `Fireworks.createRocket` (script.js lines 327-338); it calls
`Math.random` twice, for `targetY` and then for `speed`. -/
def Fireworks.createRocket {α : Type} [LinearOrderedField α] (xPercent : α) (w : World α) :
    World α :=
  let x := w.fw.width * xPercent
  let targetY := w.fw.height * (0.2 + rand w 0 * 0.3)
  let r : Rocket α :=
    { x := x, y := w.fw.height, targetY := targetY, speed := 8 + rand w 1 * 4, trail := [] }
  { w with fw := { w.fw with rockets := w.fw.rockets ++ [r] }, rngPos := w.rngPos + 2 }

/-- The palette of `explode` (script.js lines 344-350). -/
def colors : List String :=
  ["rgba(255, 230, 200, ", "rgba(255, 200, 150, ", "rgba(255, 180, 140, ",
   "rgba(200, 180, 255, ", "rgba(180, 200, 255, "]

/-- The array lookup `colors[i]`, `none` for `undefined`. -/
def colorAt (i : Int) : Option String :=
  if 0 ≤ i then colors[i.toNat]? else none

/-- The particle pushed by iteration `i` of the loop of `explode` (script.js
lines 356-369), read over exact arithmetic; `Fireworks.burstParticleWith` below
is the same loop body with the rounding of binary64. Iteration `i` makes the
calls number `2 + 4 i` to `2 + 4 i + 3` of `Math.random` counted from the entry
of `explode`: jitter, velocity, decay, size. -/
def Fireworks.burstParticle {α : Type} [LinearOrderedField α] (w : World α) (x y : α)
    (color : Option String) (particleCount : Int) (i : Nat) : Particle α :=
  let angle := (w.host.pi * 2 * (i : α)) / (particleCount : α) + rand w (2 + 4 * i) * 0.2
  let velocity := 2 + rand w (2 + 4 * i + 1) * 4
  { x := x
    y := y
    vx := w.host.cos angle * velocity
    vy := w.host.sin angle * velocity
    life := 1
    decay := 0.008 + rand w (2 + 4 * i + 2) * 0.008
    color := color
    size := 2 + rand w (2 + 4 * i + 3) * 2
    trail := [] }

/-- The value of `particleCount` in `explode` (script.js line 353). -/
def Fireworks.particleCount {α : Type} [LinearOrderedField α] [FloorRing α] (w : World α) : Int :=
  80 + ⌊rand w 1 * 40⌋

/-- The value of `color` in `explode` (script.js line 352). -/
def Fireworks.burstColor {α : Type} [LinearOrderedField α] [FloorRing α] (w : World α) :
    Option String :=
  colorAt ⌊rand w 0 * (colors.length : α)⌋

/-- The particles one call of `explode(x, y)` pushes, in order. -/
def Fireworks.burst {α : Type} [LinearOrderedField α] [FloorRing α] (x y : α) (w : World α) :
    List (Particle α) :=
  (List.range (Fireworks.particleCount w).toNat).map
    (Fireworks.burstParticle w x y (Fireworks.burstColor w) (Fireworks.particleCount w))

/-- The method `Fireworks.explode` (script.js lines 340-371). -/
def Fireworks.explode {α : Type} [LinearOrderedField α] [FloorRing α] (x y : α) (w : World α) :
    World α :=
  { w with
    audio := AudioManager.playFirework w.state.isMuted w.audio
    fw := { w.fw with particles := w.fw.particles ++ Fireworks.burst x y w }
    rngPos := w.rngPos + 2 + 4 * (Fireworks.particleCount w).toNat }

/-! ## Fireworks: the burst in binary64

JavaScript numbers are IEEE 754 binary64 values, and every arithmetic operation
returns the exact result rounded to the nearest such value, ties to the even
significand. `round64` is that rounding on the rationals; results beyond the
largest finite double are not modelled (none arises below). The definitions
`Fireworks.*With` are the statements of `explode` with the rounding `fl` applied
after every operation and to every decimal literal: with `fl = id` they are the
exact reading above, with `fl = round64` the computation the browser performs,
`host.pi`, `host.cos` and `host.sin` then standing for the doubles `Math.PI`,
`Math.cos` and `Math.sin` return. -/

/-- Round to the nearest integer, a tie to the even one. -/
def roundHalfEven (q : ℚ) : Int :=
  if q - ⌊q⌋ < 1 / 2 then ⌊q⌋
  else if 1 / 2 < q - ⌊q⌋ then ⌊q⌋ + 1
  else if ⌊q⌋ % 2 = 0 then ⌊q⌋ else ⌊q⌋ + 1

/-- The binary exponent of a positive number, `e` with `2^e ≤ q < 2^(e+1)`,
found by halving or doubling at most `fuel` times from the exponent given. -/
def binade : Nat → ℚ → Int → Int
  | 0, _, e => e
  | fuel + 1, q, e =>
    if 2 ≤ q then binade fuel (q / 2) (e + 1)
    else if q < 1 then binade fuel (q * 2) (e - 1)
    else e

/-- The distance between neighbouring doubles at a positive `q`: `2^(e - 52)`
for the binary exponent `e` of `q`, and `2^-1074` in the subnormal range. -/
def ulp64 (q : ℚ) : ℚ :=
  if max (binade 2200 q 0) (-1022) ≤ 52 then 1 / 2 ^ (52 - max (binade 2200 q 0) (-1022)).toNat
  else 2 ^ (max (binade 2200 q 0) (-1022) - 52).toNat

/-- Rounding to the nearest binary64 value, ties to even. -/
def round64 (q : ℚ) : ℚ :=
  if q = 0 then 0
  else if 0 < q then roundHalfEven (q / ulp64 q) * ulp64 q
  else -(roundHalfEven (-q / ulp64 (-q)) * ulp64 (-q))

/-- The value of `angle` in iteration `i` of the loop of `explode` (script.js
line 357). -/
def Fireworks.angleWith {α : Type} [LinearOrderedField α] (fl : α → α) (w : World α)
    (particleCount : Int) (i : Nat) : α :=
  fl (fl (fl (fl (w.host.pi * 2) * (i : α)) / (particleCount : α))
    + fl (rand w (2 + 4 * i) * fl 0.2))

/-- The value of `velocity` in iteration `i` of the loop of `explode`
(script.js line 358). -/
def Fireworks.velocityWith {α : Type} [LinearOrderedField α] (fl : α → α) (w : World α)
    (i : Nat) : α :=
  fl (2 + fl (rand w (2 + 4 * i + 1) * 4))

/-- The particle pushed by iteration `i` of the loop of `explode` (script.js
lines 356-369). -/
def Fireworks.burstParticleWith {α : Type} [LinearOrderedField α] (fl : α → α) (w : World α)
    (x y : α) (color : Option String) (particleCount : Int) (i : Nat) : Particle α :=
  { x := x
    y := y
    vx := fl (w.host.cos (Fireworks.angleWith fl w particleCount i)
            * Fireworks.velocityWith fl w i)
    vy := fl (w.host.sin (Fireworks.angleWith fl w particleCount i)
            * Fireworks.velocityWith fl w i)
    life := 1
    decay := fl (fl 0.008 + fl (rand w (2 + 4 * i + 2) * fl 0.008))
    color := color
    size := fl (2 + fl (rand w (2 + 4 * i + 3) * 2))
    trail := [] }

/-- The value of `particleCount` in `explode` (script.js line 353). -/
def Fireworks.particleCountWith {α : Type} [LinearOrderedField α] [FloorRing α] (fl : α → α)
    (w : World α) : Int :=
  80 + ⌊fl (rand w 1 * 40)⌋

/-- The value of `color` in `explode` (script.js line 352). -/
def Fireworks.burstColorWith {α : Type} [LinearOrderedField α] [FloorRing α] (fl : α → α)
    (w : World α) : Option String :=
  colorAt ⌊fl (rand w 0 * (colors.length : α))⌋

/-- The particles one call of `explode(x, y)` pushes, in order. -/
def Fireworks.burstWith {α : Type} [LinearOrderedField α] [FloorRing α] (fl : α → α) (x y : α)
    (w : World α) : List (Particle α) :=
  (List.range (Fireworks.particleCountWith fl w).toNat).map
    (Fireworks.burstParticleWith fl w x y (Fireworks.burstColorWith fl w)
      (Fireworks.particleCountWith fl w))

/-- The method `Fireworks.explode` (script.js lines 340-371). -/
def Fireworks.explodeWith {α : Type} [LinearOrderedField α] [FloorRing α] (fl : α → α) (x y : α)
    (w : World α) : World α :=
  { w with
    audio := AudioManager.playFirework w.state.isMuted w.audio
    fw := { w.fw with particles := w.fw.particles ++ Fireworks.burstWith fl x y w }
    rngPos := w.rngPos + 2 + 4 * (Fireworks.particleCountWith fl w).toNat }

/-- The update of one rocket in `animate` (script.js lines 380-384): rise by
`speed`, push the new position on the trail, shift when it is longer than 10. -/
def stepRocket {α : Type} [LinearOrderedField α] (r : Rocket α) : Rocket α :=
  let y1 := r.y - r.speed
  let tr := r.trail ++ [(r.x, y1)]
  { r with y := y1, trail := if tr.length > 10 then tr.tail else tr }

/-- The update of one particle in `animate` (script.js lines 404-412). -/
def stepParticle {α : Type} [LinearOrderedField α] (p : Particle α) : Particle α :=
  let x1 := p.x + p.vx
  let y1 := p.y + p.vy
  let vy1 := p.vy + 0.05
  let vx1 := p.vx * 0.99
  let life1 := p.life - p.decay
  let tr := p.trail ++ [(x1, y1, life1)]
  { p with x := x1, y := y1, vx := vx1, vy := vy1, life := life1,
           trail := if tr.length > 5 then tr.tail else tr }

/-- The callback of `this.rockets.filter` in `animate` (script.js lines
379-400), run over the rockets in order: returns the rockets kept and the
world after the explosions of the rockets dropped. -/
def animateRockets {α : Type} [LinearOrderedField α] [FloorRing α] :
    List (Rocket α) → World α → List (Rocket α) × World α
  | [], w => ([], w)
  | r :: rs, w =>
    let r1 := stepRocket r
    if r1.y ≤ r1.targetY then
      animateRockets rs (Fireworks.explode r1.x r1.y w)
    else
      let res := animateRockets rs w
      (r1 :: res.1, res.2)

/-- The method `Fireworks.animate` (script.js lines 373-435), drawing left
out: the rocket pass, the particle pass over all particles (those of this
frame's explosions included), and the `requestAnimationFrame` call, which adds
one pending frame callback. -/
def Fireworks.animate {α : Type} [LinearOrderedField α] [FloorRing α] (w : World α) : World α :=
  let res := animateRockets w.fw.rockets w
  let w1 := res.2
  { w1 with fw := { w1.fw with
      rockets := res.1
      particles := (w1.fw.particles.map stepParticle).filter (fun p => decide (p.life > 0))
      chains := w1.fw.chains + 1 } }

/-- The method `Fireworks.start` (script.js lines 294-299). -/
def Fireworks.start {α : Type} [LinearOrderedField α] [FloorRing α] (w : World α) : World α :=
  let w1 := { w with fw := { w.fw with
    isActive := true, canvasClasses := classAdd Cls.active w.fw.canvasClasses } }
  Fireworks.animate (Fireworks.launchSequence w1)

/-- The method `Fireworks.fadeOut` (script.js lines 437-445). -/
def Fireworks.fadeOut {α : Type} (w : World α) : World α :=
  setTimeout Callback.canvasInactive 3000 { w with fw := { w.fw with isActive := false } }

/-- The method `Fireworks.resize` (script.js lines 289-292). -/
def Fireworks.resize {α : Type} (innerWidth innerHeight : α) (w : World α) : World α :=
  { w with fw := { w.fw with width := innerWidth, height := innerHeight } }

/-! ## Experience controller -/

/-- The level written into the pressure class by `showNumber` (line 540). -/
def pressureLevel (num : Int) : Int := 11 - num

/-- The method `Experience.showNumber` up to its `setTimeout` (script.js lines
531-566); the two nested closures are `Callback.dissolve` and
`Callback.advance`. -/
def Experience.showNumber {α : Type} [LinearOrderedField α] (w : World α) : World α :=
  let num := w.state.countdownValue
  let w1 := { w with
    dom := { w.dom with
      phaseCountdown := classAdd (Cls.pressure (pressureLevel num)) (removePressure w.dom.phaseCountdown)
      countdownText := some num
      countdownNumber := classAdd Cls.visible (classRemove Cls.dissolve w.dom.countdownNumber) }
    shown := w.shown ++ [(w.now, num)]
    audio := AudioManager.playTick w.state.isMuted w.audio }
  setTimeout Callback.dissolve (timingConfig.numberFadeIn + timingConfig.numberHold) w1

/-- The method `Experience.startCountdown` (script.js lines 521-529). -/
def Experience.startCountdown {α : Type} [LinearOrderedField α] (w : World α) : World α :=
  let w1 := setPhase Phase.countdown w
  let w2 := { w1 with
    state := { w1.state with countdownValue := 10 }
    dom := { w1.dom with phaseCountdown := classAdd Cls.active w1.dom.phaseCountdown } }
  Experience.showNumber w2

/-- The method `Experience.zeroMoment` (script.js lines 569-582). -/
def Experience.zeroMoment {α : Type} (w : World α) : World α :=
  let w1 := setPhase Phase.zero w
  let w2 := { w1 with dom := { w1.dom with
    phaseCountdown := classRemove Cls.active w1.dom.phaseCountdown } }
  setTimeout Callback.release timingConfig.zeroMomentPause w2

/-- The method `Experience.release` (script.js lines 584-600). -/
def Experience.release {α : Type} [LinearOrderedField α] [FloorRing α] (w : World α) : World α :=
  let w1 := Fireworks.start (setPhase Phase.release w)
  let w2 := setTimeout Callback.showMessage timingConfig.messageDelay w1
  setTimeout Callback.afterglow timingConfig.fireworksDuration w2

/-- The method `Experience.showMessage` (script.js lines 602-606). -/
def Experience.showMessage {α : Type} (w : World α) : World α :=
  let w1 := setPhase Phase.message w
  { w1 with dom := { w1.dom with phaseMessage := classAdd Cls.active w1.dom.phaseMessage } }

/-- The method `Experience.afterglow` (script.js lines 608-622). -/
def Experience.afterglow {α : Type} (w : World α) : World α :=
  let w1 := Fireworks.fadeOut (setPhase Phase.afterglow w)
  let w2 := { w1 with dom := { w1.dom with body := classRemove Cls.immersive w1.dom.body } }
  setTimeout Callback.showControls (timingConfig.controlsDelay - timingConfig.fireworksDuration) w2

/-- The method `Experience.begin` (script.js lines 499-519). `AudioManager.init`
has no `await` of its own, so the part of `begin` after its `await` runs as a
microtask before any other event; `failAt` is the outcome of this call of
`init`. -/
def Experience.begin {α : Type} [LinearOrderedField α] (failAt : Option Nat) (w : World α) :
    World α :=
  let w1 := setPhase Phase.initiation w
  let r := AudioManager.init failAt w1.state.audioInitialized w1.audio
  let w2 := { w1 with audio := r.1, state := { w1.state with audioInitialized := r.2 } }
  let w3 := { w2 with dom := { w2.dom with body := classAdd Cls.immersive w2.dom.body } }
  let w4 := { w3 with audio := AudioManager.playAmbient w3.state.isMuted w3.audio }
  let w5 := { w4 with dom := { w4.dom with
    phaseArrival := classRemove Cls.active w4.dom.phaseArrival } }
  setTimeout Callback.startCountdown timingConfig.initiationDuration w5

/-- The method `Experience.replay` (script.js lines 624-653). -/
def Experience.replay {α : Type} [LinearOrderedField α] (w : World α) : World α :=
  let w1 := setPhase Phase.arrival w
  { w1 with
    state := { w1.state with countdownValue := 10 }
    dom := { w1.dom with
      body := classRemove Cls.immersive w1.dom.body
      phaseArrival := classAdd Cls.active w1.dom.phaseArrival
      phaseCountdown := removePressure (classRemove Cls.active w1.dom.phaseCountdown)
      phaseMessage := classRemove Cls.active w1.dom.phaseMessage
      controls := classRemove Cls.visible w1.dom.controls }
    fw := { w1.fw with
      isActive := false
      particles := []
      rockets := []
      canvasClasses := classRemove Cls.active w1.fw.canvasClasses }
    audio := { w1.audio with
      ambient := w1.audio.ambient.map (fun el => { el with currentTime := 0, paused := true }) } }

/-- The method `AudioManager.toggleMute` (script.js lines 188-202): the flag
`state.isMuted` is negated, the `muted` property of every source that exists is
set to the new flag, and the new flag is returned (first component). -/
def AudioManager.toggleMute {α : Type} (w : World α) : Bool × World α :=
  let muted := !w.state.isMuted
  (muted, { w with
    state := { w.state with isMuted := muted }
    audio := AudioManager.applyMute muted w.audio })

/-- The method `Experience.toggleSound` (script.js lines 655-658). -/
def Experience.toggleSound {α : Type} (w : World α) : World α :=
  let r := AudioManager.toggleMute w
  { r.2 with dom := { r.2.dom with soundToggle := classToggle Cls.muted r.1 r.2.dom.soundToggle } }

/-- The keydown listener of `bindEvents` (script.js lines 489-496). -/
def Experience.keydown {α : Type} [LinearOrderedField α] (key : String) (failAt : Option Nat)
    (w : World α) : World α :=
  let w1 := if key = "Enter" ∧ w.state.phase = Phase.arrival then Experience.begin failAt w else w
  if key = "m" ∧ w1.state.phase = Phase.afterglow then Experience.toggleSound w1 else w1

/-! ## Event loop -/

/-- Run the closure of a timer. -/
def runCallback {α : Type} [LinearOrderedField α] [FloorRing α] : Callback α → World α → World α
  | Callback.startCountdown, w => Experience.startCountdown w
  | Callback.dissolve, w =>
    setTimeout Callback.advance timingConfig.numberDissolve
      { w with dom := { w.dom with
          countdownNumber := classRemove Cls.visible (classAdd Cls.dissolve w.dom.countdownNumber) } }
  | Callback.advance, w =>
    let w1 := { w with state := { w.state with countdownValue := w.state.countdownValue - 1 } }
    if w1.state.countdownValue > 0 then Experience.showNumber w1 else Experience.zeroMoment w1
  | Callback.release, w => Experience.release w
  | Callback.showMessage, w => Experience.showMessage w
  | Callback.afterglow, w => Experience.afterglow w
  | Callback.showControls, w =>
    { w with dom := { w.dom with controls := classAdd Cls.visible w.dom.controls } }
  | Callback.launch x, w => if w.fw.isActive then Fireworks.createRocket x w else w
  | Callback.canvasInactive, w =>
    { w with fw := { w.fw with canvasClasses := classRemove Cls.active w.fw.canvasClasses } }

/-- Fire the timer at the head of the queue, if any: the clock moves to its
due time unless it is already past it. -/
def fireNext {α : Type} [LinearOrderedField α] [FloorRing α] (w : World α) : World α :=
  match w.timers with
  | [] => w
  | t :: ts => runCallback t.cb { w with timers := ts, now := max w.now t.due }

/-- Fire `n` timers in a row. -/
def run {α : Type} [LinearOrderedField α] [FloorRing α] : Nat → World α → World α
  | 0, w => w
  | n + 1, w => run n (fireNext w)

/-- One display frame: every pending frame callback of `Fireworks.animate`
runs once (each registers its successor). -/
def frame {α : Type} [LinearOrderedField α] [FloorRing α] (w : World α) : World α :=
  Nat.iterate Fireworks.animate w.fw.chains { w with fw := { w.fw with chains := 0 } }

/-- The events the page reacts to: the three click listeners and the keydown
listener of `bindEvents`, the resize listener of `Fireworks.init`, a timer
firing, a display frame, and time passing with nothing run. -/
inductive Ev (α : Type) where
  | clickBegin (failAt : Option Nat)
  | clickReplay
  | clickSound
  | keydown (key : String) (failAt : Option Nat)
  | resize (innerWidth innerHeight : α)
  | tick
  | frame
  | elapse (d : Nat)

/-- The effect of one event. -/
def step {α : Type} [LinearOrderedField α] [FloorRing α] : Ev α → World α → World α
  | Ev.clickBegin failAt, w => Experience.begin failAt w
  | Ev.clickReplay, w => Experience.replay w
  | Ev.clickSound, w => Experience.toggleSound w
  | Ev.keydown key failAt, w => Experience.keydown key failAt w
  | Ev.resize iw ih, w => Fireworks.resize iw ih w
  | Ev.tick, w => fireNext w
  | Ev.frame, w => frame w
  | Ev.elapse d, w => { w with now := w.now + d }

/-- The effect of a sequence of events, first event first. -/
def exec {α : Type} [LinearOrderedField α] [FloorRing α] : List (Ev α) → World α → World α
  | [], w => w
  | e :: es, w => exec es (step e w)

/-- What the page provides when the script is loaded: the class lists and
text of the document, the class list of the fireworks canvas, the window size
and the host functions. -/
structure Page (α : Type) where
  dom : Dom
  canvasClasses : List Cls
  innerWidth : α
  innerHeight : α
  host : Host α

/-- The state once `Experience.init` has run (script.js lines 67-72, 79-83,
273-292, 454-481): the Arrival state. -/
def initial {α : Type} (pg : Page α) : World α where
  state := { phase := Phase.arrival, countdownValue := 10, isMuted := false,
             audioInitialized := false }
  audio := { context := false, ambientGain := none, ambient := none, tick := none,
             firework := none }
  fw := { width := pg.innerWidth, height := pg.innerHeight, canvasClasses := pg.canvasClasses,
          particles := [], rockets := [], chains := 0, isActive := false }
  dom := pg.dom
  host := pg.host
  rngPos := 0
  timers := []
  now := 0
  phaseLog := []
  shown := []

/-- An event with no user input behind it: a timer firing or a display frame. -/
def Ev.passive {α : Type} : Ev α → Bool
  | Ev.tick => true
  | Ev.frame => true
  | _ => false

/-- The number of timer firings in a sequence of events. -/
def ticks {α : Type} : List (Ev α) → Nat
  | [] => 0
  | Ev.tick :: es => ticks es + 1
  | _ :: es => ticks es

/-- A page for evaluation with the given host: empty class lists except
`active` on the arrival phase, and an 800 by 600 window. -/
def pageWith {α : Type} [LinearOrderedField α] (host : Host α) : Page α where
  dom := { body := [], phaseArrival := [Cls.active], phaseCountdown := [], phaseMessage := [],
           countdownNumber := [], countdownText := none, controls := [], soundToggle := [] }
  canvasClasses := []
  innerWidth := 800
  innerHeight := 600
  host := host

/-- A rational page for evaluation: every random draw is one half. -/
def samplePage : Page ℚ :=
  pageWith { random := fun _ => 1 / 2, cos := fun _ => 1, sin := fun _ => 0, pi := 22 / 7 }

/-- A page for the binary64 reading. Every draw of `Math.random` is 0 except
the fourth, the velocity draw of the first particle of a burst, which is
`1 - 2^-53`, the largest double below 1. `Math.PI` is the double nearest to pi;
`Math.cos(0)` is 1 and `Math.sin(0)` is 0, as ECMAScript prescribes, and the
statements evaluated on this page call the two functions at 0 only. -/
def edgePage : Page ℚ :=
  pageWith { random := fun k => if k = 3 then 1 - 1 / 2 ^ 53 else 0
             cos := fun a => if a = 0 then 1 else 0
             sin := fun _ => 0
             pi := 884279719003555 / 281474976710656 }

/-! ## Views used in the statements -/

/-- Whether a class token is one of `pressure-1` .. `pressure-10`, the ten
classes `showNumber` and `replay` remove. -/
def Cls.isPressure : Cls → Bool
  | Cls.pressure i => decide (1 ≤ i ∧ i ≤ 10)
  | _ => false

/-- Whether a timer closure belongs to the phase sequence: it writes
`state.phase` or `state.countdownValue`, or schedules a closure that does. -/
def Callback.sequencing {α : Type} : Callback α → Bool
  | Callback.startCountdown => true
  | Callback.dissolve => true
  | Callback.advance => true
  | Callback.release => true
  | Callback.showMessage => true
  | Callback.afterglow => true
  | Callback.showControls => false
  | Callback.launch _ => false
  | Callback.canvasInactive => false

/-- A closure with the horizontal fraction of a launch forgotten. -/
def Callback.erase {α : Type} : Callback α → Callback Unit
  | Callback.startCountdown => Callback.startCountdown
  | Callback.dissolve => Callback.dissolve
  | Callback.advance => Callback.advance
  | Callback.release => Callback.release
  | Callback.showMessage => Callback.showMessage
  | Callback.afterglow => Callback.afterglow
  | Callback.showControls => Callback.showControls
  | Callback.launch _ => Callback.launch ()
  | Callback.canvasInactive => Callback.canvasInactive

/-- A timer with the horizontal fraction of a launch forgotten. -/
def Timer.erase {α : Type} (t : Timer α) : Timer Unit :=
  { due := t.due, cb := t.cb.erase }

/-- The part of the world the phase sequence reads and writes. -/
structure Core where
  phase : Phase
  countdownValue : Int
  isActive : Bool
  timers : List (Timer Unit)
  now : Nat
  phaseLog : List (Nat × Phase)
  shown : List (Nat × Int)
deriving DecidableEq

/-- The sequencer view of a world. -/
def core {α : Type} (w : World α) : Core where
  phase := w.state.phase
  countdownValue := w.state.countdownValue
  isActive := w.fw.isActive
  timers := w.timers.map Timer.erase
  now := w.now
  phaseLog := w.phaseLog
  shown := w.shown

/-- An event that is no user input: a timer firing, a display frame, time
passing, or a change of the window size. -/
def Ev.noInput {α : Type} : Ev α → Bool
  | Ev.tick => true
  | Ev.frame => true
  | Ev.elapse _ => true
  | Ev.resize _ _ => true
  | _ => false

/-- The display the header comment describes (script.js lines 9-10): value
`10 - k` shown `1000 k` milliseconds after the countdown starts, the countdown
starting `initiationDuration = 2000` milliseconds after `begin()`. -/
def countdownSteps : List (Nat × Int) :=
  (List.range 10).map (fun k => (2000 + 1000 * k, 10 - (k : Int)))

/-- The phases after `arrival`, in the order of the comment on `state.phase`
(script.js line 68). -/
def phaseOrder : List Phase :=
  [Phase.initiation, Phase.countdown, Phase.zero, Phase.release, Phase.message, Phase.afterglow]

/-- The particle pass of `Fireworks.animate` (script.js lines 403-432) on a
list of particles: every particle is updated, those left with `life > 0` are
kept in order. -/
def particlePass {α : Type} [LinearOrderedField α] (ps : List (Particle α)) : List (Particle α) :=
  (ps.map stepParticle).filter (fun p => decide (p.life > 0))

/-- The horizontal fraction a launch closure carries, `none` for the other
closures. -/
def Callback.launchX {α : Type} : Callback α → Option α
  | Callback.launch x => some x
  | _ => none

/-- Whether a timer closure is a launch closure of `launchSequence`. -/
def Callback.isLaunch {α : Type} : Callback α → Bool
  | Callback.launch _ => true
  | _ => false

/-! ## Class lists -/

section ClassLists

theorem removePressure_eq (l : List Cls) :
    removePressure l = l.filter (fun c => !c.isPressure) := by
  simp only [removePressure, classRemove, List.foldl_cons, List.foldl_nil, List.filter_filter]
  apply List.filter_congr
  intro c _
  cases c <;> simp [Cls.isPressure]
  rw [Bool.eq_iff_iff]
  simp only [Bool.and_eq_true, Bool.or_eq_true, Bool.not_eq_true', decide_eq_false_iff_not]
  omega

theorem filter_isPressure_removePressure (l : List Cls) :
    (removePressure l).filter Cls.isPressure = [] := by
  rw [removePressure_eq, List.filter_filter]
  simp

theorem pressure_not_mem_removePressure (l : List Cls) (k : Int) (h1 : 1 ≤ k) (h10 : k ≤ 10) :
    Cls.pressure k ∉ removePressure l := by
  rw [removePressure_eq]
  simp [Cls.isPressure, h1, h10]

end ClassLists

/-! ## Countdown display -/

section Countdown

variable {α : Type} [LinearOrderedField α]

/-- C1. For a countdown value `v` between 1 and 10, after `showNumber` the
pressure classes on the countdown phase element are exactly the one class
`pressure-(11 - v)`, whatever classes were there before; the level `11 - v`
lies between 1 and 10, is 1 at `v = 10` and 10 at `v = 1`, and is strictly
larger for a smaller value. -/
theorem showNumber_pressure (w : World α) (h1 : 1 ≤ w.state.countdownValue)
    (h10 : w.state.countdownValue ≤ 10) :
    (Experience.showNumber w).dom.phaseCountdown.filter Cls.isPressure
        = [Cls.pressure (11 - w.state.countdownValue)]
      ∧ pressureLevel w.state.countdownValue = 11 - w.state.countdownValue
      ∧ (1 ≤ pressureLevel w.state.countdownValue ∧ pressureLevel w.state.countdownValue ≤ 10)
      ∧ (∀ u v : Int, 1 ≤ u → u < v → v ≤ 10 → pressureLevel v < pressureLevel u)
      ∧ pressureLevel 10 = 1 ∧ pressureLevel 1 = 10 := by
  refine ⟨?_, rfl, ⟨?_, ?_⟩, ?_, rfl, rfl⟩
  · have hk1 : (1 : Int) ≤ 11 - w.state.countdownValue := by omega
    have hk10 : 11 - w.state.countdownValue ≤ 10 := by omega
    have hnot := pressure_not_mem_removePressure w.dom.phaseCountdown _ hk1 hk10
    simp only [Experience.showNumber, setTimeout, pressureLevel, classAdd, if_neg hnot,
      List.filter_append, filter_isPressure_removePressure, List.nil_append]
    simp [Cls.isPressure, hk1, hk10]
  · simp only [pressureLevel]; omega
  · simp only [pressureLevel]; omega
  · intro u v _ huv _
    simp only [pressureLevel]; omega

/-- C1, at the first number of the countdown on the sample page. -/
theorem showNumber_pressure_witness :
    ((1 : Int) ≤ (initial samplePage).state.countdownValue
      ∧ (initial samplePage).state.countdownValue ≤ 10)
    ∧ (Experience.showNumber (initial samplePage)).dom.phaseCountdown.filter Cls.isPressure
        = [Cls.pressure (11 - (initial samplePage).state.countdownValue)] :=
  ⟨⟨by decide, by decide⟩,
   (showNumber_pressure (initial samplePage) (by decide) (by decide)).1⟩

end Countdown

/-! ## Updates of one rocket and one particle -/

theorem stepRocket_trail_le {α : Type} [LinearOrderedField α] (r : Rocket α) (h : r.trail.length ≤ 10) :
    (stepRocket r).trail.length ≤ 10 := by
  simp only [stepRocket]
  split
  · simp only [List.length_tail, List.length_append, List.length_singleton]; omega
  · simp only [List.length_append, List.length_singleton] at *; omega

theorem stepParticle_trail_le {α : Type} [LinearOrderedField α] (p : Particle α) (h : p.trail.length ≤ 5) :
    (stepParticle p).trail.length ≤ 5 := by
  simp only [stepParticle]
  split
  · simp only [List.length_tail, List.length_append, List.length_singleton]; omega
  · simp only [List.length_append, List.length_singleton] at *; omega

theorem tail_append_singleton {β : Type} (l : List β) (b : β) (h : l ≠ []) :
    (l ++ [b]).tail = l.tail ++ [b] := by
  cases l with
  | nil => exact absurd rfl h
  | cons a t => rfl

theorem stepParticle_life_lt {α : Type} [LinearOrderedField α] (p : Particle α) (h : 0 < p.decay) :
    (stepParticle p).life < p.life ∧ (stepParticle p).decay = p.decay := by
  refine ⟨?_, rfl⟩
  simp only [stepParticle]
  linarith

/-! ## Fireworks: single operations -/

section FireworksOps

variable {α : Type} [LinearOrderedField α] [FloorRing α]

theorem mem_burst {x y : α} {w : World α} {p : Particle α} (hp : p ∈ Fireworks.burst x y w) :
    ∃ i : Nat, p = Fireworks.burstParticle w x y (Fireworks.burstColor w)
      (Fireworks.particleCount w) i := by
  simp only [Fireworks.burst, List.mem_map, List.mem_range] at hp
  obtain ⟨i, _, hi⟩ := hp
  exact ⟨i, hi.symm⟩

theorem burst_fresh {x y : α} {w : World α} {p : Particle α} (hp : p ∈ Fireworks.burst x y w) :
    p.x = x ∧ p.y = y ∧ p.life = 1 ∧ p.trail = [] ∧ p.color = Fireworks.burstColor w := by
  obtain ⟨i, rfl⟩ := mem_burst hp
  exact ⟨rfl, rfl, rfl, rfl, rfl⟩

theorem burst_decay {x y : α} {w : World α} (hrand : ∀ k, 0 ≤ w.host.random k ∧ w.host.random k < 1)
    {p : Particle α} (hp : p ∈ Fireworks.burst x y w) :
    0.008 ≤ p.decay ∧ p.decay < 0.016 := by
  obtain ⟨i, rfl⟩ := mem_burst hp
  have h := hrand (w.rngPos + (2 + 4 * i + 2))
  simp only [Fireworks.burstParticle, rand]
  constructor
  · linarith [h.1]
  · linarith [h.2]

theorem explode_host (x y : α) (w : World α) : (Fireworks.explode x y w).host = w.host := rfl

theorem explode_rockets (x y : α) (w : World α) :
    (Fireworks.explode x y w).fw.rockets = w.fw.rockets := rfl

theorem explode_particles (x y : α) (w : World α) :
    (Fireworks.explode x y w).fw.particles = w.fw.particles ++ Fireworks.burst x y w := rfl

theorem animateRockets_host (rs : List (Rocket α)) (w : World α) :
    (animateRockets rs w).2.host = w.host := by
  induction rs generalizing w with
  | nil => rfl
  | cons r rs ih =>
    simp only [animateRockets]
    split
    · rw [ih, explode_host]
    · exact ih w

/-- The rockets the rocket pass keeps are updated rockets of the list. -/
theorem animateRockets_kept (rs : List (Rocket α)) (w : World α) :
    ∀ r ∈ (animateRockets rs w).1, ∃ r0 ∈ rs, r = stepRocket r0 := by
  induction rs generalizing w with
  | nil => intro r hr; simp [animateRockets] at hr
  | cons r rs ih =>
    intro q hq
    simp only [animateRockets] at hq
    split at hq
    · obtain ⟨r0, h0, e⟩ := ih _ q hq
      exact ⟨r0, List.mem_cons_of_mem _ h0, e⟩
    · rcases List.mem_cons.1 hq with e | hq
      · exact ⟨r, List.mem_cons_self _ _, e⟩
      · obtain ⟨r0, h0, e⟩ := ih _ q hq
        exact ⟨r0, List.mem_cons_of_mem _ h0, e⟩

/-- The rocket pass only appends particles, each pushed by an `explode` call
in a world with the same host. -/
theorem animateRockets_particles (rs : List (Rocket α)) (w : World α) :
    ∃ extra, (animateRockets rs w).2.fw.particles = w.fw.particles ++ extra ∧
      ∀ q ∈ extra, ∃ (x y : α) (v : World α), v.host = w.host ∧ q ∈ Fireworks.burst x y v := by
  induction rs generalizing w with
  | nil => exact ⟨[], by simp [animateRockets], by simp⟩
  | cons r rs ih =>
    simp only [animateRockets]
    split
    · obtain ⟨extra, he, hq⟩ := ih (Fireworks.explode (stepRocket r).x (stepRocket r).y w)
      refine ⟨Fireworks.burst (stepRocket r).x (stepRocket r).y w ++ extra, ?_, ?_⟩
      · rw [he, explode_particles, List.append_assoc]
      · intro q hmem
        rcases List.mem_append.1 hmem with h | h
        · exact ⟨_, _, w, rfl, h⟩
        · obtain ⟨x, y, v, hv, hb⟩ := hq q h
          exact ⟨x, y, v, hv.trans (explode_host _ _ w), hb⟩
    · exact ih w

theorem animate_host (w : World α) : (Fireworks.animate w).host = w.host :=
  animateRockets_host w.fw.rockets w

theorem animate_rockets (w : World α) :
    (Fireworks.animate w).fw.rockets = (animateRockets w.fw.rockets w).1 := rfl

theorem animate_particles (w : World α) :
    (Fireworks.animate w).fw.particles =
      ((animateRockets w.fw.rockets w).2.fw.particles.map stepParticle).filter
        (fun p => decide (p.life > 0)) := rfl

end FireworksOps

/-! ## Invariants of the entity lists over all events -/

section EntityInvariants

variable {α : Type} [LinearOrderedField α] [FloorRing α]

/-- A property of the host and of the two entity lists that holds of empty
lists and is kept by `createRocket` and `animate` is kept by every event. -/
theorem step_preserves (K : World α → Prop)
    (hext : ∀ w v : World α, w.host = v.host → w.fw.rockets = v.fw.rockets →
      w.fw.particles = v.fw.particles → K w → K v)
    (hclear : ∀ w : World α, K w → K (Experience.replay w))
    (hrocket : ∀ (x : α) (w : World α), K w → K (Fireworks.createRocket x w))
    (hanim : ∀ w : World α, K w → K (Fireworks.animate w))
    (e : Ev α) (w : World α) (h : K w) : K (step e w) := by
  have hcb : ∀ (cb : Callback α) (v : World α), K v → K (runCallback cb v) := by
    intro cb v hv
    cases cb with
    | startCountdown => exact hext v _ rfl rfl rfl hv
    | dissolve => exact hext v _ rfl rfl rfl hv
    | advance =>
      simp only [runCallback]
      split
      · exact hext v _ rfl rfl rfl hv
      · exact hext v _ rfl rfl rfl hv
    | release =>
      have h1 : K (Fireworks.start (setPhase Phase.release v)) :=
        hanim _ (hext v _ rfl rfl rfl hv)
      exact hext (Fireworks.start (setPhase Phase.release v)) _ rfl rfl rfl h1
    | showMessage => exact hext v _ rfl rfl rfl hv
    | afterglow => exact hext v _ rfl rfl rfl hv
    | showControls => exact hext v _ rfl rfl rfl hv
    | launch x =>
      simp only [runCallback]
      split
      · exact hrocket x v hv
      · exact hv
    | canvasInactive => exact hext v _ rfl rfl rfl hv
  cases e with
  | clickBegin failAt => exact hext w _ rfl rfl rfl h
  | clickReplay => exact hclear w h
  | clickSound => exact hext w _ rfl rfl rfl h
  | keydown key failAt =>
    by_cases c1 : key = "Enter" ∧ w.state.phase = Phase.arrival
    · simp only [step, Experience.keydown, if_pos c1]
      split
      · exact hext w _ rfl rfl rfl h
      · exact hext w _ rfl rfl rfl h
    · simp only [step, Experience.keydown, if_neg c1]
      split
      · exact hext w _ rfl rfl rfl h
      · exact h
  | resize iw ih => exact hext w _ rfl rfl rfl h
  | tick =>
    simp only [step, fireNext]
    split
    · exact h
    · exact hcb _ _ (hext w _ rfl rfl rfl h)
  | frame =>
    simp only [step, frame]
    have h0 : K { w with fw := { w.fw with chains := 0 } } := hext w _ rfl rfl rfl h
    generalize { w with fw := { w.fw with chains := 0 } } = v at h0
    induction w.fw.chains generalizing v with
    | zero => exact h0
    | succ n ih => exact ih _ (hanim v h0)
  | elapse d => exact hext w _ rfl rfl rfl h

theorem exec_preserves (K : World α → Prop)
    (hext : ∀ w v : World α, w.host = v.host → w.fw.rockets = v.fw.rockets →
      w.fw.particles = v.fw.particles → K w → K v)
    (hclear : ∀ w : World α, K w → K (Experience.replay w))
    (hrocket : ∀ (x : α) (w : World α), K w → K (Fireworks.createRocket x w))
    (hanim : ∀ w : World α, K w → K (Fireworks.animate w))
    (evs : List (Ev α)) (w : World α) (h : K w) : K (exec evs w) := by
  induction evs generalizing w with
  | nil => exact h
  | cons e es ih => exact ih _ (step_preserves K hext hclear hrocket hanim e w h)

end EntityInvariants

/-! ## Replay -/

/-- C5. Whatever the state before, right after `replay()` the phase is
`arrival`, the countdown value is 10, the rocket and particle lists are empty,
`Fireworks.isActive` is false, and the ambient element, when there is one, is
paused with `currentTime = 0` (`replay` neither creates nor drops it); the
phase, countdown value, entity lists and active flag equal those of the
initial Arrival state of any page. -/
theorem replay_resets {α : Type} [LinearOrderedField α] (w : World α) (pg : Page α) :
    (Experience.replay w).state.phase = Phase.arrival
      ∧ (Experience.replay w).state.countdownValue = 10
      ∧ (Experience.replay w).fw.rockets = []
      ∧ (Experience.replay w).fw.particles = []
      ∧ (Experience.replay w).fw.isActive = false
      ∧ (∀ el, (Experience.replay w).audio.ambient = some el →
          el.paused = true ∧ el.currentTime = 0)
      ∧ (Experience.replay w).audio.ambient.isSome = w.audio.ambient.isSome
      ∧ (Experience.replay w).state.phase = (initial pg).state.phase
      ∧ (Experience.replay w).state.countdownValue = (initial pg).state.countdownValue
      ∧ (Experience.replay w).fw.rockets = (initial pg).fw.rockets
      ∧ (Experience.replay w).fw.particles = (initial pg).fw.particles
      ∧ (Experience.replay w).fw.isActive = (initial pg).fw.isActive := by
  refine ⟨rfl, rfl, rfl, rfl, rfl, ?_, ?_, rfl, rfl, rfl, rfl, rfl⟩
  · intro el h
    simp only [Experience.replay, setPhase, Option.map_eq_some'] at h
    obtain ⟨a, _, rfl⟩ := h
    exact ⟨rfl, rfl⟩
  · simp [Experience.replay, setPhase]

/-- C5, at a state with an ambient element playing: the sample page after
`begin()` and the first timer. -/
theorem replay_resets_witness :
    (Experience.replay (run 1 (Experience.begin none (initial samplePage)))).state.phase
        = Phase.arrival
      ∧ ∀ el, (Experience.replay
          (run 1 (Experience.begin none (initial samplePage)))).audio.ambient = some el →
          el.paused = true ∧ el.currentTime = 0 :=
  ⟨(replay_resets (run 1 (Experience.begin none (initial samplePage))) samplePage).1,
   (replay_resets (run 1 (Experience.begin none (initial samplePage))) samplePage).2.2.2.2.2.1⟩

/-! ## Stop and launch -/

section StopLaunch

variable {α : Type} [LinearOrderedField α] [FloorRing α]

/-- C9. `Fireworks.fadeOut()` clears `isActive` and leaves the rocket and
particle lists as they are; a launch closure that runs while `isActive` is
false changes nothing at all, and one that runs while `isActive` is true
appends exactly one rocket, at `x = width * fraction`, `y = height`, with an
empty trail. -/
theorem fadeOut_stops_launches (w : World α) (x : α) :
    (Fireworks.fadeOut w).fw.isActive = false
      ∧ (Fireworks.fadeOut w).fw.rockets = w.fw.rockets
      ∧ (Fireworks.fadeOut w).fw.particles = w.fw.particles
      ∧ (w.fw.isActive = false → runCallback (Callback.launch x) w = w)
      ∧ (w.fw.isActive = true →
          ∃ r : Rocket α, (runCallback (Callback.launch x) w).fw.rockets = w.fw.rockets ++ [r]
            ∧ r.x = w.fw.width * x ∧ r.y = w.fw.height ∧ r.trail = []
            ∧ (runCallback (Callback.launch x) w).fw.rockets.length = w.fw.rockets.length + 1)
      ∧ (∀ t ∈ (Fireworks.launchSequence { w with timers := [] }).timers,
          ∃ l ∈ (launches : List (Int × α)), t.cb = Callback.launch l.2) := by
  refine ⟨rfl, rfl, rfl, ?_, ?_, ?_⟩
  · intro h
    simp [runCallback, h]
  · intro h
    refine ⟨{ x := w.fw.width * x, y := w.fw.height,
              targetY := w.fw.height * (0.2 + rand w 0 * 0.3),
              speed := 8 + rand w 1 * 4, trail := [] }, ?_, rfl, rfl, rfl, ?_⟩
    · simp only [runCallback, h, if_true, Fireworks.createRocket]
    · simp [runCallback, h, Fireworks.createRocket]
  · intro t ht
    simp [Fireworks.launchSequence, launches, setTimeout, insertTimer] at ht
    simp only [launches]
    rcases ht with h | h | h | h | h | h | h | h | h | h | h | h <;> subst h <;> simp

/-- C9, on the sample page: a launch closure run after `fadeOut()`, and one
run after `Fireworks.start()`. -/
theorem fadeOut_stops_launches_witness :
    (runCallback (Callback.launch (1 / 2)) (Fireworks.fadeOut (initial samplePage))
        = Fireworks.fadeOut (initial samplePage))
      ∧ (runCallback (Callback.launch (1 / 2))
          (Fireworks.start (initial samplePage))).fw.rockets.length
        = (Fireworks.start (initial samplePage)).fw.rockets.length + 1 :=
  ⟨(fadeOut_stops_launches (Fireworks.fadeOut (initial samplePage)) (1 / 2)).2.2.2.1 rfl,
   ((fadeOut_stops_launches (Fireworks.start (initial samplePage)) (1 / 2)).2.2.2.2.1
      rfl).choose_spec.2.2.2.2⟩

end StopLaunch

/-! ## Particles and trails -/

section Particles

variable {α : Type} [LinearOrderedField α] [FloorRing α]

/-- One frame on a world whose particles all have positive decay. -/
theorem animate_particles_spec (w : World α)
    (hrand : ∀ k, 0 ≤ w.host.random k ∧ w.host.random k < 1)
    (hdec : ∀ p ∈ w.fw.particles, 0 < p.decay) :
    ∀ p ∈ (Fireworks.animate w).fw.particles,
      0 < p.life ∧ 0 < p.decay ∧
        ∃ q, (q ∈ w.fw.particles ∨ q.life = 1) ∧ p = stepParticle q ∧ p.life < q.life := by
  intro p hp
  rw [animate_particles, List.mem_filter, List.mem_map] at hp
  obtain ⟨⟨q, hq, rfl⟩, hlife⟩ := hp
  obtain ⟨extra, he, hfresh⟩ := animateRockets_particles w.fw.rockets w
  rw [he, List.mem_append] at hq
  have hqdec : 0 < q.decay := by
    rcases hq with hq | hq
    · exact hdec q hq
    · obtain ⟨x, y, v, hv, hb⟩ := hfresh q hq
      have := (burst_decay (by rw [hv]; exact hrand) hb).1
      have h8 : (0 : α) < 0.008 := by norm_num
      exact lt_of_lt_of_le h8 this
  refine ⟨of_decide_eq_true hlife, hqdec, q, ?_, rfl, (stepParticle_life_lt q hqdec).1⟩
  rcases hq with hq | hq
  · exact Or.inl hq
  · obtain ⟨x, y, v, _, hb⟩ := hfresh q hq
    exact Or.inr (burst_fresh hb).2.2.1

/-- C6. On a page whose random draws lie in `[0, 1)`: every particle `explode`
creates has a decay in `[0.008, 0.016)`; in every state reachable by any
sequence of events every particle has positive decay; a frame update of such a
particle lowers its life strictly and keeps its decay; hence every particle
left by `Fireworks.animate` in such a state is the update of a particle that
was present, or was created in this frame with life 1, and has strictly less
life than it; and after `animate`, in any state whatever, no particle with
life `<= 0` remains. -/
theorem particle_life_decreases (pg : Page α)
    (hrand : ∀ k, 0 ≤ pg.host.random k ∧ pg.host.random k < 1) (evs : List (Ev α)) :
    (∀ (w : World α) (x y : α), w.host = pg.host →
        ∀ p ∈ Fireworks.burst x y w, 0.008 ≤ p.decay ∧ p.decay < 0.016)
      ∧ (∀ p ∈ (exec evs (initial pg)).fw.particles, 0 < p.decay)
      ∧ (∀ p : Particle α, 0 < p.decay →
          (stepParticle p).life < p.life ∧ (stepParticle p).decay = p.decay)
      ∧ (∀ p ∈ (Fireworks.animate (exec evs (initial pg))).fw.particles,
          ∃ q, (q ∈ (exec evs (initial pg)).fw.particles ∨ q.life = 1)
            ∧ p = stepParticle q ∧ p.life < q.life)
      ∧ (∀ (w : World α), ∀ p ∈ (Fireworks.animate w).fw.particles, 0 < p.life) := by
  have hinv : ∀ es : List (Ev α),
      (exec es (initial pg)).host = pg.host ∧
        ∀ p ∈ (exec es (initial pg)).fw.particles, 0 < p.decay := by
    intro es
    refine exec_preserves
      (fun w => w.host = pg.host ∧ ∀ p ∈ w.fw.particles, 0 < p.decay) ?_ ?_ ?_ ?_ es _ ?_
    · intro w v hh _ hp hK
      exact ⟨hh ▸ hK.1, hp ▸ hK.2⟩
    · intro w hK
      exact ⟨hK.1, by intro p hp; simp [Experience.replay, setPhase] at hp⟩
    · intro x w hK
      exact hK
    · intro w hK
      refine ⟨(animate_host w).trans hK.1, ?_⟩
      intro p hp
      exact (animate_particles_spec w (by rw [hK.1]; exact hrand) hK.2 p hp).2.1
    · exact ⟨rfl, by intro p hp; simp [initial] at hp⟩
  refine ⟨?_, (hinv evs).2, stepParticle_life_lt, ?_, ?_⟩
  · intro w x y hw p hp
    exact burst_decay (by rw [hw]; exact hrand) hp
  · intro p hp
    exact (animate_particles_spec _ (by rw [(hinv evs).1]; exact hrand) (hinv evs).2 p hp).2.2
  · intro w p hp
    rw [animate_particles, List.mem_filter] at hp
    exact of_decide_eq_true hp.2

/-- C6, on the sample page: after `begin()`, a timer and a frame; for the 100
particles of a burst at `(500, 300)`; and for the frame update of one particle
with life 1 and decay 0.012. -/
theorem particle_life_decreases_witness :
    (∀ k, 0 ≤ samplePage.host.random k ∧ samplePage.host.random k < 1)
      ∧ (∀ p ∈ (Fireworks.animate
          (exec [Ev.clickBegin none, Ev.tick, Ev.frame] (initial samplePage))).fw.particles,
          ∃ q, (q ∈ (exec [Ev.clickBegin none, Ev.tick, Ev.frame]
                  (initial samplePage)).fw.particles ∨ q.life = 1)
            ∧ p = stepParticle q ∧ p.life < q.life)
      ∧ (∀ p ∈ Fireworks.burst 500 300 (initial samplePage),
          0.008 ≤ p.decay ∧ p.decay < 0.016)
      ∧ (stepParticle (⟨500, 300, 4, 0, 1, 0.012, none, 3, []⟩ : Particle ℚ)).life < 1 :=
  ⟨fun _ => ⟨by norm_num [samplePage, pageWith], by norm_num [samplePage, pageWith]⟩,
   (particle_life_decreases samplePage
      (fun _ => ⟨by norm_num [samplePage, pageWith], by norm_num [samplePage, pageWith]⟩)
      [Ev.clickBegin none, Ev.tick, Ev.frame]).2.2.2.1,
   (particle_life_decreases samplePage
      (fun _ => ⟨by norm_num [samplePage, pageWith], by norm_num [samplePage, pageWith]⟩)
      []).1 (initial samplePage) 500 300 rfl,
   ((particle_life_decreases samplePage
      (fun _ => ⟨by norm_num [samplePage, pageWith], by norm_num [samplePage, pageWith]⟩)
      []).2.2.1 (⟨500, 300, 4, 0, 1, 0.012, none, 3, []⟩ : Particle ℚ) (by norm_num)).1⟩

/-- C7. In every state reachable from the initial state by any sequence of
events (so after any number of frame updates) every rocket trail has at most
10 samples and every particle trail at most 5; on a full trail an update
drops the oldest sample, keeps the others in order and appends the new
position last. -/
theorem trails_bounded (pg : Page α) (evs : List (Ev α)) :
    (∀ r ∈ (exec evs (initial pg)).fw.rockets, r.trail.length ≤ 10)
      ∧ (∀ p ∈ (exec evs (initial pg)).fw.particles, p.trail.length ≤ 5)
      ∧ (∀ r : Rocket α, r.trail.length = 10 →
          (stepRocket r).trail = r.trail.tail ++ [(r.x, r.y - r.speed)])
      ∧ (∀ p : Particle α, p.trail.length = 5 →
          (stepParticle p).trail = p.trail.tail ++ [(p.x + p.vx, p.y + p.vy, p.life - p.decay)]) := by
  have hinv : (∀ r ∈ (exec evs (initial pg)).fw.rockets, r.trail.length ≤ 10) ∧
      ∀ p ∈ (exec evs (initial pg)).fw.particles, p.trail.length ≤ 5 := by
    refine exec_preserves
      (fun w => (∀ r ∈ w.fw.rockets, r.trail.length ≤ 10) ∧
        ∀ p ∈ w.fw.particles, p.trail.length ≤ 5) ?_ ?_ ?_ ?_ evs _ ?_
    · intro w v _ hr hp hK
      exact ⟨hr ▸ hK.1, hp ▸ hK.2⟩
    · intro w _
      exact ⟨by intro r hr; simp [Experience.replay, setPhase] at hr,
             by intro p hp; simp [Experience.replay, setPhase] at hp⟩
    · intro x w hK
      refine ⟨?_, hK.2⟩
      intro r hr
      simp only [Fireworks.createRocket, List.mem_append, List.mem_singleton] at hr
      rcases hr with hr | rfl
      · exact hK.1 r hr
      · simp
    · intro w hK
      constructor
      · intro r hr
        rw [animate_rockets] at hr
        obtain ⟨r0, h0, rfl⟩ := animateRockets_kept _ _ r hr
        exact stepRocket_trail_le r0 (hK.1 r0 h0)
      · intro p hp
        rw [animate_particles, List.mem_filter, List.mem_map] at hp
        obtain ⟨⟨q, hq, rfl⟩, _⟩ := hp
        obtain ⟨extra, he, hfresh⟩ := animateRockets_particles w.fw.rockets w
        rw [he, List.mem_append] at hq
        apply stepParticle_trail_le
        rcases hq with hq | hq
        · exact hK.2 q hq
        · obtain ⟨x, y, v, _, hb⟩ := hfresh q hq
          rw [(burst_fresh hb).2.2.2.1]
          simp
    · exact ⟨by intro r hr; simp [initial] at hr, by intro p hp; simp [initial] at hp⟩
  refine ⟨hinv.1, hinv.2, ?_, ?_⟩
  · intro r h
    have hne : r.trail ≠ [] := by
      intro e; rw [e] at h; simp at h
    simp only [stepRocket, List.length_append, List.length_singleton, h]
    rw [if_pos (by decide), tail_append_singleton _ _ hne]
  · intro p h
    have hne : p.trail ≠ [] := by
      intro e; rw [e] at h; simp at h
    simp only [stepParticle, List.length_append, List.length_singleton, h]
    rw [if_pos (by decide), tail_append_singleton _ _ hne]

/-- C7, for a rocket with a full trail. -/
theorem trails_bounded_witness :
    (stepRocket (⟨5, 100, 0, 10,
        [(5, 200), (5, 190), (5, 180), (5, 170), (5, 160), (5, 150), (5, 140),
         (5, 130), (5, 120), (5, 110)]⟩ : Rocket ℚ)).trail
      = [(5, 190), (5, 180), (5, 170), (5, 160), (5, 150), (5, 140), (5, 130), (5, 120),
         (5, 110)] ++ [(5, 100 - 10)] :=
  (trails_bounded samplePage []).2.2.1
    ⟨5, 100, 0, 10,
      [(5, 200), (5, 190), (5, 180), (5, 170), (5, 160), (5, 150), (5, 140),
       (5, 130), (5, 120), (5, 110)]⟩ rfl

end Particles

/-! ## Rounding to binary64 -/

theorem roundHalfEven_cases (q : ℚ) : roundHalfEven q = ⌊q⌋ ∨ roundHalfEven q = ⌊q⌋ + 1 := by
  unfold roundHalfEven
  split_ifs <;> simp

theorem le_roundHalfEven (q : ℚ) (n : Int) (h : (n : ℚ) ≤ q) : n ≤ roundHalfEven q := by
  have hf : n ≤ ⌊q⌋ := Int.le_floor.mpr h
  rcases roundHalfEven_cases q with e | e <;> omega

theorem roundHalfEven_le (q : ℚ) (n : Int) (h : q ≤ (n : ℚ)) : roundHalfEven q ≤ n := by
  have hf : ⌊q⌋ ≤ n := by
    have := Int.floor_le q
    exact_mod_cast le_trans this h
  by_cases hq : (⌊q⌋ : ℚ) = q
  · have : roundHalfEven q = ⌊q⌋ := by
      unfold roundHalfEven
      rw [if_pos (by rw [hq]; norm_num)]
    omega
  · have hlt : (⌊q⌋ : ℚ) < n := lt_of_lt_of_le (lt_of_le_of_ne (Int.floor_le q) hq) h
    have : ⌊q⌋ < n := by exact_mod_cast hlt
    rcases roundHalfEven_cases q with e | e <;> omega

theorem roundHalfEven_le_of_lt_half (q : ℚ) (m : Int) (h : q < (m : ℚ) + 1 / 2) :
    roundHalfEven q ≤ m := by
  have hf : ⌊q⌋ ≤ m := by
    have h1 : q < ((m + 1 : Int) : ℚ) := by push_cast; linarith
    have := Int.floor_lt.mpr h1
    omega
  rcases lt_or_eq_of_le hf with hlt | heq
  · rcases roundHalfEven_cases q with e | e <;> omega
  · have : roundHalfEven q = ⌊q⌋ := by
      unfold roundHalfEven
      rw [if_pos (by rw [heq]; linarith)]
    omega

theorem binade_le (fuel : Nat) : ∀ (j : Nat) (q : ℚ) (e : Int), q < 2 ^ (j + 1) →
    binade fuel q e ≤ e + j := by
  induction fuel with
  | zero => intro j q e _; simp [binade]
  | succ n ih =>
    intro j q e h
    simp only [binade]
    split_ifs with h2 h1
    · cases j with
      | zero => norm_num at h; linarith
      | succ j =>
        have := ih j (q / 2) (e + 1) (by rw [div_lt_iff₀ (by norm_num)]; rw [pow_succ] at h; linarith)
        push_cast
        omega
    · have := ih 0 (q * 2) (e - 1) (by norm_num; linarith)
      simp only [Nat.cast_zero] at this
      omega
    · omega

theorem ulp64_pos (q : ℚ) : 0 < ulp64 q := by
  unfold ulp64
  split_ifs <;> positivity

theorem ulp64_eq (q : ℚ) (E : Nat) (hE : E ≤ 52) (h : q < 2 ^ (E + 1)) :
    ∃ k : Nat, 52 ≤ k + E ∧ ulp64 q = 1 / 2 ^ k := by
  have hb := binade_le 2200 E q 0 h
  have hm : max (binade 2200 q 0) (-1022) ≤ 52 := by omega
  refine ⟨(52 - max (binade 2200 q 0) (-1022)).toNat, by omega, ?_⟩
  unfold ulp64
  rw [if_pos hm]

theorem round64_nonneg (x : ℚ) (h : 0 ≤ x) : 0 ≤ round64 x := by
  unfold round64
  split_ifs with h0 h1
  · exact le_refl 0
  · have : (0 : Int) ≤ roundHalfEven (x / ulp64 x) :=
      le_roundHalfEven _ 0 (by push_cast; exact div_nonneg h (ulp64_pos x).le)
    exact mul_nonneg (by exact_mod_cast this) (ulp64_pos x).le
  · exact absurd (lt_of_le_of_ne h (Ne.symm h0)) h1

/-- A multiple of `2^-j` below `x` is below the rounded `x`. -/
theorem le_round64 (x : ℚ) (E j : Nat) (hj : j + E ≤ 52) (a : Int) (hE : x < 2 ^ (E + 1))
    (h0 : 0 ≤ x) (ha : (a : ℚ) / 2 ^ j ≤ x) : (a : ℚ) / 2 ^ j ≤ round64 x := by
  unfold round64
  split_ifs with hx0 hx1
  · rw [hx0] at ha; exact ha
  · obtain ⟨k, hk, hu⟩ := ulp64_eq x E (by omega) hE
    rw [hu]
    obtain ⟨d, rfl⟩ : ∃ d, k = j + d := ⟨k - j, by omega⟩
    have hp : (0 : ℚ) < 2 ^ j := by positivity
    have hd : (0 : ℚ) < 2 ^ d := by positivity
    have h1 : ((a * 2 ^ d : Int) : ℚ) ≤ x / (1 / 2 ^ (j + d)) := by
      push_cast
      rw [div_le_iff₀ hp] at ha
      rw [one_div, div_inv_eq_mul, pow_add]
      nlinarith
    have h3 : ((a * 2 ^ d : Int) : ℚ) ≤ (roundHalfEven (x / (1 / 2 ^ (j + d))) : ℚ) := by
      exact_mod_cast le_roundHalfEven _ _ h1
    have he : (a : ℚ) / 2 ^ j = ((a * 2 ^ d : Int) : ℚ) * (1 / 2 ^ (j + d)) := by
      push_cast
      rw [pow_add]
      field_simp
      ring
    rw [he]
    exact mul_le_mul_of_nonneg_right h3 (by positivity)
  · exact absurd (lt_of_le_of_ne h0 (Ne.symm hx0)) hx1

/-- A multiple of `2^-j` above `x` is above the rounded `x`. -/
theorem round64_le (x : ℚ) (E j : Nat) (hj : j + E ≤ 52) (b : Int) (hE : x < 2 ^ (E + 1))
    (h0 : 0 ≤ x) (hb : x ≤ (b : ℚ) / 2 ^ j) : round64 x ≤ (b : ℚ) / 2 ^ j := by
  unfold round64
  split_ifs with hx0 hx1
  · rw [hx0] at hb; exact hb
  · obtain ⟨k, hk, hu⟩ := ulp64_eq x E (by omega) hE
    rw [hu]
    obtain ⟨d, rfl⟩ : ∃ d, k = j + d := ⟨k - j, by omega⟩
    have hp : (0 : ℚ) < 2 ^ j := by positivity
    have hd : (0 : ℚ) < 2 ^ d := by positivity
    have h1 : x / (1 / 2 ^ (j + d)) ≤ ((b * 2 ^ d : Int) : ℚ) := by
      push_cast
      rw [le_div_iff₀ hp] at hb
      rw [one_div, div_inv_eq_mul, pow_add]
      nlinarith
    have h3 : (roundHalfEven (x / (1 / 2 ^ (j + d))) : ℚ) ≤ ((b * 2 ^ d : Int) : ℚ) := by
      exact_mod_cast roundHalfEven_le _ _ h1
    have he : (b : ℚ) / 2 ^ j = ((b * 2 ^ d : Int) : ℚ) * (1 / 2 ^ (j + d)) := by
      push_cast
      rw [pow_add]
      field_simp
      ring
    rw [he]
    exact mul_le_mul_of_nonneg_right h3 (by positivity)
  · exact absurd (lt_of_le_of_ne h0 (Ne.symm hx0)) hx1

/-- An odd multiple of `2^-(j+1)` strictly above `x` is above the rounded `x`:
a value less than half a step below a double is not rounded past it. -/
theorem round64_le_of_lt (x : ℚ) (E j : Nat) (hj : j + E ≤ 52) (m : Int)
    (hE : x < 2 ^ (E + 1)) (h0 : 0 ≤ x) (hb : x < ((2 * m + 1 : Int) : ℚ) / 2 ^ (j + 1)) :
    round64 x ≤ ((2 * m + 1 : Int) : ℚ) / 2 ^ (j + 1) := by
  unfold round64
  split_ifs with hx0 hx1
  · rw [hx0] at hb; exact hb.le
  · obtain ⟨k, hk, hu⟩ := ulp64_eq x E (by omega) hE
    rw [hu]
    obtain ⟨d, rfl⟩ : ∃ d, k = j + d := ⟨k - j, by omega⟩
    have hp : (0 : ℚ) < 2 ^ j := by positivity
    have hd : (0 : ℚ) < 2 ^ d := by positivity
    rw [lt_div_iff₀ (by positivity), pow_succ] at hb
    cases d with
    | zero =>
      have h1 : x / (1 / 2 ^ (j + 0)) < (m : ℚ) + 1 / 2 := by
        rw [one_div, div_inv_eq_mul, add_zero]
        push_cast at hb
        linarith
      have h3 : (roundHalfEven (x / (1 / 2 ^ (j + 0))) : ℚ) ≤ (m : ℚ) := by
        exact_mod_cast roundHalfEven_le_of_lt_half _ _ h1
      rw [add_zero] at h3 ⊢
      rw [le_div_iff₀ (by positivity), pow_succ]
      push_cast
      have : (roundHalfEven (x / (1 / 2 ^ j)) : ℚ) * (1 / 2 ^ j) * (2 ^ j * 2)
          = (roundHalfEven (x / (1 / 2 ^ j)) : ℚ) * 2 := by
        field_simp
        ring
      rw [this]
      linarith
    | succ d =>
      have hd2 : (0 : ℚ) < 2 ^ d := by positivity
      have h1 : x / (1 / 2 ^ (j + (d + 1))) ≤ (((2 * m + 1) * 2 ^ d : Int) : ℚ) := by
        push_cast
        push_cast at hb
        rw [one_div, div_inv_eq_mul, pow_add, pow_succ]
        nlinarith
      have h3 : (roundHalfEven (x / (1 / 2 ^ (j + (d + 1)))) : ℚ)
          ≤ (((2 * m + 1) * 2 ^ d : Int) : ℚ) := by
        exact_mod_cast roundHalfEven_le _ _ h1
      have he : ((2 * m + 1 : Int) : ℚ) / 2 ^ (j + 1)
          = (((2 * m + 1) * 2 ^ d : Int) : ℚ) * (1 / 2 ^ (j + (d + 1))) := by
        push_cast
        rw [pow_add, pow_add, pow_succ]
        field_simp
        ring
      rw [he]
      exact mul_le_mul_of_nonneg_right h3 (by positivity)
  · exact absurd (lt_of_le_of_ne h0 (Ne.symm hx0)) hx1

/-! ## The burst of `explode` -/

section Burst

variable {α : Type} [LinearOrderedField α] [FloorRing α]

theorem particleCount_bounds (w : World α)
    (hrand : ∀ k, 0 ≤ w.host.random k ∧ w.host.random k < 1) :
    80 ≤ Fireworks.particleCount w ∧ Fireworks.particleCount w ≤ 119 := by
  have h := hrand (w.rngPos + 1)
  have h0 : (0 : Int) ≤ ⌊rand w 1 * 40⌋ := by
    rw [Int.floor_nonneg]
    exact mul_nonneg h.1 (by norm_num)
  have h1 : ⌊rand w 1 * 40⌋ < 40 := by
    rw [Int.floor_lt]
    have : rand w 1 < 1 := h.2
    push_cast
    linarith
  simp only [Fireworks.particleCount]
  constructor <;> omega

theorem burst_length (x y : α) (w : World α) :
    (Fireworks.burst x y w).length = (Fireworks.particleCount w).toNat := by
  simp [Fireworks.burst]

theorem burstColor_mem (w : World α)
    (hrand : ∀ k, 0 ≤ w.host.random k ∧ w.host.random k < 1) :
    ∃ c ∈ colors, Fireworks.burstColor w = some c := by
  have h := hrand (w.rngPos + 0)
  have hlen : ((colors.length : Nat) : α) = 5 := by
    simp [colors]
  have h0 : (0 : Int) ≤ ⌊rand w 0 * (colors.length : α)⌋ := by
    rw [Int.floor_nonneg, hlen]
    exact mul_nonneg h.1 (by norm_num)
  have h1 : ⌊rand w 0 * (colors.length : α)⌋ < 5 := by
    rw [Int.floor_lt, hlen]
    have : rand w 0 < 1 := h.2
    push_cast
    linarith
  simp only [Fireworks.burstColor]
  generalize ⌊rand w 0 * (colors.length : α)⌋ = idx at h0 h1
  interval_cases idx <;> simp [colorAt, colors]

theorem burstParticleWith_id {β : Type} [LinearOrderedField β] (w : World β) (x y : β)
    (c : Option String) (n : Int) (i : Nat) :
    Fireworks.burstParticleWith id w x y c n i = Fireworks.burstParticle w x y c n i := rfl

theorem burstWith_id (x y : α) (w : World α) :
    Fireworks.burstWith id x y w = Fireworks.burst x y w := rfl

theorem explodeWith_id (x y : α) (w : World α) :
    Fireworks.explodeWith id x y w = Fireworks.explode x y w := rfl

/-- In binary64 the speed of a particle lies in `[2, 6]`. -/
theorem velocity64_range (w : World ℚ) (i : Nat)
    (hrand : ∀ k, 0 ≤ w.host.random k ∧ w.host.random k < 1) :
    2 ≤ Fireworks.velocityWith round64 w i ∧ Fireworks.velocityWith round64 w i ≤ 6 := by
  have h := hrand (w.rngPos + (2 + 4 * i + 1))
  have hr0 : 0 ≤ rand w (2 + 4 * i + 1) := h.1
  have hr1 : rand w (2 + 4 * i + 1) < 1 := h.2
  have h0 : 0 ≤ round64 (rand w (2 + 4 * i + 1) * 4) := round64_nonneg _ (by linarith)
  have h4 : round64 (rand w (2 + 4 * i + 1) * 4) ≤ 4 := by
    have := round64_le (rand w (2 + 4 * i + 1) * 4) 2 0 (by norm_num) 4 (by norm_num; linarith)
      (by linarith) (by norm_num; linarith)
    norm_num at this
    exact this
  have hlo := le_round64 (2 + round64 (rand w (2 + 4 * i + 1) * 4)) 2 0 (by norm_num) 2
    (by norm_num; linarith) (by linarith) (by norm_num; linarith)
  have hhi := round64_le (2 + round64 (rand w (2 + 4 * i + 1) * 4)) 2 0 (by norm_num) 6
    (by norm_num; linarith) (by linarith) (by norm_num; linarith)
  norm_num at hlo hhi
  exact ⟨hlo, hhi⟩

/-- In binary64 a burst has between 80 and 119 particles: the product of a
draw below 1 and 40 is not rounded up to 40. -/
theorem particleCount64_bounds (w : World ℚ)
    (hrand : ∀ k, 0 ≤ w.host.random k ∧ w.host.random k ≤ 1 - 1 / 2 ^ 53) :
    80 ≤ Fireworks.particleCountWith round64 w ∧ Fireworks.particleCountWith round64 w ≤ 119 := by
  have h := hrand (w.rngPos + 1)
  have hr0 : 0 ≤ rand w 1 := h.1
  have hr1 : rand w 1 ≤ 1 - 1 / 2 ^ 53 := h.2
  have h0 : (0 : Int) ≤ ⌊round64 (rand w 1 * 40)⌋ :=
    Int.floor_nonneg.mpr (round64_nonneg _ (by linarith))
  have hlt : round64 (rand w 1 * 40) < 40 := by
    have := round64_le_of_lt (rand w 1 * 40) 5 47 (by norm_num) (40 * 2 ^ 47 - 1)
      (by norm_num at hr1 ⊢; linarith) (by linarith) (by norm_num at hr1 ⊢; linarith)
    exact lt_of_le_of_lt this (by norm_num)
  have h1 : ⌊round64 (rand w 1 * 40)⌋ < 40 := by
    rw [Int.floor_lt]
    exact_mod_cast hlt
  simp only [Fireworks.particleCountWith]
  constructor <;> omega

/-- In binary64 the colour of a burst is one of the palette: the product of a
draw below 1 and 5 is not rounded up to 5. -/
theorem burstColor64_mem (w : World ℚ)
    (hrand : ∀ k, 0 ≤ w.host.random k ∧ w.host.random k ≤ 1 - 1 / 2 ^ 53) :
    ∃ c ∈ colors, Fireworks.burstColorWith round64 w = some c := by
  have h := hrand (w.rngPos + 0)
  have hr0 : 0 ≤ rand w 0 := h.1
  have hr1 : rand w 0 ≤ 1 - 1 / 2 ^ 53 := h.2
  have hlen : ((colors.length : Nat) : ℚ) = 5 := by
    simp [colors]
  have h0 : (0 : Int) ≤ ⌊round64 (rand w 0 * (colors.length : ℚ))⌋ := by
    rw [hlen]
    exact Int.floor_nonneg.mpr (round64_nonneg _ (by linarith))
  have hlt : round64 (rand w 0 * 5) < 5 := by
    have := round64_le_of_lt (rand w 0 * 5) 2 50 (by norm_num) (5 * 2 ^ 50 - 1)
      (by norm_num at hr1 ⊢; linarith) (by linarith) (by norm_num at hr1 ⊢; linarith)
    exact lt_of_le_of_lt this (by norm_num)
  have h1 : ⌊round64 (rand w 0 * (colors.length : ℚ))⌋ < 5 := by
    rw [hlen, Int.floor_lt]
    exact_mod_cast hlt
  simp only [Fireworks.burstColorWith]
  generalize ⌊round64 (rand w 0 * (colors.length : ℚ))⌋ = idx at h0 h1
  interval_cases idx <;> simp [colorAt, colors]

/-- C8, amended. `explode(x, y)` appends to `Fireworks.particles` a burst of
between 80 and 119 particles, all of one colour of the five-colour palette,
each at `(x, y)` with life 1 and an empty trail, and this in both readings of
the arithmetic. Over the reals, with every draw in `[0, 1)` and `cos^2 + sin^2
= 1`, `sqrt(vx^2 + vy^2)` lies in `[2, 6)`. In binary64, with every draw a
double in `[0, 1)`, hence at most `1 - 2^-53`, the speed `velocity` lies in
`[2, 6]`, and `vx` and `vy` are the rounded products of `velocity` with
`Math.cos(angle)` and `Math.sin(angle)`. -/
theorem explode_burst (w : World ℝ) (x y : ℝ)
    (hrand : ∀ k, 0 ≤ w.host.random k ∧ w.host.random k < 1)
    (htrig : ∀ a, w.host.cos a ^ 2 + w.host.sin a ^ 2 = 1)
    (v : World ℚ) (a b : ℚ)
    (hdraw : ∀ k, 0 ≤ v.host.random k ∧ v.host.random k ≤ 1 - 1 / 2 ^ 53) :
    ((Fireworks.explode x y w).fw.particles = w.fw.particles ++ Fireworks.burst x y w
      ∧ 80 ≤ (Fireworks.burst x y w).length
      ∧ (Fireworks.burst x y w).length ≤ 119
      ∧ (∃ c ∈ colors, ∀ p ∈ Fireworks.burst x y w, p.color = some c)
      ∧ ∀ p ∈ Fireworks.burst x y w,
          p.x = x ∧ p.y = y ∧ p.life = 1 ∧ p.trail = []
            ∧ 2 ≤ Real.sqrt (p.vx ^ 2 + p.vy ^ 2) ∧ Real.sqrt (p.vx ^ 2 + p.vy ^ 2) < 6)
    ∧ ((Fireworks.explodeWith round64 a b v).fw.particles
          = v.fw.particles ++ Fireworks.burstWith round64 a b v
      ∧ 80 ≤ (Fireworks.burstWith round64 a b v).length
      ∧ (Fireworks.burstWith round64 a b v).length ≤ 119
      ∧ (∃ c ∈ colors, ∀ p ∈ Fireworks.burstWith round64 a b v, p.color = some c)
      ∧ ∀ p ∈ Fireworks.burstWith round64 a b v,
          p.x = a ∧ p.y = b ∧ p.life = 1 ∧ p.trail = []
            ∧ ∃ i : Nat, 2 ≤ Fireworks.velocityWith round64 v i
                ∧ Fireworks.velocityWith round64 v i ≤ 6
                ∧ p.vx = round64 (v.host.cos
                    (Fireworks.angleWith round64 v (Fireworks.particleCountWith round64 v) i)
                    * Fireworks.velocityWith round64 v i)
                ∧ p.vy = round64 (v.host.sin
                    (Fireworks.angleWith round64 v (Fireworks.particleCountWith round64 v) i)
                    * Fireworks.velocityWith round64 v i)) := by
  have hc := particleCount_bounds w hrand
  have hc64 := particleCount64_bounds v hdraw
  have hlen64 : (Fireworks.burstWith round64 a b v).length
      = (Fireworks.particleCountWith round64 v).toNat := by
    simp [Fireworks.burstWith]
  have hlt : ∀ k, 0 ≤ v.host.random k ∧ v.host.random k < 1 := fun k =>
    ⟨(hdraw k).1, lt_of_le_of_lt (hdraw k).2 (by norm_num)⟩
  refine ⟨⟨rfl, ?_, ?_, ?_, ?_⟩, ⟨rfl, ?_, ?_, ?_, ?_⟩⟩
  · rw [burst_length]; omega
  · rw [burst_length]; omega
  · obtain ⟨c, hmem, hcol⟩ := burstColor_mem w hrand
    exact ⟨c, hmem, fun p hp => (burst_fresh hp).2.2.2.2.trans hcol⟩
  · intro p hp
    obtain ⟨hx, hy, hl, ht, _⟩ := burst_fresh hp
    refine ⟨hx, hy, hl, ht, ?_⟩
    obtain ⟨i, rfl⟩ := mem_burst hp
    have h := hrand (w.rngPos + (2 + 4 * i + 1))
    have hv2 : (2 : ℝ) ≤ 2 + rand w (2 + 4 * i + 1) * 4 := by
      have : 0 ≤ rand w (2 + 4 * i + 1) := h.1
      linarith
    have hv6 : 2 + rand w (2 + 4 * i + 1) * 4 < 6 := by
      have : rand w (2 + 4 * i + 1) < 1 := h.2
      linarith
    have hsq : ∀ a : ℝ, (w.host.cos a * (2 + rand w (2 + 4 * i + 1) * 4)) ^ 2
        + (w.host.sin a * (2 + rand w (2 + 4 * i + 1) * 4)) ^ 2
        = (2 + rand w (2 + 4 * i + 1) * 4) ^ 2 := by
      intro a
      have := htrig a
      calc (w.host.cos a * (2 + rand w (2 + 4 * i + 1) * 4)) ^ 2
            + (w.host.sin a * (2 + rand w (2 + 4 * i + 1) * 4)) ^ 2
          = (w.host.cos a ^ 2 + w.host.sin a ^ 2) * (2 + rand w (2 + 4 * i + 1) * 4) ^ 2 := by
            ring
        _ = (2 + rand w (2 + 4 * i + 1) * 4) ^ 2 := by rw [this, one_mul]
    simp only [Fireworks.burstParticle]
    rw [hsq, Real.sqrt_sq (by linarith)]
    exact ⟨hv2, hv6⟩
  · rw [hlen64]; omega
  · rw [hlen64]; omega
  · obtain ⟨c, hmem, hcol⟩ := burstColor64_mem v hdraw
    refine ⟨c, hmem, fun p hp => ?_⟩
    simp only [Fireworks.burstWith, List.mem_map, List.mem_range] at hp
    obtain ⟨i, _, rfl⟩ := hp
    exact hcol
  · intro p hp
    simp only [Fireworks.burstWith, List.mem_map, List.mem_range] at hp
    obtain ⟨i, _, rfl⟩ := hp
    exact ⟨rfl, rfl, rfl, rfl, i, (velocity64_range v i hlt).1, (velocity64_range v i hlt).2,
      rfl, rfl⟩

/-- C8 amended, for a burst at `(500, 300)`: over the reals with every draw one
half and the real cosine and sine, and in binary64 on the page `edgePage`. -/
theorem explode_burst_witness :
    ((∀ k : Nat, (0 : ℝ) ≤ (fun _ => 1 / 2 : Nat → ℝ) k ∧ (fun _ => 1 / 2 : Nat → ℝ) k < 1)
      ∧ (∀ a : ℝ, Real.cos a ^ 2 + Real.sin a ^ 2 = 1)
      ∧ ∀ k : Nat, 0 ≤ (initial edgePage).host.random k
          ∧ (initial edgePage).host.random k ≤ 1 - 1 / 2 ^ 53)
    ∧ 80 ≤ (Fireworks.burst 500 300
        (initial (pageWith ⟨fun _ => 1 / 2, Real.cos, Real.sin, Real.pi⟩))).length
    ∧ (Fireworks.burst 500 300
        (initial (pageWith ⟨fun _ => 1 / 2, Real.cos, Real.sin, Real.pi⟩))).length ≤ 119
    ∧ 80 ≤ (Fireworks.burstWith round64 500 300 (initial edgePage)).length
    ∧ (Fireworks.burstWith round64 500 300 (initial edgePage)).length ≤ 119 :=
  have hd : ∀ k : Nat, 0 ≤ (initial edgePage).host.random k
      ∧ (initial edgePage).host.random k ≤ 1 - 1 / 2 ^ 53 := by
    intro k
    show (0 : ℚ) ≤ (if k = 3 then 1 - 1 / 2 ^ 53 else 0)
      ∧ (if k = 3 then 1 - 1 / 2 ^ 53 else (0 : ℚ)) ≤ 1 - 1 / 2 ^ 53
    split_ifs <;> norm_num
  have hr : ∀ k : Nat, 0 ≤ (initial (pageWith
        (⟨fun _ => 1 / 2, Real.cos, Real.sin, Real.pi⟩ : Host ℝ))).host.random k
      ∧ (initial (pageWith
        (⟨fun _ => 1 / 2, Real.cos, Real.sin, Real.pi⟩ : Host ℝ))).host.random k < 1 :=
    fun _ => ⟨by norm_num [initial, pageWith], by norm_num [initial, pageWith]⟩
  ⟨⟨fun _ => ⟨by norm_num, by norm_num⟩, Real.cos_sq_add_sin_sq, hd⟩,
   (explode_burst (initial (pageWith ⟨fun _ => 1 / 2, Real.cos, Real.sin, Real.pi⟩)) 500 300
      hr Real.cos_sq_add_sin_sq (initial edgePage) 500 300 hd).1.2.1,
   (explode_burst (initial (pageWith ⟨fun _ => 1 / 2, Real.cos, Real.sin, Real.pi⟩)) 500 300
      hr Real.cos_sq_add_sin_sq (initial edgePage) 500 300 hd).1.2.2.1,
   (explode_burst (initial (pageWith ⟨fun _ => 1 / 2, Real.cos, Real.sin, Real.pi⟩)) 500 300
      hr Real.cos_sq_add_sin_sq (initial edgePage) 500 300 hd).2.2.1,
   (explode_burst (initial (pageWith ⟨fun _ => 1 / 2, Real.cos, Real.sin, Real.pi⟩)) 500 300
      hr Real.cos_sq_add_sin_sq (initial edgePage) 500 300 hd).2.2.2.1⟩

set_option maxRecDepth 100000 in
/-- C8, counterexample. A burst at `(500, 300)` in binary64 on the page
`edgePage`, every draw in `[0, 1)`: the velocity draw of the first particle is
`1 - 2^-53`, `2 + (1 - 2^-53) * 4` is rounded to 6 and the jitter draw 0 makes
the angle 0, so the first particle has `vx = 6`, `vy = 0`, and `sqrt(vx^2 +
vy^2) = 6` is not below 6. -/
theorem explode_speed_six :
    (∀ k : Nat, 0 ≤ (initial edgePage).host.random k ∧ (initial edgePage).host.random k < 1)
      ∧ Fireworks.velocityWith round64 (initial edgePage) 0 = 6
      ∧ ∃ p ∈ (Fireworks.explodeWith round64 500 300 (initial edgePage)).fw.particles,
          p.vx = 6 ∧ p.vy = 0
            ∧ ¬ (2 ≤ Real.sqrt ((p.vx : ℝ) ^ 2 + (p.vy : ℝ) ^ 2)
                ∧ Real.sqrt ((p.vx : ℝ) ^ 2 + (p.vy : ℝ) ^ 2) < 6) := by
  have hd : ∀ k : Nat, 0 ≤ (initial edgePage).host.random k
      ∧ (initial edgePage).host.random k < 1 := by
    intro k
    show (0 : ℚ) ≤ (if k = 3 then 1 - 1 / 2 ^ 53 else 0)
      ∧ (if k = 3 then 1 - 1 / 2 ^ 53 else (0 : ℚ)) < 1
    split_ifs <;> norm_num
  have hn : Fireworks.particleCountWith round64 (initial edgePage) = 80 := by decide!
  have hv : Fireworks.velocityWith round64 (initial edgePage) 0 = 6 := by decide!
  have hx : (Fireworks.burstParticleWith round64 (initial edgePage) 500 300
      (Fireworks.burstColorWith round64 (initial edgePage))
      (Fireworks.particleCountWith round64 (initial edgePage)) 0).vx = 6 := by decide!
  have hy : (Fireworks.burstParticleWith round64 (initial edgePage) 500 300
      (Fireworks.burstColorWith round64 (initial edgePage))
      (Fireworks.particleCountWith round64 (initial edgePage)) 0).vy = 0 := by decide!
  refine ⟨hd, hv, _, List.mem_append_right _ (List.mem_map.mpr
    ⟨0, List.mem_range.mpr (by rw [hn]; decide), rfl⟩), hx, hy, ?_⟩
  rw [hx, hy]
  intro h
  have h6 : Real.sqrt (((6 : ℚ) : ℝ) ^ 2 + ((0 : ℚ) : ℝ) ^ 2) = 6 := by
    have : (((6 : ℚ) : ℝ) ^ 2 + ((0 : ℚ) : ℝ) ^ 2) = (6 : ℝ) ^ 2 := by norm_num
    rw [this, Real.sqrt_sq (by norm_num)]
  rw [h6] at h
  exact lt_irrefl _ h.2

end Burst

/-! ## Erasing launch fractions -/

theorem map_erase_insertTimer {α : Type} (t : Timer α) (l : List (Timer α)) :
    (insertTimer t l).map Timer.erase = insertTimer t.erase (l.map Timer.erase) := by
  induction l with
  | nil => rfl
  | cons u us ih =>
    by_cases h : t.due < u.due
    · simp [insertTimer, h, Timer.erase]
    · simp [insertTimer, h, Timer.erase] at ih ⊢
      exact ih

theorem erase_sequencing {α : Type} (t : Timer α) : t.erase.cb.sequencing = t.cb.sequencing := by
  cases t with
  | mk due cb => cases cb <;> rfl

theorem core_begin_initial {α : Type} [LinearOrderedField α] (pg : Page α) (failAt : Option Nat) :
    core (Experience.begin failAt (initial pg))
      = core (Experience.begin none (initial samplePage)) := rfl

/-! ## The sequencer view is independent of everything else -/

section Sequencer

variable {α : Type} [LinearOrderedField α] [FloorRing α]
variable {β : Type} [LinearOrderedField β] [FloorRing β]

theorem animateRockets_core (rs : List (Rocket α)) (w : World α) :
    (animateRockets rs w).2.state = w.state ∧ (animateRockets rs w).2.timers = w.timers
      ∧ (animateRockets rs w).2.now = w.now ∧ (animateRockets rs w).2.phaseLog = w.phaseLog
      ∧ (animateRockets rs w).2.shown = w.shown
      ∧ (animateRockets rs w).2.fw.isActive = w.fw.isActive
      ∧ (animateRockets rs w).2.fw.chains = w.fw.chains := by
  induction rs generalizing w with
  | nil => exact ⟨rfl, rfl, rfl, rfl, rfl, rfl, rfl⟩
  | cons r rs ih =>
    simp only [animateRockets]
    split
    · exact ih _
    · exact ih w

theorem animate_state (w : World α) : (Fireworks.animate w).state = w.state :=
  (animateRockets_core w.fw.rockets w).1

theorem animate_timers (w : World α) : (Fireworks.animate w).timers = w.timers :=
  (animateRockets_core w.fw.rockets w).2.1

theorem animate_now (w : World α) : (Fireworks.animate w).now = w.now :=
  (animateRockets_core w.fw.rockets w).2.2.1

theorem animate_phaseLog (w : World α) : (Fireworks.animate w).phaseLog = w.phaseLog :=
  (animateRockets_core w.fw.rockets w).2.2.2.1

theorem animate_shown (w : World α) : (Fireworks.animate w).shown = w.shown :=
  (animateRockets_core w.fw.rockets w).2.2.2.2.1

theorem animate_isActive (w : World α) : (Fireworks.animate w).fw.isActive = w.fw.isActive :=
  (animateRockets_core w.fw.rockets w).2.2.2.2.2.1

theorem animate_chains (w : World α) : (Fireworks.animate w).fw.chains = w.fw.chains + 1 := by
  show (animateRockets w.fw.rockets w).2.fw.chains + 1 = w.fw.chains + 1
  rw [(animateRockets_core w.fw.rockets w).2.2.2.2.2.2]

theorem core_animate (w : World α) : core (Fireworks.animate w) = core w := by
  simp only [core, animate_state, animate_timers, animate_now, animate_phaseLog, animate_shown,
    animate_isActive]

theorem core_frame (w : World α) : core (frame w) = core w := by
  have h0 : core { w with fw := { w.fw with chains := 0 } } = core w := rfl
  simp only [frame]
  generalize { w with fw := { w.fw with chains := 0 } } = v at h0
  induction w.fw.chains generalizing v with
  | zero => exact h0
  | succ n ih =>
    rw [Function.iterate_succ_apply]
    exact ih _ ((core_animate v).trans h0)

/-- The sequencer view after a timer closure depends only on the sequencer
view before it and on the kind of closure. -/
theorem core_runCallback_congr (cb : Callback α) (cb1 : Callback β) (w : World α) (w1 : World β)
    (hcb : cb.erase = cb1.erase) (h : core w = core w1) :
    core (runCallback cb w) = core (runCallback cb1 w1) := by
  simp only [core, Core.mk.injEq] at h
  obtain ⟨h1, h2, h3, h4, h5, h6, h7⟩ := h
  cases cb <;> cases cb1 <;> try (simp [Callback.erase] at hcb)
  case advance.advance =>
    simp only [runCallback, h2]
    split
    · simp [Experience.showNumber, setTimeout, core, timingConfig, map_erase_insertTimer,
        Timer.erase, Callback.erase, h1, h2, h3, h4, h5, h6, h7]
    · simp [Experience.zeroMoment, setTimeout, setPhase, core, timingConfig,
        map_erase_insertTimer, Timer.erase, Callback.erase, h1, h2, h3, h4, h5, h6, h7]
  case launch.launch x y =>
    simp only [runCallback, h3]
    split
    · simp [Fireworks.createRocket, core, h1, h2, h3, h4, h5, h6, h7]
    · simp [core, h1, h2, h3, h4, h5, h6, h7]
  all_goals
    simp [runCallback, Experience.startCountdown, Experience.showNumber, Experience.zeroMoment,
      Experience.release, Experience.showMessage, Experience.afterglow, Fireworks.start,
      Fireworks.fadeOut, Fireworks.launchSequence, launches, setTimeout, setPhase, core,
      timingConfig, map_erase_insertTimer, Timer.erase, Callback.erase, animate_state,
      animate_timers, animate_now, animate_phaseLog, animate_shown, animate_isActive,
      h1, h2, h3, h4, h5, h6, h7]

theorem core_fireNext_congr (w : World α) (w1 : World β) (h : core w = core w1) :
    core (fireNext w) = core (fireNext w1) := by
  have ht : w.timers.map Timer.erase = w1.timers.map Timer.erase := congrArg Core.timers h
  have hnow : w.now = w1.now := congrArg Core.now h
  cases hw : w.timers with
  | nil =>
    rw [hw] at ht
    have hw1 : w1.timers = [] := by simpa using ht.symm
    simp only [fireNext, hw, hw1]
    exact h
  | cons t ts =>
    cases hw1 : w1.timers with
    | nil => rw [hw, hw1] at ht; simp at ht
    | cons t1 ts1 =>
      rw [hw, hw1] at ht
      simp only [List.map_cons, List.cons.injEq] at ht
      simp only [fireNext, hw, hw1]
      apply core_runCallback_congr
      · exact congrArg Timer.cb ht.1
      · have hdue : t.due = t1.due := congrArg Timer.due ht.1
        simp only [core, Core.mk.injEq] at h ⊢
        refine ⟨h.1, h.2.1, h.2.2.1, ht.2, ?_, h.2.2.2.2.2.1, h.2.2.2.2.2.2⟩
        rw [hnow, hdue]

theorem core_run_congr (n : Nat) (w : World α) (w1 : World β) (h : core w = core w1) :
    core (run n w) = core (run n w1) := by
  induction n generalizing w w1 with
  | zero => exact h
  | succ n ih => exact ih _ _ (core_fireNext_congr w w1 h)

/-- Frames between timers do not change the sequencer view. -/
theorem core_exec_passive (es : List (Ev α)) (hes : ∀ e ∈ es, e.passive = true) (w : World α) :
    core (exec es w) = core (run (ticks es) w) := by
  induction es generalizing w with
  | nil => rfl
  | cons e es ih =>
    have hrest : ∀ e ∈ es, e.passive = true := fun e he => hes e (List.mem_cons_of_mem _ he)
    have he := hes e (List.mem_cons_self _ _)
    cases e with
    | tick => exact ih hrest _
    | frame =>
      show core (exec es (frame w)) = core (run (ticks es) w)
      rw [ih hrest]
      exact core_run_congr _ _ _ (core_frame w)
    | clickBegin f => simp [Ev.passive] at he
    | clickReplay => simp [Ev.passive] at he
    | clickSound => simp [Ev.passive] at he
    | keydown k f => simp [Ev.passive] at he
    | resize a b => simp [Ev.passive] at he
    | elapse d => simp [Ev.passive] at he

theorem run_add (m k : Nat) (w : World α) : run (m + k) w = run k (run m w) := by
  induction m generalizing w with
  | zero => simp [run]
  | succ m ih =>
    rw [Nat.succ_add]
    exact ih (fireNext w)

theorem run_of_no_timers (k : Nat) (w : World α) (h : w.timers = []) : run k w = w := by
  induction k with
  | zero => rfl
  | succ k ih =>
    have : fireNext w = w := by simp [fireNext, h]
    simp only [run, this, ih]

set_option maxRecDepth 100000 in
theorem sample_run_done : (run 38 (Experience.begin none (initial samplePage))).timers = [] := by
  decide!

/-- The sequencer view of the run started by one `begin()` on any page, after
`n` timers, is that of the sample run after `min n 38` timers. -/
theorem core_run_begin (pg : Page α) (failAt : Option Nat) (n : Nat) :
    core (run n (Experience.begin failAt (initial pg)))
      = core (run (min n 38) (Experience.begin none (initial samplePage))) := by
  rw [core_run_congr n _ _ (core_begin_initial pg failAt)]
  by_cases h : n ≤ 38
  · rw [Nat.min_eq_left h]
  · obtain ⟨k, rfl⟩ : ∃ k, n = 38 + k := ⟨n - 38, by omega⟩
    rw [Nat.min_eq_right (by omega), run_add, run_of_no_timers _ _ sample_run_done]

end Sequencer

/-! ## The uninterrupted run -/

section Run

variable {α : Type} [LinearOrderedField α] [FloorRing α]

set_option maxRecDepth 100000 in
set_option synthInstance.maxSize 4096 in
set_option synthInstance.maxHeartbeats 400000 in
theorem sample_countdown : ∀ n, n ≤ 38 →
    ((core (run n (Experience.begin none (initial samplePage)))).shown
        = countdownSteps.take (core (run n (Experience.begin none (initial samplePage)))).shown.length)
    ∧ (1 ≤ n → (2000, Phase.countdown)
        ∈ (core (run n (Experience.begin none (initial samplePage)))).phaseLog)
    ∧ (21 ≤ n →
        (core (run n (Experience.begin none (initial samplePage)))).shown = countdownSteps
        ∧ (12000, Phase.zero)
            ∈ (core (run n (Experience.begin none (initial samplePage)))).phaseLog)
    ∧ (∀ e ∈ (core (run n (Experience.begin none (initial samplePage)))).phaseLog,
        e.2 = Phase.countdown → e.1 = 2000)
    ∧ (∀ e ∈ (core (run n (Experience.begin none (initial samplePage)))).phaseLog,
        e.2 = Phase.zero → e.1 = 2000 + 10000
          ∧ (core (run n (Experience.begin none (initial samplePage)))).shown = countdownSteps) := by
  decide!

set_option maxRecDepth 100000 in
set_option synthInstance.maxSize 4096 in
set_option synthInstance.maxHeartbeats 400000 in
theorem sample_phases : ∀ n, n ≤ 38 →
    ((core (run n (Experience.begin none (initial samplePage)))).phaseLog.map Prod.snd
        = phaseOrder.take
            ((core (run n (Experience.begin none (initial samplePage)))).phaseLog.map Prod.snd).length)
    ∧ ((core (run n (Experience.begin none (initial samplePage)))).phaseLog.map Prod.snd).head?
        = some Phase.initiation
    ∧ ((core (run n (Experience.begin none (initial samplePage)))).phaseLog.map Prod.snd).getLast?
        = some (core (run n (Experience.begin none (initial samplePage)))).phase
    ∧ (36 ≤ n →
        (core (run n (Experience.begin none (initial samplePage)))).phaseLog.map Prod.snd = phaseOrder
        ∧ (core (run n (Experience.begin none (initial samplePage)))).phase = Phase.afterglow
        ∧ ∀ t ∈ (core (run n (Experience.begin none (initial samplePage)))).timers,
            t.cb.sequencing = false) := by
  decide!

/-- The sequencer view of an uninterrupted run on any page. -/
theorem core_uninterrupted (pg : Page α) (failAt : Option Nat) (sched : List (Ev α))
    (hs : ∀ e ∈ sched, e.passive = true) :
    core (exec sched (Experience.begin failAt (initial pg)))
      = core (run (min (ticks sched) 38) (Experience.begin none (initial samplePage))) := by
  rw [core_exec_passive sched hs, core_run_begin]

/-- C2. In the run started by one `begin()` from the initial state of any
page, with timers firing when due, any frames in between and no user input:
the values written to the countdown number are at every moment an initial
part of 10 at 2000 ms, 9 at 3000 ms, ..., 1 at 11000 ms (one value per step,
descending, 1000 ms apart); `startCountdown` runs at 2000 ms and at no other
time; `zeroMoment` runs at 12000 ms = 2000 + 10000 and at no other time, and
whenever it has run all ten values have been shown; after 21 timers all of
this has happened. The step durations are those of `timingConfig`: fade-in
100, hold 600, dissolve 300. -/
theorem countdown_run (pg : Page α) (failAt : Option Nat) (sched : List (Ev α))
    (hs : ∀ e ∈ sched, e.passive = true) :
    (timingConfig.numberFadeIn = 100 ∧ timingConfig.numberHold = 600
        ∧ timingConfig.numberDissolve = 300)
      ∧ (exec sched (Experience.begin failAt (initial pg))).shown <+: countdownSteps
      ∧ countdownSteps = [(2000, 10), (3000, 9), (4000, 8), (5000, 7), (6000, 6), (7000, 5),
          (8000, 4), (9000, 3), (10000, 2), (11000, 1)]
      ∧ (1 ≤ ticks sched →
          (2000, Phase.countdown) ∈ (exec sched (Experience.begin failAt (initial pg))).phaseLog)
      ∧ (21 ≤ ticks sched →
          (exec sched (Experience.begin failAt (initial pg))).shown = countdownSteps
          ∧ (12000, Phase.zero) ∈ (exec sched (Experience.begin failAt (initial pg))).phaseLog)
      ∧ (∀ t, (t, Phase.countdown) ∈ (exec sched (Experience.begin failAt (initial pg))).phaseLog →
          t = 2000)
      ∧ (∀ t, (t, Phase.zero) ∈ (exec sched (Experience.begin failAt (initial pg))).phaseLog →
          t = 2000 + 10000
            ∧ (exec sched (Experience.begin failAt (initial pg))).shown = countdownSteps) := by
  have hc := core_uninterrupted pg failAt sched hs
  have hm : min (ticks sched) 38 ≤ 38 := Nat.min_le_right _ _
  obtain ⟨h1, h2, h3, h4, h5⟩ := sample_countdown _ hm
  rw [← hc] at h1 h2 h3 h4 h5
  refine ⟨⟨rfl, rfl, rfl⟩, ?_, by decide, ?_, ?_, ?_, ?_⟩
  · exact List.prefix_iff_eq_take.2 h1
  · intro h
    exact h2 (by omega)
  · intro h
    exact h3 (by omega)
  · intro t ht
    exact h4 (t, Phase.countdown) ht rfl
  · intro t ht
    exact h5 (t, Phase.zero) ht rfl

/-- C2, on the sample page with a frame between the timers. -/
theorem countdown_run_witness :
    (∀ e ∈ (List.replicate 21 Ev.tick ++ [Ev.frame, Ev.tick] : List (Ev ℚ)), e.passive = true)
      ∧ (exec (List.replicate 21 Ev.tick ++ [Ev.frame, Ev.tick])
          (Experience.begin none (initial samplePage))).shown = countdownSteps :=
  ⟨by decide,
   ((countdown_run samplePage none (List.replicate 21 Ev.tick ++ [Ev.frame, Ev.tick])
      (by decide)).2.2.2.2.1 (by decide)).1⟩

/-- C10. In the run started by one `begin()` from the initial state of any
page, with timers firing when due, any frames in between and no user input:
the phase starts as `arrival`; the phases assigned to `state.phase` are at
every moment an initial part of initiation, countdown, zero, release, message,
afterglow, starting with initiation, so every transition goes to the next
phase of this order and none is entered twice; `state.phase` is the phase
assigned last; and from the 36th timer on the whole order has been run
through and `state.phase` is `afterglow` for ever. -/
theorem phase_sequence (pg : Page α) (failAt : Option Nat) (sched : List (Ev α))
    (hs : ∀ e ∈ sched, e.passive = true) :
    (initial pg).state.phase = Phase.arrival
      ∧ (exec sched (Experience.begin failAt (initial pg))).phaseLog.map Prod.snd <+: phaseOrder
      ∧ ((exec sched (Experience.begin failAt (initial pg))).phaseLog.map Prod.snd).head?
          = some Phase.initiation
      ∧ ((exec sched (Experience.begin failAt (initial pg))).phaseLog.map Prod.snd).Nodup
      ∧ ((exec sched (Experience.begin failAt (initial pg))).phaseLog.map Prod.snd).getLast?
          = some (exec sched (Experience.begin failAt (initial pg))).state.phase
      ∧ (36 ≤ ticks sched →
          (exec sched (Experience.begin failAt (initial pg))).phaseLog.map Prod.snd = phaseOrder
          ∧ (exec sched (Experience.begin failAt (initial pg))).state.phase = Phase.afterglow) := by
  have hc := core_uninterrupted pg failAt sched hs
  have hm : min (ticks sched) 38 ≤ 38 := Nat.min_le_right _ _
  obtain ⟨h1, h2, h3, h4⟩ := sample_phases _ hm
  rw [← hc] at h1 h2 h3 h4
  have hp : (exec sched (Experience.begin failAt (initial pg))).phaseLog.map Prod.snd
      <+: phaseOrder := List.prefix_iff_eq_take.2 h1
  refine ⟨rfl, hp, h2, ?_, h3, ?_⟩
  · exact List.Nodup.sublist hp.sublist (by decide)
  · intro h
    have := h4 (by omega)
    exact ⟨this.1, this.2.1⟩

/-- C10, on the sample page, all 38 timers fired with frames in between. -/
theorem phase_sequence_witness :
    (∀ e ∈ (List.replicate 30 Ev.tick ++ [Ev.frame, Ev.frame] ++ List.replicate 8 Ev.tick
        : List (Ev ℚ)), e.passive = true)
      ∧ (exec (List.replicate 30 Ev.tick ++ [Ev.frame, Ev.frame] ++ List.replicate 8 Ev.tick)
          (Experience.begin none (initial samplePage))).phaseLog.map Prod.snd = phaseOrder :=
  ⟨by decide,
   ((phase_sequence samplePage none
      (List.replicate 30 Ev.tick ++ [Ev.frame, Ev.frame] ++ List.replicate 8 Ev.tick)
      (by decide)).2.2.2.2.2 (by decide)).1⟩

end Run

/-! ## Begin twice, and replay with timers pending -/

section Interrupted

variable {α : Type} [LinearOrderedField α] [FloorRing α]

set_option maxRecDepth 100000 in
/-- C3, the code at the failing input. On the sample page, `begin()` run twice
from Arrival (two clicks on the begin button, or Enter on the focused button:
the keydown listener passes its phase guard and calls `begin()`, then the click
listener calls it unguarded) leaves two `startCountdown` timers where one call
leaves one; the two countdown chains then run side by side: the values shown
are 10, 10, 9, 8, 7, 6, 5, 4, 3, 2, 1 in 5000 ms, `zero` and `release` are
each entered twice, and `countdownValue` ends at -1. `begin()` run in
Afterglow also sets the phase back to `initiation` and schedules a timer. -/
theorem begin_twice_two_chains :
    (exec [Ev.clickBegin none] (initial samplePage)).timers.map Timer.erase
        = [⟨2000, Callback.startCountdown⟩]
      ∧ (exec [Ev.clickBegin none, Ev.clickBegin none] (initial samplePage)).timers.map Timer.erase
        = [⟨2000, Callback.startCountdown⟩, ⟨2000, Callback.startCountdown⟩]
      ∧ (exec [Ev.keydown "Enter" none, Ev.clickBegin none] (initial samplePage)).timers.map
          Timer.erase
        = [⟨2000, Callback.startCountdown⟩, ⟨2000, Callback.startCountdown⟩]
      ∧ (run 100 (exec [Ev.clickBegin none, Ev.clickBegin none] (initial samplePage))).shown
        = [(2000, 10), (2000, 10), (3000, 9), (3000, 8), (4000, 7), (4000, 6), (5000, 5),
           (5000, 4), (6000, 3), (6000, 2), (7000, 1)]
      ∧ (run 100 (exec [Ev.clickBegin none, Ev.clickBegin none]
          (initial samplePage))).phaseLog.map Prod.snd
        = [Phase.initiation, Phase.initiation, Phase.countdown, Phase.countdown, Phase.zero,
           Phase.release, Phase.zero, Phase.release, Phase.message, Phase.message,
           Phase.afterglow, Phase.afterglow]
      ∧ (run 100 (exec [Ev.clickBegin none, Ev.clickBegin none]
          (initial samplePage))).state.countdownValue = -1
      ∧ (run 38 (Experience.begin none (initial samplePage))).state.phase = Phase.afterglow
      ∧ (Experience.begin none (run 38 (Experience.begin none (initial samplePage)))).state.phase
        = Phase.initiation
      ∧ (Experience.begin none
          (run 38 (Experience.begin none (initial samplePage)))).timers.map Timer.erase
        = [⟨25300, Callback.startCountdown⟩] := by
  decide!

set_option maxRecDepth 100000 in
/-- C4, counterexample. On the sample page: `begin()`, the first timer (so the
countdown has started and the dissolve timer of the number 10 is pending),
then `replay()`. Right after `replay()` the phase is `arrival` and the
countdown value 10, and the dissolve timer is still pending; letting the 37
timers that follow fire, with no user input, ends in phase `afterglow` with
countdown value 0. -/
theorem replay_mid_countdown_stale :
    (exec [Ev.clickBegin none, Ev.tick, Ev.clickReplay] (initial samplePage)).state.phase
        = Phase.arrival
      ∧ (exec [Ev.clickBegin none, Ev.tick, Ev.clickReplay] (initial samplePage)).timers.map
          Timer.erase = [⟨2700, Callback.dissolve⟩]
      ∧ ¬ ((run 37 (exec [Ev.clickBegin none, Ev.tick, Ev.clickReplay]
              (initial samplePage))).state.phase = Phase.arrival
            ∧ (run 37 (exec [Ev.clickBegin none, Ev.tick, Ev.clickReplay]
              (initial samplePage))).state.countdownValue = 10)
      ∧ (run 37 (exec [Ev.clickBegin none, Ev.tick, Ev.clickReplay]
          (initial samplePage))).state.phase = Phase.afterglow
      ∧ (run 37 (exec [Ev.clickBegin none, Ev.tick, Ev.clickReplay]
          (initial samplePage))).state.countdownValue = 0 := by
  decide!

theorem frame_state_timers (w : World α) :
    (frame w).state = w.state ∧ (frame w).timers = w.timers := by
  have h0 : ({ w with fw := { w.fw with chains := 0 } } : World α).state = w.state ∧
      ({ w with fw := { w.fw with chains := 0 } } : World α).timers = w.timers := ⟨rfl, rfl⟩
  simp only [frame]
  generalize { w with fw := { w.fw with chains := 0 } } = v at h0
  induction w.fw.chains generalizing v with
  | zero => exact h0
  | succ n ih =>
    rw [Function.iterate_succ_apply]
    exact ih _ ⟨(animate_state v).trans h0.1, (animate_timers v).trans h0.2⟩

/-- With no sequencing timer pending, an event that is no user input leaves
none pending and does not touch `state`. -/
theorem step_quiet (e : Ev α) (he : e.noInput = true) (w : World α)
    (hq : ∀ t ∈ w.timers, t.cb.sequencing = false) :
    (∀ t ∈ (step e w).timers, t.cb.sequencing = false) ∧ (step e w).state = w.state := by
  cases e with
  | tick =>
    show (∀ t ∈ (fireNext w).timers, t.cb.sequencing = false) ∧ (fireNext w).state = w.state
    cases hw : w.timers with
    | nil =>
      have hf : fireNext w = w := by simp [fireNext, hw]
      rw [hf, hw]
      exact ⟨by simp, rfl⟩
    | cons t ts =>
      have hts : ∀ u ∈ ts, u.cb.sequencing = false := by
        intro u hu
        exact hq u (by rw [hw]; exact List.mem_cons_of_mem _ hu)
      have ht : t.cb.sequencing = false := hq t (by rw [hw]; exact List.mem_cons_self _ _)
      have hf : fireNext w
          = runCallback t.cb { w with timers := ts, now := max w.now t.due } := by
        simp [fireNext, hw]
      rw [hf]
      cases hcb : t.cb with
      | showControls => exact ⟨hts, rfl⟩
      | canvasInactive => exact ⟨hts, rfl⟩
      | launch x =>
        simp only [runCallback]
        split
        · exact ⟨hts, rfl⟩
        · exact ⟨hts, rfl⟩
      | startCountdown => rw [hcb] at ht; simp [Callback.sequencing] at ht
      | dissolve => rw [hcb] at ht; simp [Callback.sequencing] at ht
      | advance => rw [hcb] at ht; simp [Callback.sequencing] at ht
      | release => rw [hcb] at ht; simp [Callback.sequencing] at ht
      | showMessage => rw [hcb] at ht; simp [Callback.sequencing] at ht
      | afterglow => rw [hcb] at ht; simp [Callback.sequencing] at ht
  | frame =>
    obtain ⟨hs, ht⟩ := frame_state_timers w
    exact ⟨by simp only [step]; rw [ht]; exact hq, hs⟩
  | elapse d => exact ⟨hq, rfl⟩
  | resize a b => exact ⟨hq, rfl⟩
  | clickBegin f => simp [Ev.noInput] at he
  | clickReplay => simp [Ev.noInput] at he
  | clickSound => simp [Ev.noInput] at he
  | keydown k f => simp [Ev.noInput] at he

theorem exec_quiet (evs : List (Ev α)) (hn : ∀ e ∈ evs, e.noInput = true) (w : World α)
    (hq : ∀ t ∈ w.timers, t.cb.sequencing = false) : (exec evs w).state = w.state := by
  induction evs generalizing w with
  | nil => rfl
  | cons e es ih =>
    obtain ⟨h1, h2⟩ := step_quiet e (hn e (List.mem_cons_self _ _)) w hq
    exact (ih (fun e he => hn e (List.mem_cons_of_mem _ he)) _ h1).trans h2

/-- C4, amended. `replay()` cancels no timer: the queue after it is the queue
before it. If no timer of the phase sequence is pending when `replay()` is
invoked, then after it, whatever timers fire, frames run and time passes with
no user input, the phase stays `arrival` and the countdown value 10. In the
run started by one `begin()` with no user input that condition holds from the
36th timer on, that is from the entry of Afterglow. -/
theorem replay_then_quiet (w : World α) (evs : List (Ev α))
    (hq : ∀ t ∈ w.timers, t.cb.sequencing = false) (hn : ∀ e ∈ evs, e.noInput = true) :
    (Experience.replay w).timers = w.timers
      ∧ (exec evs (Experience.replay w)).state.phase = Phase.arrival
      ∧ (exec evs (Experience.replay w)).state.countdownValue = 10
      ∧ (∀ (pg : Page α) (failAt : Option Nat) (sched : List (Ev α)),
          (∀ e ∈ sched, e.passive = true) → 36 ≤ ticks sched →
            (exec sched (Experience.begin failAt (initial pg))).state.phase = Phase.afterglow
            ∧ ∀ t ∈ (exec sched (Experience.begin failAt (initial pg))).timers,
                t.cb.sequencing = false) := by
  have hst := exec_quiet evs hn (Experience.replay w) hq
  refine ⟨rfl, ?_, ?_, ?_⟩
  · rw [hst]; rfl
  · rw [hst]; rfl
  · intro pg failAt sched hs h36
    have hc := core_uninterrupted pg failAt sched hs
    have h4 := (sample_phases _ (Nat.min_le_right (ticks sched) 38)).2.2.2 (by omega)
    rw [← hc] at h4
    refine ⟨h4.2.1, ?_⟩
    intro t ht
    rw [← erase_sequencing]
    exact h4.2.2 t.erase (List.mem_map_of_mem _ ht)

set_option maxRecDepth 100000 in
/-- C4 amended, on the sample page: `replay()` in Afterglow, with the controls
timer and the canvas timer still pending. -/
theorem replay_then_quiet_witness :
    ((∀ t ∈ (run 36 (Experience.begin none (initial samplePage))).timers,
        t.cb.sequencing = false)
      ∧ ∀ e ∈ ([Ev.tick, Ev.frame, Ev.elapse 5000, Ev.tick, Ev.tick] : List (Ev ℚ)),
          e.noInput = true)
    ∧ (exec [Ev.tick, Ev.frame, Ev.elapse 5000, Ev.tick, Ev.tick]
        (Experience.replay (run 36 (Experience.begin none (initial samplePage))))).state.phase
        = Phase.arrival
    ∧ (exec [Ev.tick, Ev.frame, Ev.elapse 5000, Ev.tick, Ev.tick]
        (Experience.replay
          (run 36 (Experience.begin none (initial samplePage))))).state.countdownValue = 10 :=
  ⟨⟨by decide!, by decide⟩,
   (replay_then_quiet (run 36 (Experience.begin none (initial samplePage)))
      [Ev.tick, Ev.frame, Ev.elapse 5000, Ev.tick, Ev.tick] (by decide!) (by decide)).2.1,
   (replay_then_quiet (run 36 (Experience.begin none (initial samplePage)))
      [Ev.tick, Ev.frame, Ev.elapse 5000, Ev.tick, Ev.tick] (by decide!) (by decide)).2.2.1⟩

end Interrupted

/-! ## The countdown value while the phase is `countdown` -/

section CountdownValue

variable {α : Type} [LinearOrderedField α] [FloorRing α]

theorem release_state (v : World α) :
    (Experience.release v).state = { v.state with phase := Phase.release } := by
  show (Fireworks.animate _).state = _
  rw [animate_state]
  rfl

/-- No timer closure breaks: the countdown value is at most 10, and at least
1 while the phase is `countdown`. -/
theorem runCallback_countdown_inv (cb : Callback α) (v : World α)
    (h : v.state.countdownValue ≤ 10 ∧
      (v.state.phase = Phase.countdown → 1 ≤ v.state.countdownValue)) :
    (runCallback cb v).state.countdownValue ≤ 10 ∧
      ((runCallback cb v).state.phase = Phase.countdown →
        1 ≤ (runCallback cb v).state.countdownValue) := by
  cases cb with
  | startCountdown =>
    exact ⟨by show (10 : Int) ≤ 10; decide, fun _ => by show (1 : Int) ≤ 10; decide⟩
  | dissolve => exact h
  | advance =>
    simp only [runCallback]
    split
    · rename_i hpos
      refine ⟨?_, fun _ => ?_⟩
      · show v.state.countdownValue - 1 ≤ 10
        have := h.1
        omega
      · show 1 ≤ v.state.countdownValue - 1
        have : v.state.countdownValue - 1 > 0 := hpos
        omega
    · refine ⟨?_, fun hp => ?_⟩
      · show v.state.countdownValue - 1 ≤ 10
        have := h.1
        omega
      · exact absurd hp (by show Phase.zero ≠ Phase.countdown; decide)
  | release =>
    show (Experience.release v).state.countdownValue ≤ 10 ∧
      ((Experience.release v).state.phase = Phase.countdown →
        1 ≤ (Experience.release v).state.countdownValue)
    rw [release_state]
    exact ⟨h.1, fun hp => absurd hp (by show Phase.release ≠ Phase.countdown; decide)⟩
  | showMessage =>
    exact ⟨h.1, fun hp => absurd hp (by show Phase.message ≠ Phase.countdown; decide)⟩
  | afterglow =>
    exact ⟨h.1, fun hp => absurd hp (by show Phase.afterglow ≠ Phase.countdown; decide)⟩
  | showControls => exact h
  | launch x =>
    simp only [runCallback]
    split
    · exact h
    · exact h
  | canvasInactive => exact h

theorem step_countdown_inv (e : Ev α) (w : World α)
    (h : w.state.countdownValue ≤ 10 ∧
      (w.state.phase = Phase.countdown → 1 ≤ w.state.countdownValue)) :
    (step e w).state.countdownValue ≤ 10 ∧
      ((step e w).state.phase = Phase.countdown → 1 ≤ (step e w).state.countdownValue) := by
  have hbegin : ∀ (f : Option Nat) (v : World α), v.state.countdownValue ≤ 10 →
      (Experience.begin f v).state.countdownValue ≤ 10 ∧
        ((Experience.begin f v).state.phase = Phase.countdown →
          1 ≤ (Experience.begin f v).state.countdownValue) := by
    intro f v hv
    exact ⟨hv, fun hp => absurd hp (by show Phase.initiation ≠ Phase.countdown; decide)⟩
  cases e with
  | clickBegin f => exact hbegin f w h.1
  | clickReplay =>
    exact ⟨by show (10 : Int) ≤ 10; decide,
      fun hp => absurd hp (by show Phase.arrival ≠ Phase.countdown; decide)⟩
  | clickSound => exact h
  | keydown key f =>
    by_cases c1 : key = "Enter" ∧ w.state.phase = Phase.arrival
    · simp only [step, Experience.keydown, if_pos c1]
      split
      · exact hbegin f w h.1
      · exact hbegin f w h.1
    · simp only [step, Experience.keydown, if_neg c1]
      split
      · exact h
      · exact h
  | resize a b => exact h
  | tick =>
    show (fireNext w).state.countdownValue ≤ 10 ∧
      ((fireNext w).state.phase = Phase.countdown → 1 ≤ (fireNext w).state.countdownValue)
    cases hw : w.timers with
    | nil =>
      have hf : fireNext w = w := by simp [fireNext, hw]
      rw [hf]
      exact h
    | cons t ts =>
      have hf : fireNext w
          = runCallback t.cb { w with timers := ts, now := max w.now t.due } := by
        simp [fireNext, hw]
      rw [hf]
      exact runCallback_countdown_inv t.cb _ h
  | frame =>
    show (frame w).state.countdownValue ≤ 10 ∧
      ((frame w).state.phase = Phase.countdown → 1 ≤ (frame w).state.countdownValue)
    rw [(frame_state_timers w).1]
    exact h
  | elapse d => exact h

/-- C11. In every state reached from the initial state by any sequence of
events (clicks on begin, replay and the sound toggle, key presses, timers of
live, stale or duplicated chains, frames, resizes, time passing), the
countdown value is an integer at most 10, and whenever the phase is
`countdown` it lies in `[0, 10]`, indeed in `[1, 10]`. -/
theorem countdown_value_range (pg : Page α) (evs : List (Ev α)) :
    (exec evs (initial pg)).state.countdownValue ≤ 10
      ∧ ((exec evs (initial pg)).state.phase = Phase.countdown →
          0 ≤ (exec evs (initial pg)).state.countdownValue
            ∧ 1 ≤ (exec evs (initial pg)).state.countdownValue
            ∧ (exec evs (initial pg)).state.countdownValue ≤ 10) := by
  have hinv : ∀ (es : List (Ev α)) (w : World α),
      (w.state.countdownValue ≤ 10 ∧
        (w.state.phase = Phase.countdown → 1 ≤ w.state.countdownValue)) →
      (exec es w).state.countdownValue ≤ 10 ∧
        ((exec es w).state.phase = Phase.countdown → 1 ≤ (exec es w).state.countdownValue) := by
    intro es
    induction es with
    | nil => intro w h; exact h
    | cons e es ih => intro w h; exact ih _ (step_countdown_inv e w h)
  have h := hinv evs (initial pg)
    ⟨by show (10 : Int) ≤ 10; decide,
     fun hp => absurd hp (by show Phase.arrival ≠ Phase.countdown; decide)⟩
  refine ⟨h.1, fun hp => ?_⟩
  have h1 := h.2 hp
  exact ⟨by omega, h1, h.1⟩

set_option maxRecDepth 100000 in
/-- C11, on the sample page with two countdown chains running: `begin()`
twice, then eight timers; the phase is `countdown`. -/
theorem countdown_value_range_witness :
    (exec [Ev.clickBegin none, Ev.clickBegin none, Ev.tick, Ev.tick, Ev.tick, Ev.tick,
        Ev.tick, Ev.tick, Ev.tick, Ev.tick] (initial samplePage)).state.phase = Phase.countdown
      ∧ 0 ≤ (exec [Ev.clickBegin none, Ev.clickBegin none, Ev.tick, Ev.tick, Ev.tick, Ev.tick,
          Ev.tick, Ev.tick, Ev.tick, Ev.tick] (initial samplePage)).state.countdownValue
      ∧ (exec [Ev.clickBegin none, Ev.clickBegin none, Ev.tick, Ev.tick, Ev.tick, Ev.tick,
          Ev.tick, Ev.tick, Ev.tick, Ev.tick] (initial samplePage)).state.countdownValue ≤ 10 :=
  ⟨by decide!,
   ((countdown_value_range samplePage
      [Ev.clickBegin none, Ev.clickBegin none, Ev.tick, Ev.tick, Ev.tick, Ev.tick,
       Ev.tick, Ev.tick, Ev.tick, Ev.tick]).2 (by decide!)).1,
   ((countdown_value_range samplePage
      [Ev.clickBegin none, Ev.clickBegin none, Ev.tick, Ev.tick, Ev.tick, Ev.tick,
       Ev.tick, Ev.tick, Ev.tick, Ev.tick]).2 (by decide!)).2.2⟩

end CountdownValue

/-! ## Mute toggle -/

section Mute

set_option maxRecDepth 100000 in
/-- C12, counterexample. On the sample page the sound toggle is clicked and
then `begin()` runs: the flag is set and `init` has created the ambient
element with `muted = false`. Two calls of `toggleMute()` from there restore
the flag (true) but leave the ambient element with `muted = true`, not with
the `muted = false` it had. -/
theorem toggleMute_twice_not_restored :
    (exec [Ev.clickSound, Ev.clickBegin none] (initial samplePage)).state.isMuted = true
      ∧ (exec [Ev.clickSound, Ev.clickBegin none] (initial samplePage)).audio.ambient.map
          AudioEl.muted = some false
      ∧ (AudioManager.toggleMute (AudioManager.toggleMute
          (exec [Ev.clickSound, Ev.clickBegin none] (initial samplePage))).2).2.state.isMuted
          = true
      ∧ (AudioManager.toggleMute (AudioManager.toggleMute
          (exec [Ev.clickSound, Ev.clickBegin none] (initial samplePage))).2).2.audio.ambient.map
          AudioEl.muted = some true
      ∧ ¬ ((AudioManager.toggleMute (AudioManager.toggleMute
            (exec [Ev.clickSound, Ev.clickBegin none] (initial samplePage))).2).2.audio.ambient.map
            AudioEl.muted
          = (exec [Ev.clickSound, Ev.clickBegin none] (initial samplePage)).audio.ambient.map
            AudioEl.muted) := by
  decide!

theorem map_muted_twice {α : Type} (o : Option (AudioEl α)) (f g : Bool) :
    (o.map (fun el => { el with muted := f })).map (fun el => { el with muted := g })
      = o.map (fun el => { el with muted := g }) := by
  cases o <;> rfl

theorem map_muted_same {α : Type} (o : Option (AudioEl α)) (f : Bool)
    (h : ∀ el, o = some el → el.muted = f) :
    o.map (fun el => { el with muted := f }) = o := by
  cases o with
  | none => rfl
  | some el =>
    have := h el rfl
    cases el
    simp only [Option.map_some'] at *
    subst this
    rfl

/-- C12, amended. `toggleMute()` negates `state.isMuted` and touches no other
field of `state`, sets `muted` of each source that exists to the new flag
(nothing else of the source changes, none is created or dropped), and returns
the new flag. Two consecutive calls return the original flag, restore `state`,
and leave every source with `muted` equal to the original flag; so the whole
state is restored when, before the calls, `muted` of every existing source
equalled the flag. -/
theorem toggleMute_spec {α : Type} (w : World α) :
    (AudioManager.toggleMute w).1 = !w.state.isMuted
      ∧ (AudioManager.toggleMute w).2.state = { w.state with isMuted := !w.state.isMuted }
      ∧ (AudioManager.toggleMute w).2.audio.ambient
          = w.audio.ambient.map (fun el => { el with muted := !w.state.isMuted })
      ∧ (AudioManager.toggleMute w).2.audio.tick
          = w.audio.tick.map (fun el => { el with muted := !w.state.isMuted })
      ∧ (AudioManager.toggleMute w).2.audio.firework
          = w.audio.firework.map (fun el => { el with muted := !w.state.isMuted })
      ∧ (AudioManager.toggleMute (AudioManager.toggleMute w).2).1 = w.state.isMuted
      ∧ (AudioManager.toggleMute (AudioManager.toggleMute w).2).2.state = w.state
      ∧ (AudioManager.toggleMute (AudioManager.toggleMute w).2).2.audio.ambient
          = w.audio.ambient.map (fun el => { el with muted := w.state.isMuted })
      ∧ (AudioManager.toggleMute (AudioManager.toggleMute w).2).2.audio.tick
          = w.audio.tick.map (fun el => { el with muted := w.state.isMuted })
      ∧ (AudioManager.toggleMute (AudioManager.toggleMute w).2).2.audio.firework
          = w.audio.firework.map (fun el => { el with muted := w.state.isMuted })
      ∧ ((∀ el, w.audio.ambient = some el ∨ w.audio.tick = some el ∨ w.audio.firework = some el →
            el.muted = w.state.isMuted) →
          (AudioManager.toggleMute (AudioManager.toggleMute w).2).2 = w) := by
  have hnn : (!(!w.state.isMuted)) = w.state.isMuted := Bool.not_not _
  refine ⟨rfl, rfl, rfl, rfl, rfl, ?_, ?_, ?_, ?_, ?_, ?_⟩
  · exact hnn
  · show ({ w.state with isMuted := !(!w.state.isMuted) } : State) = w.state
    rw [hnn]
  · exact (map_muted_twice w.audio.ambient (!w.state.isMuted) (!(!w.state.isMuted))).trans
      (by rw [hnn])
  · exact (map_muted_twice w.audio.tick (!w.state.isMuted) (!(!w.state.isMuted))).trans
      (by rw [hnn])
  · exact (map_muted_twice w.audio.firework (!w.state.isMuted) (!(!w.state.isMuted))).trans
      (by rw [hnn])
  · intro h
    have ha := map_muted_same w.audio.ambient w.state.isMuted (fun el he => h el (Or.inl he))
    have ht := map_muted_same w.audio.tick w.state.isMuted
      (fun el he => h el (Or.inr (Or.inl he)))
    have hf := map_muted_same w.audio.firework w.state.isMuted
      (fun el he => h el (Or.inr (Or.inr he)))
    show ({ w with
      state := { w.state with isMuted := !(!w.state.isMuted) }
      audio := AudioManager.applyMute (!(!w.state.isMuted))
        (AudioManager.applyMute (!w.state.isMuted) w.audio) } : World α) = w
    simp only [AudioManager.applyMute, map_muted_twice, hnn, ha, ht, hf]

/-- C12 amended, on the sample page after `begin()`: two calls of
`toggleMute()` restore the whole state. -/
theorem toggleMute_spec_witness :
    (AudioManager.toggleMute
        (AudioManager.toggleMute (Experience.begin none (initial samplePage))).2).2
      = Experience.begin none (initial samplePage) :=
  (toggleMute_spec (Experience.begin none (initial samplePage))).2.2.2.2.2.2.2.2.2.2 (by
    intro el h
    rcases h with h | h | h <;>
      · simp [Experience.begin, setPhase, setTimeout, AudioManager.init, AudioManager.tryInit,
          AudioManager.playAmbient, initial, newAudio] at h
        subst h
        rfl)

end Mute

/-! ## Audio initialisation and playback guards -/

section AudioGuards

variable {α : Type} [LinearOrderedField α]

/-- C13. A call of `init()` with `state.audioInitialized` set returns the
manager as it is (context, gain, ambient, tick and firework untouched, nothing
constructed) and leaves the flag set, whatever would throw; so once a call has
succeeded every later call changes nothing. A call in which no construction
throws succeeds. A call in which construction `k` (0 to 4) throws returns
normally all the same, with the flag still false. In `begin()` with the flag
set, `state` changes in its phase only and the audio manager only by
`playAmbient`. -/
theorem init_idempotent (failAt later : Option Nat) (a : AudioManager α) (w : World α) :
    AudioManager.init failAt true a = (a, true)
      ∧ ((AudioManager.init failAt false a).2 = true →
          AudioManager.init later (AudioManager.init failAt false a).2
              (AudioManager.init failAt false a).1
            = AudioManager.init failAt false a)
      ∧ (AudioManager.init none false a).2 = true
      ∧ (∀ k, k < 5 → (AudioManager.init (some k) false a).2 = false)
      ∧ (w.state.audioInitialized = true →
          (Experience.begin failAt w).state = { w.state with phase := Phase.initiation }
          ∧ (Experience.begin failAt w).audio
              = AudioManager.playAmbient w.state.isMuted w.audio) := by
  refine ⟨rfl, ?_, ?_, ?_, ?_⟩
  · intro h
    rw [h]
    show (_, true) = _
    rw [← h]
  · simp [AudioManager.init, AudioManager.tryInit]
  · intro k hk
    interval_cases k <;> simp [AudioManager.init, AudioManager.tryInit]
  · intro h
    constructor
    · simp [Experience.begin, setPhase, setTimeout, AudioManager.init, h]
    · simp [Experience.begin, setPhase, setTimeout, AudioManager.init, h]

/-- C13, on the sample page: a second `begin()` after a first one whose
`init()` succeeded. -/
theorem init_idempotent_witness :
    (Experience.begin none (initial samplePage)).state.audioInitialized = true
      ∧ (Experience.begin (some 0) (Experience.begin none (initial samplePage))).audio
          = AudioManager.playAmbient (Experience.begin none (initial samplePage)).state.isMuted
              (Experience.begin none (initial samplePage)).audio :=
  ⟨rfl,
   ((init_idempotent (some 0) none (initial samplePage).audio
      (Experience.begin none (initial samplePage))).2.2.2.2 rfl).2⟩

set_option maxRecDepth 100000 in
/-- C14, counterexample. On the sample page `begin()` runs with the
construction of the tick element throwing inside `init()`: the flag
`audioInitialized` stays false and the mute flag is not set, yet the
`playAmbient()` of this very `begin()` has called `play()` on the ambient
element, which `init()` had constructed before the throw. With the
construction of the firework element throwing, the first `playTick()` of the
countdown plays as well. -/
theorem play_while_uninitialized :
    (Experience.begin (some 3) (initial samplePage)).state.audioInitialized = false
      ∧ (Experience.begin (some 3) (initial samplePage)).state.isMuted = false
      ∧ (Experience.begin (some 3) (initial samplePage)).audio.ambient.map AudioEl.plays = some 1
      ∧ (Experience.begin (some 3) (initial samplePage)).audio.ambient.map AudioEl.paused
          = some false
      ∧ (run 1 (Experience.begin (some 4) (initial samplePage))).state.audioInitialized = false
      ∧ (run 1 (Experience.begin (some 4) (initial samplePage))).audio.tick.map AudioEl.plays
          = some 1
      ∧ ¬ (AudioManager.playAmbient false
            (AudioManager.init (some 3) false (initial samplePage).audio).1).ambient.map
              AudioEl.plays
          = (AudioManager.init (some 3) false (initial samplePage).audio).1.ambient.map
              AudioEl.plays := by
  decide!

/-- C14, amended. Each of `playAmbient()`, `playTick()`, `playFirework()` is
a no-op (the manager is returned as it is: no playback started, no volume or
`currentTime` written) whenever the mute flag is set or its own source does
not exist; so all three are no-ops before any `init()` and after an `init()`
that threw before the first `Audio` element (construction 0, 1 or 2). When its
source exists and the flag is not set the function does play, whatever
`audioInitialized` is; it never touches the other two sources. All three
return normally in every state. -/
theorem play_guards (isMuted : Bool) (a : AudioManager α) :
    (isMuted = true ∨ a.ambient = none → AudioManager.playAmbient isMuted a = a)
      ∧ (isMuted = true ∨ a.tick = none → AudioManager.playTick isMuted a = a)
      ∧ (isMuted = true ∨ a.firework = none → AudioManager.playFirework isMuted a = a)
      ∧ (a.ambient = none → a.tick = none → a.firework = none → ∀ k, k ≤ 2 →
          AudioManager.playAmbient isMuted (AudioManager.init (some k) false a).1
              = (AudioManager.init (some k) false a).1
            ∧ AudioManager.playTick isMuted (AudioManager.init (some k) false a).1
              = (AudioManager.init (some k) false a).1
            ∧ AudioManager.playFirework isMuted (AudioManager.init (some k) false a).1
              = (AudioManager.init (some k) false a).1)
      ∧ (∀ el, a.ambient = some el →
          AudioManager.playAmbient false a
            = { a with ambient := some { el with volume := 0, paused := false,
                                                 plays := el.plays + 1 } })
      ∧ (∀ el, a.tick = some el →
          AudioManager.playTick false a
            = { a with tick := some { el with currentTime := 0, paused := false,
                                              plays := el.plays + 1 } })
      ∧ (∀ el, a.firework = some el →
          AudioManager.playFirework false a
            = { a with firework := some { el with currentTime := 0, paused := false,
                                                  plays := el.plays + 1 } })
      ∧ ((AudioManager.playAmbient isMuted a).tick = a.tick
          ∧ (AudioManager.playAmbient isMuted a).firework = a.firework)
      ∧ ((AudioManager.playTick isMuted a).ambient = a.ambient
          ∧ (AudioManager.playTick isMuted a).firework = a.firework)
      ∧ ((AudioManager.playFirework isMuted a).ambient = a.ambient
          ∧ (AudioManager.playFirework isMuted a).tick = a.tick) := by
  refine ⟨?_, ?_, ?_, ?_, ?_, ?_, ?_, ?_, ?_, ?_⟩
  · rintro (h | h)
    · subst h; simp only [AudioManager.playAmbient]; split <;> rfl
    · simp only [AudioManager.playAmbient, h]
  · rintro (h | h)
    · subst h; simp only [AudioManager.playTick]; split <;> rfl
    · simp only [AudioManager.playTick, h]
  · rintro (h | h)
    · subst h; simp only [AudioManager.playFirework]; split <;> rfl
    · simp only [AudioManager.playFirework, h]
  · intro ha ht hf k hk
    interval_cases k <;>
      simp [AudioManager.init, AudioManager.tryInit, AudioManager.playAmbient,
        AudioManager.playTick, AudioManager.playFirework, ha, ht, hf]
  · intro el h
    simp [AudioManager.playAmbient, h]
  · intro el h
    simp [AudioManager.playTick, h]
  · intro el h
    simp [AudioManager.playFirework, h]
  · constructor <;> (simp only [AudioManager.playAmbient]; split <;> [rfl; (split <;> rfl)])
  · constructor <;> (simp only [AudioManager.playTick]; split <;> [rfl; (split <;> rfl)])
  · constructor <;> (simp only [AudioManager.playFirework]; split <;> [rfl; (split <;> rfl)])

/-- C14 amended, on the sample page: muted after a full `init()`, and
unmuted after an `init()` that threw at the audio context. -/
theorem play_guards_witness :
    AudioManager.playTick true (AudioManager.init none false (initial samplePage).audio).1
        = (AudioManager.init none false (initial samplePage).audio).1
      ∧ AudioManager.playAmbient false
          (AudioManager.init (some 0) false (initial samplePage).audio).1
        = (AudioManager.init (some 0) false (initial samplePage).audio).1 :=
  ⟨(play_guards true (AudioManager.init none false (initial samplePage).audio).1).2.1
      (Or.inl rfl),
   ((play_guards false (initial samplePage).audio).2.2.2.1 rfl rfl rfl 0 (by decide)).1⟩

end AudioGuards

/-! ## Controls delay and the keydown listener -/

section Controls

set_option maxRecDepth 100000 in
/-- C15, the code at the default configuration. The delay `afterglow()`
passes to `setTimeout` is `controlsDelay - fireworksDuration = 5000 - 8000 =
-3000`, not 3000. In the run on the sample page Afterglow is entered at
20300 ms by the 36th timer; the controls timer is then due at 20300 ms, and
when it fires, as the 37th timer, the clock still reads 20300: the controls
become visible with no delay. -/
theorem afterglow_controls_delay :
    timingConfig.controlsDelay - timingConfig.fireworksDuration = -3000
      ∧ (run 36 (Experience.begin none (initial samplePage))).phaseLog.getLast?
          = some (20300, Phase.afterglow)
      ∧ (run 36 (Experience.begin none (initial samplePage))).timers.map Timer.erase
          = [⟨20300, Callback.showControls⟩, ⟨23300, Callback.canvasInactive⟩]
      ∧ Cls.visible ∉ (run 36 (Experience.begin none (initial samplePage))).dom.controls
      ∧ (run 37 (Experience.begin none (initial samplePage))).now = 20300
      ∧ Cls.visible ∈ (run 37 (Experience.begin none (initial samplePage))).dom.controls := by
  decide!

theorem begin_phaseLog {β : Type} [LinearOrderedField β] (f : Option Nat) (w : World β) :
    (Experience.begin f w).phaseLog = w.phaseLog ++ [(w.now, Phase.initiation)] := rfl

/-- C16. The keydown listener runs `begin()` when the key is `Enter` and the
phase `arrival`, runs `toggleSound()` when the key is `m` and the phase
`afterglow`, and does nothing for any other key and phase. `begin()` has run
(an assignment to `state.phase` was logged) exactly for `Enter` in `arrival`,
and `toggleSound()` has run (the mute flag has flipped) exactly for `m` in
`afterglow`. -/
theorem keydown_dispatch {α : Type} [LinearOrderedField α] (key : String) (failAt : Option Nat)
    (w : World α) :
    (key = "Enter" ∧ w.state.phase = Phase.arrival →
        Experience.keydown key failAt w = Experience.begin failAt w)
      ∧ (key = "m" ∧ w.state.phase = Phase.afterglow →
        Experience.keydown key failAt w = Experience.toggleSound w)
      ∧ (¬ (key = "Enter" ∧ w.state.phase = Phase.arrival) →
          ¬ (key = "m" ∧ w.state.phase = Phase.afterglow) →
        Experience.keydown key failAt w = w)
      ∧ ((Experience.keydown key failAt w).phaseLog ≠ w.phaseLog ↔
          key = "Enter" ∧ w.state.phase = Phase.arrival)
      ∧ ((Experience.keydown key failAt w).state.isMuted ≠ w.state.isMuted ↔
          key = "m" ∧ w.state.phase = Phase.afterglow) := by
  have hE : ∀ h : key = "Enter" ∧ w.state.phase = Phase.arrival,
      Experience.keydown key failAt w = Experience.begin failAt w := by
    intro h
    have hm : ¬ (key = "m" ∧ (Experience.begin failAt w).state.phase = Phase.afterglow) := by
      rintro ⟨hk, _⟩
      rw [h.1] at hk
      exact absurd hk (by decide)
    simp only [Experience.keydown, if_pos h, if_neg hm]
  have hM : ∀ h : key = "m" ∧ w.state.phase = Phase.afterglow,
      Experience.keydown key failAt w = Experience.toggleSound w := by
    intro h
    have hn : ¬ (key = "Enter" ∧ w.state.phase = Phase.arrival) := by
      rintro ⟨hk, _⟩
      rw [h.1] at hk
      exact absurd hk (by decide)
    simp only [Experience.keydown, if_neg hn, if_pos h]
  have hN : ¬ (key = "Enter" ∧ w.state.phase = Phase.arrival) →
      ¬ (key = "m" ∧ w.state.phase = Phase.afterglow) →
      Experience.keydown key failAt w = w := by
    intro h1 h2
    simp only [Experience.keydown, if_neg h1, if_neg h2]
  refine ⟨hE, hM, hN, ?_, ?_⟩
  · constructor
    · intro hne
      by_contra h1
      by_cases h2 : key = "m" ∧ w.state.phase = Phase.afterglow
      · rw [hM h2] at hne
        exact hne rfl
      · rw [hN h1 h2] at hne
        exact hne rfl
    · intro h
      rw [hE h, begin_phaseLog]
      simp
  · constructor
    · intro hne
      by_contra h2
      by_cases h1 : key = "Enter" ∧ w.state.phase = Phase.arrival
      · rw [hE h1] at hne
        exact hne rfl
      · rw [hN h1 h2] at hne
        exact hne rfl
    · intro h
      rw [hM h]
      show (!w.state.isMuted) ≠ w.state.isMuted
      cases w.state.isMuted <;> decide

/-- C16, on the sample page: `Enter` in Arrival, and `m` in Arrival. -/
theorem keydown_dispatch_witness :
    Experience.keydown "Enter" none (initial samplePage)
        = Experience.begin none (initial samplePage)
      ∧ Experience.keydown "m" none (initial samplePage) = initial samplePage :=
  ⟨(keydown_dispatch "Enter" none (initial samplePage)).1 ⟨rfl, rfl⟩,
   (keydown_dispatch "m" none (initial samplePage)).2.2.1 (by decide) (by decide)⟩

end Controls

/-! ## One frame of physics -/

section Physics

variable {α : Type} [LinearOrderedField α] [FloorRing α]

/-- C17. One frame update maps a particle `(x, y, vx, vy, life, decay)` to
`(x + vx, y + vy, 0.99 * vx, vy + 0.05, life - decay)`: the position moves by
the velocity from before the update, gravity 0.05 goes to `vy` only, damping
0.99 to `vx` only; decay, size and colour are unchanged; the trail sample
pushed holds the new position and the new life; and `Fireworks.animate`
applies exactly this update to every particle, those of this frame's bursts
included, before it filters on `life > 0`. -/
theorem stepParticle_update (p : Particle α) (w : World α) :
    (stepParticle p).x = p.x + p.vx
      ∧ (stepParticle p).y = p.y + p.vy
      ∧ (stepParticle p).vx = 0.99 * p.vx
      ∧ (stepParticle p).vy = p.vy + 0.05
      ∧ (stepParticle p).life = p.life - p.decay
      ∧ (stepParticle p).decay = p.decay
      ∧ (stepParticle p).size = p.size
      ∧ (stepParticle p).color = p.color
      ∧ (stepParticle p).trail.getLast? = some (p.x + p.vx, p.y + p.vy, p.life - p.decay)
      ∧ (Fireworks.animate w).fw.particles
          = ((animateRockets w.fw.rockets w).2.fw.particles.map stepParticle).filter
              (fun q => decide (q.life > 0)) := by
  refine ⟨rfl, rfl, mul_comm _ _, rfl, rfl, rfl, rfl, rfl, ?_, rfl⟩
  simp only [stepParticle]
  split
  · rename_i h
    cases ht : p.trail with
    | nil => rw [ht] at h; simp at h
    | cons a t => simp
  · simp

/-- The rockets kept by the rocket pass, and the world it leaves. -/
theorem animateRockets_spec (rs : List (Rocket α)) (w : World α) :
    (animateRockets rs w).1
        = (rs.map stepRocket).filter (fun r => decide (¬ r.y ≤ r.targetY))
      ∧ (animateRockets rs w).2
        = ((rs.map stepRocket).filter (fun r => decide (r.y ≤ r.targetY))).foldl
            (fun acc r => Fireworks.explode r.x r.y acc) w := by
  induction rs generalizing w with
  | nil => exact ⟨rfl, rfl⟩
  | cons r rs ih =>
    by_cases h : (stepRocket r).y ≤ (stepRocket r).targetY
    · simp only [animateRockets, if_pos h, List.map_cons]
      rw [List.filter_cons_of_neg (by simpa using h), List.filter_cons_of_pos (by simpa using h)]
      exact ih _
    · simp only [animateRockets, if_neg h, List.map_cons]
      rw [List.filter_cons_of_pos (by simpa using h), List.filter_cons_of_neg (by simpa using h)]
      exact ⟨by rw [(ih w).1], (ih w).2⟩

/-- C18. In one frame update every rocket's `y` decreases by its `speed`
while `x`, `speed` and `targetY` stay; the rockets left in `Fireworks.rockets`
are, in their old order, exactly the updated rockets whose new `y` is not
`<= targetY`; the world after the rocket pass is the world before it with
`explode` run once for each removed rocket, in order, at its new `(x, y)`; and
each `explode` is one `playFirework()` (one more `play()` on the firework
element when it exists and the mute flag is not set) and one burst appended to
the particles. -/
theorem rocket_pass (w : World α) (r : Rocket α) (x y : α) :
    ((stepRocket r).y = r.y - r.speed ∧ (stepRocket r).x = r.x
        ∧ (stepRocket r).speed = r.speed ∧ (stepRocket r).targetY = r.targetY)
      ∧ (Fireworks.animate w).fw.rockets
          = (w.fw.rockets.map stepRocket).filter (fun r => decide (¬ r.y ≤ r.targetY))
      ∧ (∀ q, q ∈ (Fireworks.animate w).fw.rockets ↔
          ∃ r0 ∈ w.fw.rockets, q = stepRocket r0 ∧ ¬ (stepRocket r0).y ≤ (stepRocket r0).targetY)
      ∧ (Fireworks.animate w).fw.rockets.Sublist (w.fw.rockets.map stepRocket)
      ∧ (animateRockets w.fw.rockets w).2
          = ((w.fw.rockets.map stepRocket).filter (fun r => decide (r.y ≤ r.targetY))).foldl
              (fun acc r => Fireworks.explode r.x r.y acc) w
      ∧ (Fireworks.explode x y w).audio = AudioManager.playFirework w.state.isMuted w.audio
      ∧ (Fireworks.explode x y w).fw.particles = w.fw.particles ++ Fireworks.burst x y w
      ∧ (∀ el, w.audio.firework = some el → w.state.isMuted = false →
          (Fireworks.explode x y w).audio.firework.map AudioEl.plays = some (el.plays + 1)) := by
  have hk := (animateRockets_spec w.fw.rockets w).1
  refine ⟨⟨rfl, rfl, rfl, rfl⟩, hk, ?_, ?_, (animateRockets_spec w.fw.rockets w).2, rfl, rfl, ?_⟩
  · intro q
    rw [animate_rockets, hk, List.mem_filter, List.mem_map]
    constructor
    · rintro ⟨⟨r0, h0, rfl⟩, hq⟩
      exact ⟨r0, h0, rfl, by simpa using hq⟩
    · rintro ⟨r0, h0, rfl, hq⟩
      exact ⟨⟨r0, h0, rfl⟩, by simpa using hq⟩
  · rw [animate_rockets, hk]
    exact List.filter_sublist _
  · intro el hel hm
    show (AudioManager.playFirework w.state.isMuted w.audio).firework.map AudioEl.plays = _
    simp [AudioManager.playFirework, hel, hm]

/-- C18, for one rocket that reaches its target and one that does not. -/
theorem rocket_pass_witness :
    (Fireworks.animate { initial samplePage with
        fw := { (initial samplePage).fw with
          rockets := [⟨400, 205, 200, 10, []⟩, ⟨300, 500, 200, 10, []⟩] } }).fw.rockets
      = ([⟨400, 205, 200, 10, []⟩, ⟨300, 500, 200, 10, []⟩].map stepRocket).filter
          (fun r => decide (¬ r.y ≤ r.targetY)) :=
  (rocket_pass { initial samplePage with
      fw := { (initial samplePage).fw with
        rockets := [⟨400, 205, 200, 10, []⟩, ⟨300, 500, 200, 10, []⟩] } }
    ⟨0, 0, 0, 0, []⟩ 0 0).2.1

end Physics

/-! ## Fades -/

section Fades

variable {α : Type} [LinearOrderedField α]

theorem easeOut_one : AudioManager.easeOut (1 : α) = 1 := by
  simp [AudioManager.easeOut]

/-- A run of the closure of `fadeIn` whose value is in `[0, 1]`. -/
theorem fadeIn_stored (startVolume targetVolume startTime duration currentTime : α)
    (audio : AudioEl α)
    (h : 0 ≤ AudioManager.fadeInVolume startVolume targetVolume
          (AudioManager.progress startTime duration currentTime)
        ∧ AudioManager.fadeInVolume startVolume targetVolume
          (AudioManager.progress startTime duration currentTime) ≤ 1) :
    AudioManager.fadeIn startVolume targetVolume startTime duration currentTime audio
      = { audio := { audio with
              volume := AudioManager.fadeInVolume startVolume targetVolume
                (AudioManager.progress startTime duration currentTime) },
          again := decide (AudioManager.progress startTime duration currentTime < 1),
          threw := false } := by
  simp only [AudioManager.fadeIn, AudioEl.setVolume, if_pos h]

/-- A run of the closure of `fadeIn` whose value is outside `[0, 1]`. -/
theorem fadeIn_thrown (startVolume targetVolume startTime duration currentTime : α)
    (audio : AudioEl α)
    (h : ¬ (0 ≤ AudioManager.fadeInVolume startVolume targetVolume
          (AudioManager.progress startTime duration currentTime)
        ∧ AudioManager.fadeInVolume startVolume targetVolume
          (AudioManager.progress startTime duration currentTime) ≤ 1)) :
    AudioManager.fadeIn startVolume targetVolume startTime duration currentTime audio
      = { audio := audio, again := false, threw := true } := by
  simp only [AudioManager.fadeIn, AudioEl.setVolume, if_neg h]

/-- A run of the closure of `fadeOut` whose value is in `[0, 1]`. -/
theorem fadeOut_stored (startVolume startTime duration currentTime : α) (audio : AudioEl α)
    (h : 0 ≤ AudioManager.fadeOutVolume startVolume
          (AudioManager.progress startTime duration currentTime)
        ∧ AudioManager.fadeOutVolume startVolume
          (AudioManager.progress startTime duration currentTime) ≤ 1) :
    AudioManager.fadeOut startVolume startTime duration currentTime audio
      = { audio := { audio with
              volume := AudioManager.fadeOutVolume startVolume
                (AudioManager.progress startTime duration currentTime) },
          again := decide (AudioManager.progress startTime duration currentTime < 1),
          threw := false } := by
  simp only [AudioManager.fadeOut, AudioEl.setVolume, if_pos h]

/-- A run of the closure of `fadeOut` whose value is outside `[0, 1]`. -/
theorem fadeOut_thrown (startVolume startTime duration currentTime : α) (audio : AudioEl α)
    (h : ¬ (0 ≤ AudioManager.fadeOutVolume startVolume
          (AudioManager.progress startTime duration currentTime)
        ∧ AudioManager.fadeOutVolume startVolume
          (AudioManager.progress startTime duration currentTime) ≤ 1)) :
    AudioManager.fadeOut startVolume startTime duration currentTime audio
      = { audio := audio, again := false, threw := true } := by
  simp only [AudioManager.fadeOut, AudioEl.setVolume, if_neg h]

/-- No frame is requested by a run of either closure once `p >= 1`. -/
theorem fade_last_frame (startVolume targetVolume startTime duration currentTime : α)
    (audio : AudioEl α) (hp : 1 ≤ AudioManager.progress startTime duration currentTime) :
    (AudioManager.fadeIn startVolume targetVolume startTime duration currentTime audio).again
        = false
      ∧ (AudioManager.fadeOut startVolume startTime duration currentTime audio).again
        = false := by
  constructor
  · by_cases h : 0 ≤ AudioManager.fadeInVolume startVolume targetVolume
          (AudioManager.progress startTime duration currentTime)
        ∧ AudioManager.fadeInVolume startVolume targetVolume
          (AudioManager.progress startTime duration currentTime) ≤ 1
    · rw [fadeIn_stored _ _ _ _ _ _ h]
      simp [hp]
    · rw [fadeIn_thrown _ _ _ _ _ _ h]
  · by_cases h : 0 ≤ AudioManager.fadeOutVolume startVolume
          (AudioManager.progress startTime duration currentTime)
        ∧ AudioManager.fadeOutVolume startVolume
          (AudioManager.progress startTime duration currentTime) ≤ 1
    · rw [fadeOut_stored _ _ _ _ _ h]
      simp [hp]
    · rw [fadeOut_thrown _ _ _ _ _ h]

/-- C19. With `easeOut(t) = 1 - (1 - t)^3` and `p = min(elapsed / duration,
1)`, the frame callback of `fadeIn` assigns `start + (target - start) *
easeOut(p)` and that of `fadeOut` assigns `start * (1 - easeOut(p))`, the same
curve in both. A value in `[0, 1]` is stored, nothing but the volume changes,
and another frame is requested exactly when `p < 1`; any other value makes the
assignment throw, which leaves the element as it was and requests no frame.
`p` never exceeds 1; at `p = 1` the value of `fadeIn` is exactly the target,
stored when the target is in `[0, 1]`, and `fadeOut` stores exactly 0; no frame
is requested once `p >= 1`; and with a positive duration `p = 1` as soon as the
timestamp is `duration` past the start. -/
theorem fade_curve (startVolume targetVolume startTime duration currentTime t : α)
    (audio : AudioEl α) :
    AudioManager.easeOut t = 1 - (1 - t) ^ 3
      ∧ AudioManager.progress startTime duration currentTime
          = min ((currentTime - startTime) / duration) 1
      ∧ AudioManager.fadeInVolume startVolume targetVolume
            (AudioManager.progress startTime duration currentTime)
          = startVolume + (targetVolume - startVolume)
              * AudioManager.easeOut (AudioManager.progress startTime duration currentTime)
      ∧ AudioManager.fadeOutVolume startVolume
            (AudioManager.progress startTime duration currentTime)
          = startVolume
              * (1 - AudioManager.easeOut (AudioManager.progress startTime duration currentTime))
      ∧ ((0 ≤ AudioManager.fadeInVolume startVolume targetVolume
              (AudioManager.progress startTime duration currentTime)
            ∧ AudioManager.fadeInVolume startVolume targetVolume
              (AudioManager.progress startTime duration currentTime) ≤ 1) →
          (AudioManager.fadeIn startVolume targetVolume startTime duration currentTime
              audio).audio
              = { audio with
                  volume := startVolume + (targetVolume - startVolume)
                    * AudioManager.easeOut
                        (AudioManager.progress startTime duration currentTime) }
            ∧ (AudioManager.fadeIn startVolume targetVolume startTime duration currentTime
                audio).threw = false
            ∧ ((AudioManager.fadeIn startVolume targetVolume startTime duration currentTime
                  audio).again = true
                ↔ AudioManager.progress startTime duration currentTime < 1))
      ∧ ((0 ≤ AudioManager.fadeOutVolume startVolume
              (AudioManager.progress startTime duration currentTime)
            ∧ AudioManager.fadeOutVolume startVolume
              (AudioManager.progress startTime duration currentTime) ≤ 1) →
          (AudioManager.fadeOut startVolume startTime duration currentTime audio).audio
              = { audio with
                  volume := startVolume
                    * (1 - AudioManager.easeOut
                        (AudioManager.progress startTime duration currentTime)) }
            ∧ (AudioManager.fadeOut startVolume startTime duration currentTime audio).threw
                = false
            ∧ ((AudioManager.fadeOut startVolume startTime duration currentTime audio).again
                  = true
                ↔ AudioManager.progress startTime duration currentTime < 1))
      ∧ (¬ (0 ≤ AudioManager.fadeInVolume startVolume targetVolume
              (AudioManager.progress startTime duration currentTime)
            ∧ AudioManager.fadeInVolume startVolume targetVolume
              (AudioManager.progress startTime duration currentTime) ≤ 1) →
          AudioManager.fadeIn startVolume targetVolume startTime duration currentTime audio
              = { audio := audio, again := false, threw := true })
      ∧ (¬ (0 ≤ AudioManager.fadeOutVolume startVolume
              (AudioManager.progress startTime duration currentTime)
            ∧ AudioManager.fadeOutVolume startVolume
              (AudioManager.progress startTime duration currentTime) ≤ 1) →
          AudioManager.fadeOut startVolume startTime duration currentTime audio
              = { audio := audio, again := false, threw := true })
      ∧ AudioManager.progress startTime duration currentTime ≤ 1
      ∧ (AudioManager.progress startTime duration currentTime = 1 →
          AudioManager.fadeInVolume startVolume targetVolume
              (AudioManager.progress startTime duration currentTime) = targetVolume
            ∧ AudioManager.fadeOutVolume startVolume
              (AudioManager.progress startTime duration currentTime) = 0
            ∧ (0 ≤ targetVolume ∧ targetVolume ≤ 1 →
                (AudioManager.fadeIn startVolume targetVolume startTime duration currentTime
                    audio).audio = { audio with volume := targetVolume }
                  ∧ (AudioManager.fadeIn startVolume targetVolume startTime duration
                      currentTime audio).threw = false)
            ∧ (AudioManager.fadeOut startVolume startTime duration currentTime audio).audio
                = { audio with volume := 0 }
            ∧ (AudioManager.fadeOut startVolume startTime duration currentTime audio).threw
                = false)
      ∧ (1 ≤ AudioManager.progress startTime duration currentTime →
          (AudioManager.fadeIn startVolume targetVolume startTime duration currentTime
              audio).again = false
            ∧ (AudioManager.fadeOut startVolume startTime duration currentTime audio).again
              = false)
      ∧ (0 < duration → startTime + duration ≤ currentTime →
          AudioManager.progress startTime duration currentTime = 1) := by
  have hin1 : AudioManager.progress startTime duration currentTime = 1 →
      AudioManager.fadeInVolume startVolume targetVolume
        (AudioManager.progress startTime duration currentTime) = targetVolume := by
    intro hp
    rw [hp]
    simp only [AudioManager.fadeInVolume, easeOut_one]
    ring
  have hout1 : AudioManager.progress startTime duration currentTime = 1 →
      AudioManager.fadeOutVolume startVolume
        (AudioManager.progress startTime duration currentTime) = 0 := by
    intro hp
    rw [hp]
    simp only [AudioManager.fadeOutVolume, easeOut_one]
    ring
  refine ⟨rfl, rfl, rfl, rfl, ?_, ?_, fadeIn_thrown _ _ _ _ _ _, fadeOut_thrown _ _ _ _ _,
    min_le_right _ _, ?_, fade_last_frame _ _ _ _ _ _, ?_⟩
  · intro h
    rw [fadeIn_stored _ _ _ _ _ _ h]
    exact ⟨rfl, rfl, by simp⟩
  · intro h
    rw [fadeOut_stored _ _ _ _ _ h]
    exact ⟨rfl, rfl, by simp⟩
  · intro hp
    refine ⟨hin1 hp, hout1 hp, ?_, ?_⟩
    · intro ht
      rw [fadeIn_stored _ _ _ _ _ _ (by rw [hin1 hp]; exact ht)]
      exact ⟨by rw [hin1 hp], rfl⟩
    · rw [fadeOut_stored _ _ _ _ _ (by rw [hout1 hp]; exact ⟨le_refl 0, zero_le_one⟩)]
      exact ⟨by rw [hout1 hp], rfl⟩
  · intro hd hc
    apply min_eq_right
    rw [le_div_iff₀ hd]
    linarith

/-- C19, for the ambient fade-in from 0 to 0.4 over 2000 ms, at the frame
2000 ms after the start: the target is stored and no frame is requested. -/
theorem fade_curve_witness :
    ((0 : ℚ) ≤ 2 / 5 ∧ (2 / 5 : ℚ) ≤ 1)
      ∧ (0 : ℚ) < 2000 ∧ (1000 : ℚ) + 2000 ≤ 3000
      ∧ (AudioManager.fadeIn (0 : ℚ) (2 / 5) 1000 2000 3000 newAudio).audio
          = { newAudio with volume := 2 / 5 }
      ∧ (AudioManager.fadeIn (0 : ℚ) (2 / 5) 1000 2000 3000 newAudio).threw = false
      ∧ (AudioManager.fadeIn (0 : ℚ) (2 / 5) 1000 2000 3000 newAudio).again = false :=
  ⟨⟨by norm_num, by norm_num⟩, by norm_num, by norm_num,
   (((fade_curve (0 : ℚ) (2 / 5) 1000 2000 3000 0 newAudio).2.2.2.2.2.2.2.2.2.1
      ((fade_curve (0 : ℚ) (2 / 5) 1000 2000 3000 0 newAudio).2.2.2.2.2.2.2.2.2.2.2
        (by norm_num) (by norm_num))).2.2.1 ⟨by norm_num, by norm_num⟩).1,
   (((fade_curve (0 : ℚ) (2 / 5) 1000 2000 3000 0 newAudio).2.2.2.2.2.2.2.2.2.1
      ((fade_curve (0 : ℚ) (2 / 5) 1000 2000 3000 0 newAudio).2.2.2.2.2.2.2.2.2.2.2
        (by norm_num) (by norm_num))).2.2.1 ⟨by norm_num, by norm_num⟩).2,
   ((fade_curve (0 : ℚ) (2 / 5) 1000 2000 3000 0 newAudio).2.2.2.2.2.2.2.2.2.2.1
      (le_of_eq ((fade_curve (0 : ℚ) (2 / 5) 1000 2000 3000 0 newAudio).2.2.2.2.2.2.2.2.2.2.2
        (by norm_num) (by norm_num)).symm)).1⟩

/-- The curve maps `[0, 1]` into `[0, 1]`. -/
theorem easeOut_range (p : α) (h0 : 0 ≤ p) (h1 : p ≤ 1) :
    0 ≤ AudioManager.easeOut p ∧ AudioManager.easeOut p ≤ 1 := by
  have ha : 0 ≤ 1 - p := by linarith
  have hb : 1 - p ≤ 1 := by linarith
  have hc : 0 ≤ (1 - p) ^ 3 := pow_nonneg ha 3
  have hd : (1 - p) ^ 3 ≤ 1 := pow_le_one₀ ha hb
  simp only [AudioManager.easeOut]
  constructor <;> linarith

/-- For start and target volumes in `[0, 1]`, a positive duration and a frame
timestamp not before the recorded start, the values of both closures lie
between the start and the end of the fade, hence in `[0, 1]`, and neither
assignment throws. -/
theorem fade_in_range (startVolume targetVolume startTime duration currentTime : α)
    (audio : AudioEl α) (hs0 : 0 ≤ startVolume) (hs1 : startVolume ≤ 1)
    (ht0 : 0 ≤ targetVolume) (ht1 : targetVolume ≤ 1) (hd : 0 < duration)
    (hc : startTime ≤ currentTime) :
    (min startVolume targetVolume
          ≤ AudioManager.fadeInVolume startVolume targetVolume
              (AudioManager.progress startTime duration currentTime)
        ∧ AudioManager.fadeInVolume startVolume targetVolume
              (AudioManager.progress startTime duration currentTime)
            ≤ max startVolume targetVolume)
      ∧ (0 ≤ AudioManager.fadeOutVolume startVolume
              (AudioManager.progress startTime duration currentTime)
        ∧ AudioManager.fadeOutVolume startVolume
              (AudioManager.progress startTime duration currentTime) ≤ startVolume)
      ∧ (AudioManager.fadeIn startVolume targetVolume startTime duration currentTime
            audio).threw = false
      ∧ (AudioManager.fadeOut startVolume startTime duration currentTime audio).threw
          = false := by
  have hp0 : 0 ≤ AudioManager.progress startTime duration currentTime :=
    le_min (div_nonneg (by linarith) hd.le) zero_le_one
  have hp1 : AudioManager.progress startTime duration currentTime ≤ 1 := min_le_right _ _
  obtain ⟨he0, he1⟩ := easeOut_range _ hp0 hp1
  have hmin : min startVolume targetVolume
      ≤ AudioManager.fadeInVolume startVolume targetVolume
          (AudioManager.progress startTime duration currentTime) := by
    simp only [AudioManager.fadeInVolume]
    rcases le_total startVolume targetVolume with h | h
    · rw [min_eq_left h]
      have := mul_nonneg (sub_nonneg.mpr h) he0
      linarith
    · rw [min_eq_right h]
      have := mul_nonneg (sub_nonneg.mpr h) (sub_nonneg.mpr he1)
      linarith
  have hmax : AudioManager.fadeInVolume startVolume targetVolume
        (AudioManager.progress startTime duration currentTime)
      ≤ max startVolume targetVolume := by
    simp only [AudioManager.fadeInVolume]
    rcases le_total startVolume targetVolume with h | h
    · rw [max_eq_right h]
      have := mul_nonneg (sub_nonneg.mpr h) (sub_nonneg.mpr he1)
      linarith
    · rw [max_eq_left h]
      have := mul_nonneg (sub_nonneg.mpr h) he0
      linarith
  have hout0 : 0 ≤ AudioManager.fadeOutVolume startVolume
      (AudioManager.progress startTime duration currentTime) :=
    mul_nonneg hs0 (sub_nonneg.mpr he1)
  have hout1 : AudioManager.fadeOutVolume startVolume
      (AudioManager.progress startTime duration currentTime) ≤ startVolume := by
    simp only [AudioManager.fadeOutVolume]
    have := mul_nonneg hs0 he0
    linarith
  refine ⟨⟨hmin, hmax⟩, ⟨hout0, hout1⟩, ?_, ?_⟩
  · rw [fadeIn_stored _ _ _ _ _ _
      ⟨le_trans (le_min hs0 ht0) hmin, le_trans hmax (max_le hs1 ht1)⟩]
  · rw [fadeOut_stored _ _ _ _ _ ⟨hout0, le_trans hout1 hs1⟩]

/-- C20. The ambient fade-in as `playAmbient` starts it (volume 0, target 0.4,
2000 ms), with the first frame timestamp 5 ms before the recorded start (start
1005, timestamp 1000): the value of line 156 is negative, the assignment
throws, the volume stays 0 and no further frame is requested, so the fade never
runs. With `fadeOut` from volume 1 at the same timestamps the value of line 174
is above 1 and the assignment throws likewise. -/
theorem fade_before_start_throws :
    AudioManager.progress (1005 : ℚ) 2000 1000 = -1 / 400
      ∧ AudioManager.fadeInVolume (0 : ℚ) (2 / 5) (AudioManager.progress (1005 : ℚ) 2000 1000)
          < 0
      ∧ AudioManager.fadeIn (0 : ℚ) (2 / 5) 1005 2000 1000 { newAudio with volume := 0 }
          = { audio := { newAudio with volume := 0 }, again := false, threw := true }
      ∧ 1 < AudioManager.fadeOutVolume (1 : ℚ) (AudioManager.progress (1005 : ℚ) 2000 1000)
      ∧ AudioManager.fadeOut (1 : ℚ) 1005 2000 1000 { newAudio with volume := 1 }
          = { audio := { newAudio with volume := 1 }, again := false, threw := true } := by
  have hp : AudioManager.progress (1005 : ℚ) 2000 1000 = -1 / 400 := by
    simp only [AudioManager.progress]
    rw [min_eq_left (by norm_num)]
    norm_num
  have h1 : AudioManager.fadeInVolume (0 : ℚ) (2 / 5)
      (AudioManager.progress (1005 : ℚ) 2000 1000) < 0 := by
    rw [hp]
    simp only [AudioManager.fadeInVolume, AudioManager.easeOut]
    norm_num
  have h2 : 1 < AudioManager.fadeOutVolume (1 : ℚ)
      (AudioManager.progress (1005 : ℚ) 2000 1000) := by
    rw [hp]
    simp only [AudioManager.fadeOutVolume, AudioManager.easeOut]
    norm_num
  exact ⟨hp, h1, fadeIn_thrown _ _ _ _ _ _ (fun h => absurd h.1 (not_le.mpr h1)), h2,
    fadeOut_thrown _ _ _ _ _ (fun h => absurd h.2 (not_le.mpr h2))⟩

end Fades

/-! ## Lifetime of a particle -/

section Lifetime

theorem iterate_stepParticle {α : Type} [LinearOrderedField α] (p : Particle α) (n : Nat) :
    (Nat.iterate stepParticle n p).life = p.life - n * p.decay
      ∧ (Nat.iterate stepParticle n p).decay = p.decay := by
  induction n with
  | zero => simp
  | succ n ih =>
    rw [Function.iterate_succ_apply']
    refine ⟨?_, ?_⟩
    · show (Nat.iterate stepParticle n p).life - (Nat.iterate stepParticle n p).decay = _
      rw [ih.1, ih.2]
      push_cast
      ring
    · show (Nat.iterate stepParticle n p).decay = _
      exact ih.2

theorem mem_particlePass {α : Type} [LinearOrderedField α] (ps : List (Particle α))
    (q : Particle α) :
    q ∈ particlePass ps ↔ ∃ p ∈ ps, q = stepParticle p ∧ 0 < q.life := by
  simp only [particlePass, List.mem_filter, List.mem_map, decide_eq_true_eq, gt_iff_lt]
  constructor
  · rintro ⟨⟨p, hp, rfl⟩, h⟩
    exact ⟨p, hp, rfl, h⟩
  · rintro ⟨p, hp, rfl, h⟩
    exact ⟨⟨p, hp, rfl⟩, h⟩

/-- A particle whose life stays positive through `n` updates is still in the
list after `n` passes. -/
theorem iterate_particlePass_mem {α : Type} [LinearOrderedField α] (n : Nat)
    (ps : List (Particle α)) (p : Particle α) (hp : p ∈ ps) (hd : 0 ≤ p.decay)
    (hl : 0 < (Nat.iterate stepParticle n p).life) :
    Nat.iterate stepParticle n p ∈ Nat.iterate particlePass n ps := by
  induction n generalizing ps p with
  | zero => exact hp
  | succ n ih =>
    rw [Function.iterate_succ_apply, Function.iterate_succ_apply]
    rw [Function.iterate_succ_apply] at hl
    have h1 : 0 < (stepParticle p).life := by
      have h2 := (iterate_stepParticle (stepParticle p) n).1
      have h3 : (stepParticle p).decay = p.decay := rfl
      have h4 : (0 : α) ≤ n * p.decay := mul_nonneg (Nat.cast_nonneg n) hd
      rw [h2, h3] at hl
      linarith
    exact ih (particlePass ps) (stepParticle p)
      ((mem_particlePass ps _).2 ⟨p, hp, rfl, h1⟩) hd hl

/-- What is in the list after `n` passes is the `n`-fold update of a particle
of the list, with positive life when `n > 0`. -/
theorem iterate_particlePass_origin {α : Type} [LinearOrderedField α] (n : Nat)
    (ps : List (Particle α)) (q : Particle α) (hq : q ∈ Nat.iterate particlePass n ps) :
    ∃ p ∈ ps, q = Nat.iterate stepParticle n p ∧ (0 < n → 0 < q.life) := by
  induction n generalizing q with
  | zero => exact ⟨q, hq, rfl, fun h => absurd h (Nat.lt_irrefl 0)⟩
  | succ n ih =>
    rw [Function.iterate_succ_apply'] at hq
    obtain ⟨r, hr, rfl, hlife⟩ := (mem_particlePass _ q).1 hq
    obtain ⟨p, hp, rfl, _⟩ := ih r hr
    exact ⟨p, hp, by rw [Function.iterate_succ_apply'], fun _ => hlife⟩

variable {α : Type} [LinearOrderedField α] [FloorRing α]

theorem animate_particlePass (w : World α) :
    (Fireworks.animate w).fw.particles
      = particlePass (animateRockets w.fw.rockets w).2.fw.particles := rfl

theorem animate_no_rockets (w : World α) (h : w.fw.rockets = []) :
    (Fireworks.animate w).fw.rockets = [] ∧
      (Fireworks.animate w).fw.particles = particlePass w.fw.particles := by
  rw [animate_rockets, animate_particlePass, h]
  exact ⟨rfl, rfl⟩

theorem iterate_animate_no_rockets (n : Nat) (w : World α) (h : w.fw.rockets = []) :
    (Nat.iterate Fireworks.animate n w).fw.rockets = [] ∧
      (Nat.iterate Fireworks.animate n w).fw.particles
        = Nat.iterate particlePass n w.fw.particles := by
  induction n generalizing w with
  | zero => exact ⟨h, rfl⟩
  | succ n ih =>
    rw [Function.iterate_succ_apply, Function.iterate_succ_apply]
    obtain ⟨h1, h2⟩ := animate_no_rockets w h
    rw [← h2]
    exact ih _ h1

theorem animate_keeps (w : World α) (p : Particle α)
    (hp : p ∈ (animateRockets w.fw.rockets w).2.fw.particles) (hl : 0 < (stepParticle p).life) :
    stepParticle p ∈ (Fireworks.animate w).fw.particles := by
  rw [animate_particlePass]
  exact (mem_particlePass _ _).2 ⟨p, hp, rfl, hl⟩

theorem mem_before_pass (w : World α) (p : Particle α) (hp : p ∈ w.fw.particles) :
    p ∈ (animateRockets w.fw.rockets w).2.fw.particles := by
  obtain ⟨extra, he, _⟩ := animateRockets_particles w.fw.rockets w
  rw [he]
  exact List.mem_append_left _ hp

/-- A particle whose life stays positive through `n` updates is still in
`Fireworks.particles` after `n` frames, whatever the rockets do. -/
theorem iterate_animate_mem (n : Nat) (w : World α) (p : Particle α)
    (hp : p ∈ (animateRockets w.fw.rockets w).2.fw.particles) (hd : 0 ≤ p.decay)
    (hl : 0 < (Nat.iterate stepParticle (n + 1) p).life) :
    Nat.iterate stepParticle (n + 1) p ∈ (Nat.iterate Fireworks.animate (n + 1) w).fw.particles := by
  induction n generalizing w p with
  | zero =>
    exact animate_keeps w p hp hl
  | succ n ih =>
    rw [Function.iterate_succ_apply] at hl ⊢
    rw [Function.iterate_succ_apply (f := Fireworks.animate)]
    have h1 : 0 < (stepParticle p).life := by
      have h2 := (iterate_stepParticle (stepParticle p) (n + 1)).1
      have h3 : (stepParticle p).decay = p.decay := rfl
      have h4 : (0 : α) ≤ ((n + 1 : Nat) : α) * p.decay := mul_nonneg (Nat.cast_nonneg _) hd
      rw [h2, h3] at hl
      linarith
    exact ih (Fireworks.animate w) (stepParticle p)
      (mem_before_pass _ _ (animate_keeps w p hp h1)) hd hl

/-- In every reachable state each particle has been updated at least once
since `explode` created it with life 1 and a decay in `[0.008, 0.016)`. -/
theorem reachable_particles (pg : Page α)
    (hrand : ∀ k, 0 ≤ pg.host.random k ∧ pg.host.random k < 1) (evs : List (Ev α)) :
    ∀ p ∈ (exec evs (initial pg)).fw.particles,
      (0.008 ≤ p.decay ∧ p.decay < 0.016) ∧ 0 < p.life ∧
        ∃ k : Nat, 1 ≤ k ∧ p.life = 1 - k * p.decay := by
  have hinv : (exec evs (initial pg)).host = pg.host ∧
      ∀ p ∈ (exec evs (initial pg)).fw.particles,
        (0.008 ≤ p.decay ∧ p.decay < 0.016) ∧ 0 < p.life ∧
          ∃ k : Nat, 1 ≤ k ∧ p.life = 1 - k * p.decay := by
    refine exec_preserves
      (fun w => w.host = pg.host ∧ ∀ p ∈ w.fw.particles,
        (0.008 ≤ p.decay ∧ p.decay < 0.016) ∧ 0 < p.life ∧
          ∃ k : Nat, 1 ≤ k ∧ p.life = 1 - k * p.decay) ?_ ?_ ?_ ?_ evs _ ?_
    · intro w v hh _ hp hK
      exact ⟨hh ▸ hK.1, hp ▸ hK.2⟩
    · intro w hK
      exact ⟨hK.1, by intro p hp; simp [Experience.replay, setPhase] at hp⟩
    · intro x w hK
      exact hK
    · intro w hK
      refine ⟨(animate_host w).trans hK.1, ?_⟩
      intro p hp
      rw [animate_particlePass] at hp
      obtain ⟨q, hq, rfl, hlife⟩ := (mem_particlePass _ p).1 hp
      obtain ⟨extra, he, hfresh⟩ := animateRockets_particles w.fw.rockets w
      rw [he, List.mem_append] at hq
      rcases hq with hq | hq
      · obtain ⟨hdec, _, k, hk1, hk⟩ := hK.2 q hq
        refine ⟨hdec, hlife, k + 1, by omega, ?_⟩
        show q.life - q.decay = 1 - ((k + 1 : Nat) : α) * q.decay
        rw [hk]
        push_cast
        ring
      · obtain ⟨x, y, v, hv, hb⟩ := hfresh q hq
        have hdec := burst_decay (by rw [hv, hK.1]; exact hrand) hb
        refine ⟨hdec, hlife, 1, le_refl 1, ?_⟩
        show q.life - q.decay = 1 - ((1 : Nat) : α) * q.decay
        rw [(burst_fresh hb).2.2.1]
        push_cast
        ring
    · exact ⟨rfl, by intro p hp; simp [initial] at hp⟩
  exact hinv.2

/-- C21. On a page whose random draws lie in `[0, 1)`, over exact arithmetic:
every particle `explode` creates has life 1 and a decay in `[0.008, 0.016)`;
after `n` updates its life is `1 - n * decay`, which is positive for every
`n <= 62` and not positive at `n = 125`; such a particle, entering the particle
pass of a frame, is still in `Fireworks.particles` after each of the first 62
frames; in every state reachable by any sequence of events each particle
present has had between 1 and 124 updates since its creation, so none outlives
its 125th update; and from a reachable state with no rocket left (the frame of
the last burst being the first update of its particles), 124 further frames,
or more, leave the particle list empty. -/
theorem particle_lifetime (pg : Page α)
    (hrand : ∀ k, 0 ≤ pg.host.random k ∧ pg.host.random k < 1) (evs : List (Ev α)) :
    (∀ (v : World α) (x y : α), v.host = pg.host →
        ∀ p ∈ Fireworks.burst x y v, p.life = 1 ∧ 0.008 ≤ p.decay ∧ p.decay < 0.016)
      ∧ (∀ (p : Particle α) (n : Nat),
          (Nat.iterate stepParticle n p).life = p.life - n * p.decay)
      ∧ (∀ p : Particle α, p.life = 1 → 0.008 ≤ p.decay → p.decay < 0.016 →
          (∀ n, n ≤ 62 → 0 < (Nat.iterate stepParticle n p).life)
            ∧ (Nat.iterate stepParticle 125 p).life ≤ 0)
      ∧ (∀ (w : World α) (q : Particle α),
          q ∈ (animateRockets w.fw.rockets w).2.fw.particles →
          q.life = 1 → 0.008 ≤ q.decay → q.decay < 0.016 →
          ∀ n, 1 ≤ n → n ≤ 62 →
            Nat.iterate stepParticle n q ∈ (Nat.iterate Fireworks.animate n w).fw.particles)
      ∧ (∀ p ∈ (exec evs (initial pg)).fw.particles,
          0 < p.life ∧ ∃ k : Nat, 1 ≤ k ∧ k ≤ 124 ∧ p.life = 1 - k * p.decay)
      ∧ ((exec evs (initial pg)).fw.rockets = [] → ∀ n, 124 ≤ n →
          (Nat.iterate Fireworks.animate n (exec evs (initial pg))).fw.particles = []) := by
  have hpos : ∀ (p : Particle α) (n : Nat), p.life = 1 → p.decay < 0.016 → 0 ≤ p.decay →
      n ≤ 62 → 0 < (Nat.iterate stepParticle n p).life := by
    intro p n hl hd h0 hn
    rw [(iterate_stepParticle p n).1, hl]
    have h1 : (n : α) ≤ 62 := by exact_mod_cast hn
    have h2 : (n : α) * p.decay ≤ 62 * p.decay := mul_le_mul_of_nonneg_right h1 h0
    have h3 : (62 : α) * p.decay < 62 * 0.016 := by linarith
    have h4 : (62 : α) * 0.016 < 1 := by norm_num
    linarith
  have h8 : (0 : α) < 0.008 := by norm_num
  refine ⟨?_, fun p n => (iterate_stepParticle p n).1, ?_, ?_, ?_, ?_⟩
  · intro v x y hv p hp
    have hdec := burst_decay (by rw [hv]; exact hrand) hp
    exact ⟨(burst_fresh hp).2.2.1, hdec.1, hdec.2⟩
  · intro p hl hlo hhi
    refine ⟨fun n hn => hpos p n hl hhi (le_trans h8.le hlo) hn, ?_⟩
    rw [(iterate_stepParticle p 125).1, hl]
    have : (125 : α) * 0.008 = 1 := by norm_num
    have h2 : (125 : α) * 0.008 ≤ 125 * p.decay := by linarith
    push_cast
    linarith
  · intro w q hq hl hlo hhi n h1 hn
    obtain ⟨m, rfl⟩ : ∃ m, n = m + 1 := ⟨n - 1, by omega⟩
    exact iterate_animate_mem m w q hq (le_trans h8.le hlo)
      (hpos q (m + 1) hl hhi (le_trans h8.le hlo) hn)
  · intro p hp
    obtain ⟨hdec, hlife, k, hk1, hk⟩ := reachable_particles pg hrand evs p hp
    refine ⟨hlife, k, hk1, ?_, hk⟩
    by_contra hcon
    have hk125 : (125 : α) ≤ (k : α) := by exact_mod_cast (show 125 ≤ k by omega)
    have h2 : (125 : α) * 0.008 ≤ (k : α) * p.decay :=
      mul_le_mul hk125 hdec.1 h8.le (le_trans (by norm_num) hk125)
    have h3 : (125 : α) * 0.008 = 1 := by norm_num
    rw [hk] at hlife
    linarith
  · intro hr n hn
    rw [(iterate_animate_no_rockets n _ hr).2]
    apply List.eq_nil_iff_forall_not_mem.2
    intro q hq
    obtain ⟨p, hp, rfl, hlife⟩ := iterate_particlePass_origin n _ q hq
    have hq0 := hlife (by omega)
    obtain ⟨hdec, _, k, hk1, hk⟩ := reachable_particles pg hrand evs p hp
    rw [(iterate_stepParticle p n).1, hk] at hq0
    have hkn : (125 : α) ≤ (k : α) + (n : α) := by exact_mod_cast (show 125 ≤ k + n by omega)
    have h2 : (125 : α) * 0.008 ≤ ((k : α) + (n : α)) * p.decay :=
      mul_le_mul hkn hdec.1 h8.le (le_trans (by norm_num) hkn)
    have h3 : (125 : α) * 0.008 = 1 := by norm_num
    have h4 : ((k : α) + (n : α)) * p.decay = (k : α) * p.decay + (n : α) * p.decay := by ring
    linarith

/-- C21, on the sample page, for a particle of decay 0.01: alive after 62
updates, not after 125. -/
theorem particle_lifetime_witness :
    (∀ k, 0 ≤ samplePage.host.random k ∧ samplePage.host.random k < 1)
      ∧ 0 < (Nat.iterate stepParticle 62
          (⟨500, 300, 3, 4, 1, 1 / 100, none, 2, []⟩ : Particle ℚ)).life
      ∧ (Nat.iterate stepParticle 125
          (⟨500, 300, 3, 4, 1, 1 / 100, none, 2, []⟩ : Particle ℚ)).life ≤ 0 :=
  ⟨fun _ => ⟨by norm_num [samplePage, pageWith], by norm_num [samplePage, pageWith]⟩,
   ((particle_lifetime samplePage
      (fun _ => ⟨by norm_num [samplePage, pageWith], by norm_num [samplePage, pageWith]⟩)
      []).2.2.1 ⟨500, 300, 3, 4, 1, 1 / 100, none, 2, []⟩ rfl (by norm_num) (by norm_num)).1
        62 (le_refl 62),
   ((particle_lifetime samplePage
      (fun _ => ⟨by norm_num [samplePage, pageWith], by norm_num [samplePage, pageWith]⟩)
      []).2.2.1 ⟨500, 300, 3, 4, 1, 1 / 100, none, 2, []⟩ rfl (by norm_num) (by norm_num)).2⟩

end Lifetime

/-! ## The launch sequence in the uninterrupted run -/

theorem filterMap_insertTimer {α : Type} (t : Timer α) (l : List (Timer α)) (h : t.cb.launchX = none) :
    (insertTimer t l).filterMap (fun u => u.cb.launchX) = l.filterMap (fun u => u.cb.launchX) := by
  induction l with
  | nil => simp [insertTimer, h]
  | cons u us ih =>
    by_cases hlt : t.due < u.due
    · simp [insertTimer, hlt, h]
    · simp only [insertTimer, if_neg hlt, List.filterMap_cons]
      rw [ih]

section Launches

variable {α : Type} [LinearOrderedField α] [FloorRing α]

theorem animateRockets_size (rs : List (Rocket α)) (w : World α) :
    (animateRockets rs w).2.fw.width = w.fw.width ∧
      (animateRockets rs w).2.fw.height = w.fw.height := by
  induction rs generalizing w with
  | nil => exact ⟨rfl, rfl⟩
  | cons r rs ih =>
    simp only [animateRockets]
    split
    · exact ih _
    · exact ih w

theorem animate_size (w : World α) :
    (Fireworks.animate w).fw.width = w.fw.width ∧
      (Fireworks.animate w).fw.height = w.fw.height :=
  animateRockets_size w.fw.rockets w

/-- No timer closure changes the size of the canvas. -/
theorem runCallback_size (cb : Callback α) (v : World α) :
    (runCallback cb v).fw.width = v.fw.width ∧ (runCallback cb v).fw.height = v.fw.height := by
  cases cb with
  | release =>
    show (Fireworks.animate _).fw.width = _ ∧ (Fireworks.animate _).fw.height = _
    rw [(animate_size _).1, (animate_size _).2]
    exact ⟨rfl, rfl⟩
  | advance =>
    simp only [runCallback]
    split <;> exact ⟨rfl, rfl⟩
  | launch x =>
    simp only [runCallback]
    split <;> exact ⟨rfl, rfl⟩
  | startCountdown => exact ⟨rfl, rfl⟩
  | dissolve => exact ⟨rfl, rfl⟩
  | showMessage => exact ⟨rfl, rfl⟩
  | afterglow => exact ⟨rfl, rfl⟩
  | showControls => exact ⟨rfl, rfl⟩
  | canvasInactive => exact ⟨rfl, rfl⟩

theorem fireNext_size (w : World α) :
    (fireNext w).fw.width = w.fw.width ∧ (fireNext w).fw.height = w.fw.height := by
  cases hw : w.timers with
  | nil =>
    have hf : fireNext w = w := by simp [fireNext, hw]
    rw [hf]
    exact ⟨rfl, rfl⟩
  | cons t ts =>
    have hf : fireNext w
        = runCallback t.cb { w with timers := ts, now := max w.now t.due } := by
      simp [fireNext, hw]
    rw [hf]
    exact runCallback_size t.cb _

theorem frame_size (w : World α) :
    (frame w).fw.width = w.fw.width ∧ (frame w).fw.height = w.fw.height := by
  have h0 : ({ w with fw := { w.fw with chains := 0 } } : World α).fw.width = w.fw.width ∧
      ({ w with fw := { w.fw with chains := 0 } } : World α).fw.height = w.fw.height :=
    ⟨rfl, rfl⟩
  simp only [frame]
  generalize { w with fw := { w.fw with chains := 0 } } = v at h0
  induction w.fw.chains generalizing v with
  | zero => exact h0
  | succ n ih =>
    rw [Function.iterate_succ_apply]
    exact ih _ ⟨(animate_size v).1.trans h0.1, (animate_size v).2.trans h0.2⟩

/-- The timer queue after a closure depends only on the queue and the
sequencer view before it. -/
theorem runCallback_timers_congr (cb : Callback α) (w w1 : World α) (hc : core w = core w1)
    (ht : w.timers = w1.timers) :
    (runCallback cb w).timers = (runCallback cb w1).timers := by
  simp only [core, Core.mk.injEq] at hc
  obtain ⟨h1, h2, h3, h4, h5, h6, h7⟩ := hc
  cases cb
  case advance =>
    simp only [runCallback, h2]
    split
    · simp [Experience.showNumber, setTimeout, ht, h5]
    · simp [Experience.zeroMoment, setTimeout, setPhase, ht, h5]
  case launch x =>
    simp only [runCallback, h3]
    split
    · simp [Fireworks.createRocket, ht]
    · exact ht
  all_goals
    simp [runCallback, Experience.startCountdown, Experience.showNumber,
      Experience.release, Experience.showMessage, Experience.afterglow, Fireworks.start,
      Fireworks.fadeOut, Fireworks.launchSequence, launches, setTimeout, setPhase,
      animate_timers, animate_now, ht, h5]

theorem fireNext_timers_congr (w w1 : World α) (hc : core w = core w1)
    (ht : w.timers = w1.timers) : (fireNext w).timers = (fireNext w1).timers := by
  have hnow : w.now = w1.now := congrArg Core.now hc
  cases hw : w.timers with
  | nil =>
    have hw1 : w1.timers = [] := by rw [← ht, hw]
    simp only [fireNext, hw, hw1]
  | cons t ts =>
    have hw1 : w1.timers = t :: ts := by rw [← ht, hw]
    simp only [fireNext, hw, hw1]
    apply runCallback_timers_congr
    · simp only [core, Core.mk.injEq] at hc ⊢
      obtain ⟨a, b, c, _, e, f, g⟩ := hc
      simp [a, b, c, e, f, g]
    · rfl

theorem run_timers_congr (n : Nat) (w w1 : World α) (hc : core w = core w1)
    (ht : w.timers = w1.timers) : (run n w).timers = (run n w1).timers := by
  induction n generalizing w w1 with
  | zero => exact ht
  | succ n ih =>
    exact ih _ _ (core_fireNext_congr w w1 hc) (fireNext_timers_congr w w1 hc ht)

theorem run_size (n : Nat) (w : World α) :
    (run n w).fw.width = w.fw.width ∧ (run n w).fw.height = w.fw.height := by
  induction n generalizing w with
  | zero => exact ⟨rfl, rfl⟩
  | succ n ih =>
    exact ⟨(ih (fireNext w)).1.trans (fireNext_size w).1,
           (ih (fireNext w)).2.trans (fireNext_size w).2⟩

/-- Frames between timers change neither the timer queue nor the size of the
canvas. -/
theorem exec_passive_timers (es : List (Ev α)) (hes : ∀ e ∈ es, e.passive = true) (w : World α) :
    (exec es w).timers = (run (ticks es) w).timers
      ∧ (exec es w).fw.width = w.fw.width ∧ (exec es w).fw.height = w.fw.height := by
  induction es generalizing w with
  | nil => exact ⟨rfl, rfl, rfl⟩
  | cons e es ih =>
    have hrest : ∀ e ∈ es, e.passive = true := fun e he => hes e (List.mem_cons_of_mem _ he)
    have he := hes e (List.mem_cons_self _ _)
    cases e with
    | tick =>
      obtain ⟨h1, h2, h3⟩ := ih hrest (fireNext w)
      exact ⟨h1, h2.trans (fireNext_size w).1, h3.trans (fireNext_size w).2⟩
    | frame =>
      obtain ⟨h1, h2, h3⟩ := ih hrest (frame w)
      refine ⟨?_, h2.trans (frame_size w).1, h3.trans (frame_size w).2⟩
      show (exec es (frame w)).timers = (run (ticks es) w).timers
      rw [h1]
      exact run_timers_congr _ _ _ (core_frame w) (frame_state_timers w).2
    | clickBegin f => simp [Ev.passive] at he
    | clickReplay => simp [Ev.passive] at he
    | clickSound => simp [Ev.passive] at he
    | keydown k f => simp [Ev.passive] at he
    | resize a b => simp [Ev.passive] at he
    | elapse d => simp [Ev.passive] at he

theorem run_succ_last (n : Nat) (w : World α) : run (n + 1) w = fireNext (run n w) := by
  rw [run_add]
  rfl

/-- A closure that is neither a launch nor `release` leaves the rockets and
the pending launches as they are. -/
theorem runCallback_other (cb : Callback α) (v : World α) (h1 : cb.isLaunch = false)
    (h2 : cb.erase ≠ Callback.release) :
    (runCallback cb v).fw.rockets = v.fw.rockets ∧
      (runCallback cb v).timers.filterMap (fun u => u.cb.launchX)
        = v.timers.filterMap (fun u => u.cb.launchX) := by
  cases cb with
  | release => exact absurd rfl h2
  | launch x => simp [Callback.isLaunch] at h1
  | advance =>
    simp only [runCallback]
    split
    · exact ⟨rfl, filterMap_insertTimer _ _ rfl⟩
    · exact ⟨rfl, filterMap_insertTimer _ _ rfl⟩
  | startCountdown => exact ⟨rfl, filterMap_insertTimer _ _ rfl⟩
  | dissolve => exact ⟨rfl, filterMap_insertTimer _ _ rfl⟩
  | showMessage => exact ⟨rfl, rfl⟩
  | afterglow =>
    refine ⟨rfl, ?_⟩
    show (insertTimer _ (insertTimer _ v.timers)).filterMap _ = _
    rw [filterMap_insertTimer _ _ (by rfl), filterMap_insertTimer _ _ (by rfl)]
  | showControls => exact ⟨rfl, rfl⟩
  | canvasInactive => exact ⟨rfl, rfl⟩

/-- The closure `release` run with no rocket and an empty queue: no rocket
after it, and the pending launches are those of the table, in table order. -/
theorem release_launches (v : World α) (ht : v.timers = []) (hr : v.fw.rockets = []) :
    (runCallback Callback.release v).fw.rockets = [] ∧
      (runCallback Callback.release v).timers.filterMap (fun u => u.cb.launchX)
        = (launches : List (Int × α)).map Prod.snd := by
  constructor
  · show (animateRockets (Fireworks.launchSequence _).fw.rockets _).1 = []
    have : (Fireworks.launchSequence { setPhase Phase.release v with
        fw := { (setPhase Phase.release v).fw with
          isActive := true
          canvasClasses := classAdd Cls.active (setPhase Phase.release v).fw.canvasClasses } }
        ).fw.rockets = [] := hr
    rw [this]
    rfl
  · show (insertTimer _ (insertTimer _ (Fireworks.animate _).timers)).filterMap _ = _
    rw [filterMap_insertTimer _ _ (by rfl), filterMap_insertTimer _ _ (by rfl), animate_timers]
    simp [Fireworks.launchSequence, launches, setTimeout, setPhase, insertTimer, ht,
      Callback.launchX]

set_option maxRecDepth 100000 in
set_option synthInstance.maxSize 4096 in
set_option synthInstance.maxHeartbeats 400000 in
theorem sample_launches : ∀ n, n ≤ 38 →
    (n < 21 →
      ((core (run n (Experience.begin none (initial samplePage)))).timers.head?.map Timer.cb
          = some Callback.startCountdown
        ∨ (core (run n (Experience.begin none (initial samplePage)))).timers.head?.map Timer.cb
          = some Callback.dissolve
        ∨ (core (run n (Experience.begin none (initial samplePage)))).timers.head?.map Timer.cb
          = some Callback.advance))
    ∧ (n = 21 →
        (core (run n (Experience.begin none (initial samplePage)))).timers
          = [⟨12300, Callback.release⟩])
    ∧ (22 ≤ n →
        (core (run n (Experience.begin none (initial samplePage)))).timers.head?.map Timer.cb
          ≠ some Callback.release)
    ∧ ((core (run n (Experience.begin none (initial samplePage)))).timers.head?.map Timer.cb
          = some (Callback.launch ()) →
        22 ≤ n
        ∧ (core (run n (Experience.begin none (initial samplePage)))).isActive = true
        ∧ ((core (run n (Experience.begin none (initial samplePage)))).phase = Phase.release
          ∨ (core (run n (Experience.begin none (initial samplePage)))).phase = Phase.message))
    ∧ (n ≤ 21 →
        ((core (run n (Experience.begin none (initial samplePage)))).timers.filter
          (fun t => t.cb.isLaunch)) = [])
    ∧ (n = 22 →
        ((core (run n (Experience.begin none (initial samplePage)))).timers.filter
            (fun t => t.cb.isLaunch)).map Timer.due
          = [12300, 13100, 13500, 14300, 14800, 15500, 16100, 16800, 17500, 18100, 18800, 19500]
        ∧ (core (run n (Experience.begin none (initial samplePage)))).phaseLog.getLast?
          = some (12300, Phase.release)
        ∧ (⟨20300, Callback.afterglow⟩ : Timer Unit)
            ∈ (core (run n (Experience.begin none (initial samplePage)))).timers)
    ∧ (35 ≤ n →
        ((core (run n (Experience.begin none (initial samplePage)))).timers.filter
          (fun t => t.cb.isLaunch)) = [])
    ∧ ((core (run n (Experience.begin none (initial samplePage)))).isActive = true ↔
        22 ≤ n ∧ n ≤ 35)
    ∧ (n = 36 →
        (core (run n (Experience.begin none (initial samplePage)))).phaseLog.getLast?
          = some (20300, Phase.afterglow)) := by
  decide!

/-- The rockets and the pending launches of the run with timers only: the
fractions of the pending launches are always a final part of the table; there
is no rocket and no pending launch before `release` has run (timer 22); from
then on the start positions of the rockets, followed by those of the launches
still pending, are the table. -/
theorem launch_run (pg : Page α) (f : Option Nat) (n : Nat) :
    (n < 22 →
        (run n (Experience.begin f (initial pg))).fw.rockets = []
        ∧ (run n (Experience.begin f (initial pg))).timers.filterMap (fun u => u.cb.launchX) = [])
      ∧ (22 ≤ n →
        (run n (Experience.begin f (initial pg))).fw.rockets.map (fun r => (r.x, r.y))
            ++ ((run n (Experience.begin f (initial pg))).timers.filterMap
                  (fun u => u.cb.launchX)).map (fun x => (pg.innerWidth * x, pg.innerHeight))
          = (launches : List (Int × α)).map (fun l => (pg.innerWidth * l.2, pg.innerHeight)))
      ∧ (run n (Experience.begin f (initial pg))).timers.filterMap (fun u => u.cb.launchX)
          <:+ (launches : List (Int × α)).map Prod.snd := by
  induction n with
  | zero =>
    have h0 : (run 0 (Experience.begin f (initial pg))).timers.filterMap
        (fun u => u.cb.launchX) = [] := by
      simp [run, Experience.begin, setTimeout, setPhase, initial, insertTimer, Callback.launchX]
    refine ⟨fun _ => ⟨rfl, h0⟩, fun h => absurd h (by decide), ?_⟩
    rw [h0]
    exact List.nil_suffix
  | succ n ih =>
    have hc := core_run_begin pg f n
    have hsize := run_size n (Experience.begin f (initial pg))
    have hW : (run n (Experience.begin f (initial pg))).fw.width = pg.innerWidth := hsize.1
    have hH : (run n (Experience.begin f (initial pg))).fw.height = pg.innerHeight := hsize.2
    rw [run_succ_last]
    generalize run n (Experience.begin f (initial pg)) = w at ih hc hW hH ⊢
    obtain ⟨F1, F2, F3, F4, -⟩ := sample_launches _ (Nat.min_le_right n 38)
    rw [← hc] at F1 F2 F3 F4
    cases hw : w.timers with
    | nil =>
      have hf : fireNext w = w := by simp [fireNext, hw]
      rw [hf]
      have hcn : (core w).timers = [] := by simp [core, hw]
      refine ⟨fun h => ?_, fun h => ?_, ih.2.2⟩
      · have := F1 (by omega)
        rw [hcn] at this
        simp at this
      · by_cases h21 : n = 21
        · have := F2 (by omega)
          rw [hcn] at this
          simp at this
        · exact ih.2.1 (by omega)
    | cons t ts =>
      have hf : fireNext w
          = runCallback t.cb { w with timers := ts, now := max w.now t.due } := by
        simp [fireNext, hw]
      have hk : (core w).timers.head?.map Timer.cb = some t.cb.erase := by
        simp [core, hw, Timer.erase]
      have hct : (core w).timers = t.erase :: ts.map Timer.erase := by simp [core, hw]
      rw [hk] at F1 F3 F4
      rw [hf]
      by_cases hL : t.cb.isLaunch = true
      · obtain ⟨x, hx⟩ : ∃ x, t.cb = Callback.launch x := by
          cases hcb : t.cb <;> simp [hcb, Callback.isLaunch] at hL ⊢
        have h4 := F4 (by rw [hx]; rfl)
        have hn : 22 ≤ n := by omega
        have hact : w.fw.isActive = true := h4.2.1
        have hR := ih.2.1 hn
        have hS := ih.2.2
        have hcons : w.timers.filterMap (fun u => u.cb.launchX)
            = x :: ts.filterMap (fun u => u.cb.launchX) := by
          rw [hw]
          exact List.filterMap_cons_some (f := fun u : Timer α => u.cb.launchX)
            (by show t.cb.launchX = some x; rw [hx]; rfl)
        rw [hcons] at hR hS
        rw [hx]
        simp only [runCallback]
        rw [if_pos hact]
        refine ⟨fun h => absurd h (by omega), fun _ => ?_, ?_⟩
        · simp only [Fireworks.createRocket, List.map_append, List.map_cons, List.map_nil,
            List.append_assoc, List.singleton_append, hW, hH]
          simpa using hR
        · exact (List.suffix_cons x _).trans hS
      · by_cases hRel : t.cb.erase = Callback.release
        · have hx : t.cb = Callback.release := by
            cases hcb : t.cb <;> simp [hcb, Callback.erase] at hRel ⊢
          have hn : n = 21 := by
            by_contra hne
            rcases Nat.lt_or_gt_of_ne hne with h | h
            · have := F1 (by omega)
              rw [hRel] at this
              simp at this
            · exact F3 (by omega) (by rw [hRel])
          subst hn
          have h2 := F2 (by decide)
          rw [hct] at h2
          have hts : ts = [] := by
            have := (List.cons.inj h2).2
            simpa using this
          obtain ⟨r1, r2⟩ := release_launches
            ({ w with timers := ts, now := max w.now t.due } : World α) hts (ih.1 (by decide)).1
          rw [hx, r1, r2]
          refine ⟨fun h => absurd h (by decide), fun _ => ?_, List.suffix_refl _⟩
          simp [List.map_map, Function.comp]
        · have hL1 : t.cb.isLaunch = false := by simpa using hL
          obtain ⟨r1, r2⟩ := runCallback_other t.cb
            ({ w with timers := ts, now := max w.now t.due } : World α) hL1 hRel
          have hnone : t.cb.launchX = none := by
            cases hcb : t.cb <;> simp [hcb, Callback.isLaunch, Callback.launchX] at hL1 ⊢
          have hfm : w.timers.filterMap (fun u => u.cb.launchX)
              = ts.filterMap (fun u => u.cb.launchX) := by
            rw [hw]
            exact List.filterMap_cons_none (f := fun u : Timer α => u.cb.launchX) hnone
          rw [r1, r2]
          show (n + 1 < 22 → w.fw.rockets = [] ∧ ts.filterMap (fun u => u.cb.launchX) = [])
            ∧ (22 ≤ n + 1 →
              w.fw.rockets.map (fun r => (r.x, r.y))
                  ++ (ts.filterMap (fun u => u.cb.launchX)).map
                      (fun x => (pg.innerWidth * x, pg.innerHeight))
                = (launches : List (Int × α)).map
                    (fun l => (pg.innerWidth * l.2, pg.innerHeight)))
            ∧ ts.filterMap (fun u => u.cb.launchX) <:+ (launches : List (Int × α)).map Prod.snd
          rw [← hfm]
          refine ⟨fun h => ih.1 (by omega), fun h => ?_, ih.2.2⟩
          by_cases h21 : n = 21
          · exfalso
            have h2 := F2 (by omega)
            rw [hct] at h2
            have := congrArg Timer.cb (List.cons.inj h2).1
            exact hRel this
          · exact ih.2.1 (by omega)

theorem pending_length {β : Type} (l : List (Timer β)) :
    (l.filterMap (fun u => u.cb.launchX)).length
      = ((l.map Timer.erase).filter (fun t => t.cb.isLaunch)).length := by
  induction l with
  | nil => rfl
  | cons t ts ih =>
    cases t with
    | mk due cb =>
      cases cb <;>
        simp [List.filterMap_cons, Callback.launchX, Timer.erase, Callback.erase,
          Callback.isLaunch, List.filter_cons] at ih ⊢ <;> exact ih

theorem launches_table {β : Type} [LinearOrderedField β] :
    (launches : List (Int × β)).length = 12
      ∧ (launches : List (Int × β)).map Prod.fst
          = [0, 800, 1200, 2000, 2500, 3200, 3800, 4500, 5200, 5800, 6500, 7200]
      ∧ ((launches : List (Int × β)).map Prod.fst).Pairwise (fun a b => a < b)
      ∧ (∀ l ∈ (launches : List (Int × β)), 0 < l.2 ∧ l.2 < 1)
      ∧ (launches : List (Int × β)).map (fun l => 12300 + l.1.toNat)
          = [12300, 13100, 13500, 14300, 14800, 15500, 16100, 16800, 17500, 18100, 18800, 19500] := by
  have hd : (launches : List (Int × β)).map Prod.fst
      = [0, 800, 1200, 2000, 2500, 3200, 3800, 4500, 5200, 5800, 6500, 7200] := by
    simp [launches]
  refine ⟨by simp [launches], hd, ?_, ?_, by simp [launches]⟩
  · rw [hd]
    decide
  · intro l hl
    simp only [launches, List.mem_cons, List.mem_singleton, List.not_mem_nil, or_false] at hl
    rcases hl with h | h | h | h | h | h | h | h | h | h | h | h <;> subst h <;>
      constructor <;> norm_num

/-- C22. The launch table has 12 entries, delays strictly increasing from 0
to 7200, fractions strictly between 0 and 1, and 7200 is less than
`fireworksDuration = 8000`. In the run started by one `begin()` on any page,
timers firing when due, any frames in between and no user input: no launch is
pending before `release` has run (timer 22); right after it, at 12300 ms, the
12 launches of the table are pending in table order, due at 12300 ms plus
their delays, all before the afterglow timer at 20300 ms; the pending launches
are always a final part of the table and none is left from timer 35 on;
`isActive` holds exactly from timer 22 to timer 35; whenever a launch is the
next timer, `isActive` holds, the phase is `release` or `message`, and firing
it appends exactly one rocket, at `x = width * fraction`, `y = height`, with
an empty trail. With timers only (no frame moving or removing a rocket) the
rocket list from timer 35 on consists of exactly 12 rockets whose start
positions are those of the table in table order. -/
theorem launch_sequence_run (pg : Page α) (failAt : Option Nat) (sched : List (Ev α))
    (hs : ∀ e ∈ sched, e.passive = true) (n : Nat) :
    ((launches : List (Int × α)).length = 12
        ∧ (launches : List (Int × α)).map Prod.fst
            = [0, 800, 1200, 2000, 2500, 3200, 3800, 4500, 5200, 5800, 6500, 7200]
        ∧ ((launches : List (Int × α)).map Prod.fst).Pairwise (fun a b => a < b)
        ∧ (∀ l ∈ (launches : List (Int × α)), 0 < l.2 ∧ l.2 < 1)
        ∧ (7200 : Int) < timingConfig.fireworksDuration
        ∧ timingConfig.fireworksDuration = 8000)
      ∧ (ticks sched < 22 →
          (exec sched (Experience.begin failAt (initial pg))).timers.filterMap
            (fun u => u.cb.launchX) = [])
      ∧ (ticks sched = 22 →
          (exec sched (Experience.begin failAt (initial pg))).timers.filterMap
              (fun u => u.cb.launchX) = (launches : List (Int × α)).map Prod.snd
          ∧ ((core (exec sched (Experience.begin failAt (initial pg)))).timers.filter
                (fun t => t.cb.isLaunch)).map Timer.due
              = (launches : List (Int × α)).map (fun l => 12300 + l.1.toNat)
          ∧ (exec sched (Experience.begin failAt (initial pg))).phaseLog.getLast?
              = some (12300, Phase.release)
          ∧ (⟨20300, Callback.afterglow⟩ : Timer Unit)
              ∈ (core (exec sched (Experience.begin failAt (initial pg)))).timers)
      ∧ ((exec sched (Experience.begin failAt (initial pg))).timers.filterMap
            (fun u => u.cb.launchX) <:+ (launches : List (Int × α)).map Prod.snd)
      ∧ (35 ≤ ticks sched →
          (exec sched (Experience.begin failAt (initial pg))).timers.filterMap
            (fun u => u.cb.launchX) = [])
      ∧ ((exec sched (Experience.begin failAt (initial pg))).fw.isActive = true ↔
          22 ≤ ticks sched ∧ ticks sched ≤ 35)
      ∧ (ticks sched = 36 →
          (exec sched (Experience.begin failAt (initial pg))).phaseLog.getLast?
            = some (20300, Phase.afterglow))
      ∧ (∀ (t : Timer α) (ts : List (Timer α)) (x : α),
          (exec sched (Experience.begin failAt (initial pg))).timers = t :: ts →
          t.cb = Callback.launch x →
          (exec sched (Experience.begin failAt (initial pg))).fw.isActive = true
          ∧ ((exec sched (Experience.begin failAt (initial pg))).state.phase = Phase.release
            ∨ (exec sched (Experience.begin failAt (initial pg))).state.phase = Phase.message)
          ∧ x ∈ (launches : List (Int × α)).map Prod.snd
          ∧ ∃ r : Rocket α,
              (fireNext (exec sched (Experience.begin failAt (initial pg)))).fw.rockets
                = (exec sched (Experience.begin failAt (initial pg))).fw.rockets ++ [r]
              ∧ r.x = pg.innerWidth * x ∧ r.y = pg.innerHeight ∧ r.trail = [])
      ∧ (35 ≤ n →
          (run n (Experience.begin failAt (initial pg))).fw.rockets.map (fun r => (r.x, r.y))
            = (launches : List (Int × α)).map (fun l => (pg.innerWidth * l.2, pg.innerHeight))
          ∧ (run n (Experience.begin failAt (initial pg))).fw.rockets.length = 12) := by
  obtain ⟨T1, T2, T3, T4, T5⟩ := @launches_table α _
  have hc := core_uninterrupted pg failAt sched hs
  obtain ⟨ht, hW, hH⟩ := exec_passive_timers sched hs (Experience.begin failAt (initial pg))
  obtain ⟨L1, -, L3⟩ := launch_run pg failAt (ticks sched)
  rw [← ht] at L1 L3
  obtain ⟨-, -, -, F4, -, F6, F7, F8, F9⟩ := sample_launches _ (Nat.min_le_right (ticks sched) 38)
  rw [← hc] at F4 F6 F7 F8 F9
  have hlen := pending_length (exec sched (Experience.begin failAt (initial pg))).timers
  have hLlen : ((launches : List (Int × α)).map Prod.snd).length = 12 := by
    rw [List.length_map, T1]
  refine ⟨⟨T1, T2, T3, T4, by decide, rfl⟩, ?_, ?_, L3, ?_, ?_, ?_, ?_, ?_⟩
  · intro h
    exact (L1 h).2
  · intro h
    obtain ⟨f1, f2, f3⟩ := F6 (by omega)
    refine ⟨?_, by rw [T5]; exact f1, f2, f3⟩
    apply L3.eq_of_length
    rw [hLlen, hlen]
    have := congrArg List.length f1
    simpa using this
  · intro h
    have h0 := F7 (by omega)
    apply List.length_eq_zero.1
    rw [hlen]
    exact congrArg List.length h0
  · constructor
    · intro h
      have := F8.1 h
      omega
    · intro h
      exact F8.2 (by omega)
  · intro h
    exact F9 (by omega)
  · intro t ts x htm hx
    have hk : (core (exec sched (Experience.begin failAt (initial pg)))).timers.head?.map Timer.cb
        = some (Callback.launch ()) := by
      simp [core, htm, Timer.erase, hx, Callback.erase]
    obtain ⟨-, hact, hph⟩ := F4 hk
    have hmem : x ∈ (launches : List (Int × α)).map Prod.snd := by
      apply L3.subset
      rw [htm]
      have : List.filterMap (fun u : Timer α => u.cb.launchX) (t :: ts)
          = x :: ts.filterMap (fun u => u.cb.launchX) :=
        List.filterMap_cons_some (f := fun u : Timer α => u.cb.launchX)
          (by show t.cb.launchX = some x; rw [hx]; rfl)
      rw [this]
      exact List.mem_cons_self _ _
    refine ⟨hact, hph, hmem, ?_⟩
    have hact1 : (exec sched (Experience.begin failAt (initial pg))).fw.isActive = true := hact
    refine ⟨{ x := pg.innerWidth * x, y := pg.innerHeight,
              targetY := pg.innerHeight * (0.2
                + rand (exec sched (Experience.begin failAt (initial pg))) 0 * 0.3),
              speed := 8 + rand (exec sched (Experience.begin failAt (initial pg))) 1 * 4,
              trail := [] }, ?_, rfl, rfl, rfl⟩
    have hW1 : (exec sched (Experience.begin failAt (initial pg))).fw.width = pg.innerWidth := hW
    have hH1 : (exec sched (Experience.begin failAt (initial pg))).fw.height = pg.innerHeight :=
      hH
    simp only [fireNext, htm, hx, runCallback, hact1, if_true, Fireworks.createRocket, hW1, hH1,
      rand]
  · intro h
    obtain ⟨-, R2, -⟩ := launch_run pg failAt n
    have hcn := core_run_begin pg failAt n
    obtain ⟨-, -, -, -, -, -, G7, -⟩ := sample_launches _ (Nat.min_le_right n 38)
    rw [← hcn] at G7
    have hp : (run n (Experience.begin failAt (initial pg))).timers.filterMap
        (fun u => u.cb.launchX) = [] := by
      apply List.length_eq_zero.1
      rw [pending_length]
      exact congrArg List.length (G7 (by omega))
    have hR := R2 (by omega)
    rw [hp, List.map_nil, List.append_nil] at hR
    refine ⟨hR, ?_⟩
    have := congrArg List.length hR
    simpa [T1] using this

/-- C22, on the sample page: the pending launches right after `release`, with
a frame in between, and the 12 rockets of the run with timers only. -/
theorem launch_sequence_run_witness :
    (∀ e ∈ (List.replicate 10 Ev.tick ++ [Ev.frame] ++ List.replicate 12 Ev.tick : List (Ev ℚ)),
        e.passive = true)
      ∧ (exec (List.replicate 10 Ev.tick ++ [Ev.frame] ++ List.replicate 12 Ev.tick)
          (Experience.begin none (initial samplePage))).timers.filterMap (fun u => u.cb.launchX)
          = (launches : List (Int × ℚ)).map Prod.snd
      ∧ (run 36 (Experience.begin none (initial samplePage))).fw.rockets.length = 12 :=
  ⟨by decide,
   ((launch_sequence_run samplePage none
      (List.replicate 10 Ev.tick ++ [Ev.frame] ++ List.replicate 12 Ev.tick) (by decide)
      36).2.2.1 (by decide)).1,
   ((launch_sequence_run samplePage none
      (List.replicate 10 Ev.tick ++ [Ev.frame] ++ List.replicate 12 Ev.tick) (by decide)
      36).2.2.2.2.2.2.2.2 (by decide)).2⟩

end Launches

end NewYear
